import Mathlib

/-!
Verification of the k8s-pvc-migrator repository (three Python scripts:
`moveStorage.py`, `double_pivot_all.py`, `double_pivot_safe.py`) against its
natural-language specification.

The cluster is modelled as an explicit state (`Cluster`); every mutating API
call a script issues is an `Op`, applied by `applyOp` and also recorded in a
trace, so that dry-run/frame claims can be stated as facts about the trace.
Each script is embedded in its own namespace; function and argument names
follow the Python source.  External nondeterminism is made explicit:
the terminal phase of a copy pod is an oracle `String -> PodPhase`, and the
possibility that a snapshot API call raises is a boolean injected at the
call site that the source leaves unguarded.
-/

/-- A PersistentVolumeClaim as the scripts see it: name, spec.storage_class_name,
spec.resources.requests["storage"], spec.access_modes, and (moveStorage only)
an optional VolumeSnapshot data source. -/
structure PVC where
  name : String
  storageClass : String
  size : String
  accessModes : List String
  dataSource : Option String := none
  deriving DecidableEq, Repr

/-- A pod, as relevant to the scripts: its name, whether any ownerReference is a
controller, and the claim names of its persistentVolumeClaim volumes. -/
structure PodV where
  name : String
  controllerOwned : Bool
  claimNames : List String
  deriving DecidableEq, Repr

/-- A volumeClaimTemplate of a StatefulSet: metadata.name and
spec.storage_class_name. -/
structure VCT where
  name : String
  storageClassName : String
  deriving DecidableEq, Repr

/-- A Deployment: uid, name, the claim names referenced by its pod template
volumes, and spec.replicas. -/
structure Deployment where
  uid : String
  name : String
  claimNames : List String
  replicas : Int
  deriving DecidableEq, Repr

/-- A ReplicaSet; spec.replicas is optional in the API, and the source reads it
as `rs.spec.replicas or 0`. -/
structure ReplicaSet where
  uid : String
  name : String
  claimNames : List String
  replicas : Option Int
  deriving DecidableEq, Repr

/-- A StatefulSet: template volumes, volumeClaimTemplates and spec.replicas. -/
structure StatefulSet where
  uid : String
  name : String
  claimNames : List String
  vcts : List VCT
  replicas : Int
  deriving DecidableEq, Repr

/-- A DaemonSet; `pausedSelector` models whether the
`nodeSelector {migration-paused: true}` patch is in place. -/
structure DaemonSet where
  uid : String
  name : String
  claimNames : List String
  pausedSelector : Bool := false
  deriving DecidableEq, Repr

/-- A CronJob with its spec.suspend flag; its pod template lives under
spec.job_template. -/
structure CronJob where
  uid : String
  name : String
  claimNames : List String
  suspend : Bool := false
  deriving DecidableEq, Repr

/-- A Job (run-once workload). -/
structure JobW where
  uid : String
  name : String
  claimNames : List String
  deriving DecidableEq, Repr

/-- A VolumeSnapshot object created by moveStorage.py. -/
structure Snapshot where
  name : String
  sourcePvc : String
  className : String
  deriving DecidableEq, Repr

/-- A VolumeSnapshotClass as probed by moveStorage.py (deletionPolicy and
driver fields). -/
structure SnapClass where
  name : String
  deletionPolicy : String
  driver : String
  deriving DecidableEq, Repr

/-- The namespace-scoped cluster state the scripts read and mutate.  All API
calls in the source are namespace-scoped, so a single namespace is modelled. -/
structure Cluster where
  pvcs : List PVC := []
  pods : List PodV := []
  deployments : List Deployment := []
  replicasets : List ReplicaSet := []
  statefulsets : List StatefulSet := []
  daemonsets : List DaemonSet := []
  cronjobs : List CronJob := []
  jobs : List JobW := []
  snapshots : List Snapshot := []
  snapClasses : List SnapClass := []
  deriving DecidableEq, Repr

/-- Terminal phase of a copy pod, the two states the wait loops exit on. -/
inductive PodPhase where
  | Succeeded
  | Failed
  deriving DecidableEq, Repr

/-- Every mutating cluster API call a script can issue. -/
inductive Op where
  | createPVC (p : PVC)
  | deletePVC (name : String)
  | createPod (name src dst : String)
  | deletePod (name : String)
  | scaleDeployment (name : String) (replicas : Int)
  | scaleReplicaSet (name : String) (replicas : Int)
  | scaleStatefulSet (name : String) (replicas : Int)
  | patchDaemonSetSelector (name : String) (paused : Bool)
  | patchCronJobSuspend (name : String) (suspend : Bool)
  | deleteJob (name : String)
  | createSnapshot (name pvcName className : String)
  | patchDeploymentClaim (name oldClaim newClaim : String)
  | patchStatefulSetClaim (name oldClaim newClaim : String)
  | patchDaemonSetClaim (name oldClaim newClaim : String)
  | patchStatefulSetVct (name oldSc newValue : String)
  deriving DecidableEq, Repr

/-- Semantics of one mutating call against the cluster.  A create of a PVC or
snapshot whose name already exists is rejected by the API server (HTTP 409)
and leaves the state unchanged; whether that rejection aborts the calling
script is decided at each call site, following the presence or absence of a
try/except in the source.  Pod creation is modelled as an unconditional
append: the scripts always delete a copy pod before creating the next one, so
theorems about non-dry runs carry a no-leftover-pods hypothesis on every
cluster a copy pod is created in, keeping this arm exercised only where the
real create cannot 409.  Deletes and patches of absent objects leave the
state unchanged. -/
def applyOp (c : Cluster) : Op → Cluster
  | .createPVC p =>
      if c.pvcs.any (fun q => q.name == p.name) then c
      else { c with pvcs := c.pvcs ++ [p] }
  | .deletePVC n => { c with pvcs := c.pvcs.filter (fun q => !(q.name == n)) }
  | .createPod n s d => { c with pods := c.pods ++ [⟨n, false, [s, d]⟩] }
  | .deletePod n => { c with pods := c.pods.filter (fun p => !(p.name == n)) }
  | .scaleDeployment n r =>
      { c with deployments :=
          c.deployments.map (fun d => if d.name == n then { d with replicas := r } else d) }
  | .scaleReplicaSet n r =>
      { c with replicasets :=
          c.replicasets.map (fun d => if d.name == n then { d with replicas := some r } else d) }
  | .scaleStatefulSet n r =>
      { c with statefulsets :=
          c.statefulsets.map (fun d => if d.name == n then { d with replicas := r } else d) }
  | .patchDaemonSetSelector n b =>
      { c with daemonsets :=
          c.daemonsets.map (fun d => if d.name == n then { d with pausedSelector := b } else d) }
  | .patchCronJobSuspend n b =>
      { c with cronjobs :=
          c.cronjobs.map (fun d => if d.name == n then { d with suspend := b } else d) }
  | .deleteJob n => { c with jobs := c.jobs.filter (fun j => !(j.name == n)) }
  | .createSnapshot n p cls =>
      if c.snapshots.any (fun s => s.name == n) then c
      else { c with snapshots := c.snapshots ++ [⟨n, p, cls⟩] }
  | .patchDeploymentClaim n old new =>
      { c with deployments :=
          c.deployments.map (fun d =>
            if d.name == n then
              { d with claimNames := d.claimNames.map (fun cn => if cn == old then new else cn) }
            else d) }
  | .patchStatefulSetClaim n old new =>
      { c with statefulsets :=
          c.statefulsets.map (fun d =>
            if d.name == n then
              { d with claimNames := d.claimNames.map (fun cn => if cn == old then new else cn) }
            else d) }
  | .patchDaemonSetClaim n old new =>
      { c with daemonsets :=
          c.daemonsets.map (fun d =>
            if d.name == n then
              { d with claimNames := d.claimNames.map (fun cn => if cn == old then new else cn) }
            else d) }
  | .patchStatefulSetVct n oldSc newValue =>
      { c with statefulsets :=
          c.statefulsets.map (fun d =>
            if d.name == n then
              { d with vcts := d.vcts.map (fun v =>
                  if v.storageClassName == oldSc then { v with storageClassName := newValue } else v) }
            else d) }

/-- One entry of the pivot ledger (double_pivot_metadata.json).  The basic
variant stores the access-mode list under the key access_modes, the safe
variant under modes; both are this record. -/
structure PivotRecord where
  old_name : String
  temp_name : String
  size : String
  modes : List String
  deriving DecidableEq, Repr

/-- Prior state of one workload recorded by the quiescence pass: a replica
count, the marker "patched", the suspend flag True, or the marker "deleted". -/
inductive Prior where
  | replicas (n : Int)
  | patched
  | suspendedTrue
  | deleted
  deriving DecidableEq, Repr

/-- One entry of workload_scale_backup.json: uid maps to (kind, name, prior). -/
structure ScaleEntry where
  uid : String
  kind : String
  name : String
  prior : Prior
  deriving DecidableEq, Repr

/-- Content of workload_scale_backup.json, in dict insertion order. -/
abbrev Backup := List ScaleEntry

/-- The two local state files the double-pivot scripts use; `none` means the
file does not exist. -/
structure Files where
  metadataFile : Option (List PivotRecord) := none
  scaleFile : Option Backup := none
  deriving DecidableEq, Repr

/-- Outcome of a fallible run: termination with the cluster and trace reached,
either normally or by an uncaught exception carrying a message. -/
inductive Out (α : Type) where
  | ok (c : Cluster) (tr : List Op) (v : α)
  | err (c : Cluster) (tr : List Op) (msg : String)
  deriving DecidableEq, Repr

/-- Events of the quiescence pass, ordered as the source performs them: a
mutating cluster call, or the write of the scale-state file. -/
inductive Ev where
  | op (o : Op)
  | writeScaleFile (b : Backup)
  deriving DecidableEq, Repr

namespace DoublePivotSafe

/-- list_pvcs: PVCs of the namespace whose spec.storage_class_name equals the
given storage class. -/
def list_pvcs (c : Cluster) (storage_class : String) : List PVC :=
  c.pvcs.filter (fun p => p.storageClass == storage_class)

/-- create_pvc of double_pivot_safe.py: on dry run only prints; otherwise
issues the create, and swallows a 409 ApiException (the PVC already exists)
instead of failing. -/
def create_pvc (c : Cluster) (tr : List Op) (name storage_class size : String)
    (access_modes : List String) (dry_run : Bool) : Cluster × List Op :=
  if dry_run then (c, tr)
  else if c.pvcs.any (fun q => q.name == name) then (c, tr)
  else
    let p : PVC := ⟨name, storage_class, size, access_modes, none⟩
    (applyOp c (.createPVC p), tr ++ [.createPVC p])

/-- Base part of sanitize_pod_name: the name lowered, stripped to
[a-z0-9-], truncated to 20 characters, with trailing dashes removed.
Lowering is done characterwise, which is what str.lower does here. -/
def sanitizeBase (name : String) : String :=
  let kept := ((name.toList.map Char.toLower).filter (fun ch =>
    decide (('a' ≤ ch ∧ ch ≤ 'z') ∨ ('0' ≤ ch ∧ ch ≤ '9') ∨ ch = '-'))).take 20
  String.mk ((kept.reverse.dropWhile (fun ch => ch == '-')).reverse)

/-- sanitize_pod_name of double_pivot_safe.py. -/
def sanitize_pod_name (name pfx : String) : String :=
  pfx ++ "-" ++ sanitizeBase name

/-- copy_data of double_pivot_safe.py: creates the copy pod, polls the pod
until its status phase is Succeeded or Failed (the oracle gives the terminal
phase the pod eventually reaches), then deletes the pod.  The terminal phase
is inspected only to leave the wait loop; it does not influence anything else. -/
def copy_data (c : Cluster) (tr : List Op) (oracle : String → PodPhase)
    (src dst pfx : String) (dry_run : Bool) : Cluster × List Op :=
  if dry_run then (c, tr)
  else
    let pod_name := sanitize_pod_name src pfx
    let c1 := applyOp c (.createPod pod_name src dst)
    let _phase := oracle pod_name
    (applyOp c1 (.deletePod pod_name), tr ++ [.createPod pod_name src dst, .deletePod pod_name])

/-- match_pvc_template: some volume of the pod template references one of the
affected claim names. -/
def matchClaims (claimNames pvc_names : List String) : Bool :=
  claimNames.any (fun cn => pvc_names.contains cn)

/-- StatefulSet matching in detect_and_scale_down: a pvc name generated from a
volumeClaimTemplate (prefix `<vct>-<sts>-`), or an inline template volume. -/
def stsMatches (sts : StatefulSet) (pvc_names : List String) : Bool :=
  (pvc_names.any (fun pn =>
    sts.vcts.any (fun v => (v.name ++ "-" ++ sts.name ++ "-").isPrefixOf pn)))
  || matchClaims sts.claimNames pvc_names

/-- Deployment pass of detect_and_scale_down: scale matching deployments with
replicas > 0 down to 0, recording every matching deployment in the backup. -/
def scaleDownDeployments (pvc_names : List String) (dry_run : Bool) :
    List Deployment → Cluster → List Ev → Backup → Cluster × List Ev × Backup
  | [], c, evs, b => (c, evs, b)
  | d :: rest, c, evs, b =>
    if matchClaims d.claimNames pvc_names then
      let step : Cluster × List Ev :=
        if 0 < d.replicas then
          if dry_run then (c, evs)
          else (applyOp c (.scaleDeployment d.name 0), evs ++ [.op (.scaleDeployment d.name 0)])
        else (c, evs)
      scaleDownDeployments pvc_names dry_run rest step.1 step.2
        (b ++ [⟨d.uid, "Deployment", d.name, .replicas d.replicas⟩])
    else scaleDownDeployments pvc_names dry_run rest c evs b

/-- ReplicaSet pass of detect_and_scale_down (replicas read as
`rs.spec.replicas or 0`). -/
def scaleDownReplicaSets (pvc_names : List String) (dry_run : Bool) :
    List ReplicaSet → Cluster → List Ev → Backup → Cluster × List Ev × Backup
  | [], c, evs, b => (c, evs, b)
  | d :: rest, c, evs, b =>
    if matchClaims d.claimNames pvc_names then
      let replicas := d.replicas.getD 0
      let step : Cluster × List Ev :=
        if 0 < replicas then
          if dry_run then (c, evs)
          else (applyOp c (.scaleReplicaSet d.name 0), evs ++ [.op (.scaleReplicaSet d.name 0)])
        else (c, evs)
      scaleDownReplicaSets pvc_names dry_run rest step.1 step.2
        (b ++ [⟨d.uid, "ReplicaSet", d.name, .replicas replicas⟩])
    else scaleDownReplicaSets pvc_names dry_run rest c evs b

/-- StatefulSet pass of detect_and_scale_down. -/
def scaleDownStatefulSets (pvc_names : List String) (dry_run : Bool) :
    List StatefulSet → Cluster → List Ev → Backup → Cluster × List Ev × Backup
  | [], c, evs, b => (c, evs, b)
  | d :: rest, c, evs, b =>
    if stsMatches d pvc_names then
      let step : Cluster × List Ev :=
        if 0 < d.replicas then
          if dry_run then (c, evs)
          else (applyOp c (.scaleStatefulSet d.name 0), evs ++ [.op (.scaleStatefulSet d.name 0)])
        else (c, evs)
      scaleDownStatefulSets pvc_names dry_run rest step.1 step.2
        (b ++ [⟨d.uid, "StatefulSet", d.name, .replicas d.replicas⟩])
    else scaleDownStatefulSets pvc_names dry_run rest c evs b

/-- DaemonSet pass: patch a pausing nodeSelector onto matching daemonsets,
recording the marker "patched". -/
def pauseDaemonSets (pvc_names : List String) (dry_run : Bool) :
    List DaemonSet → Cluster → List Ev → Backup → Cluster × List Ev × Backup
  | [], c, evs, b => (c, evs, b)
  | d :: rest, c, evs, b =>
    if matchClaims d.claimNames pvc_names then
      let step : Cluster × List Ev :=
        if dry_run then (c, evs)
        else (applyOp c (.patchDaemonSetSelector d.name true),
              evs ++ [.op (.patchDaemonSetSelector d.name true)])
      pauseDaemonSets pvc_names dry_run rest step.1 step.2
        (b ++ [⟨d.uid, "DaemonSet", d.name, .patched⟩])
    else pauseDaemonSets pvc_names dry_run rest c evs b

/-- CronJob pass: suspend matching cronjobs, recording the flag True. -/
def suspendCronJobs (pvc_names : List String) (dry_run : Bool) :
    List CronJob → Cluster → List Ev → Backup → Cluster × List Ev × Backup
  | [], c, evs, b => (c, evs, b)
  | d :: rest, c, evs, b =>
    if matchClaims d.claimNames pvc_names then
      let step : Cluster × List Ev :=
        if dry_run then (c, evs)
        else (applyOp c (.patchCronJobSuspend d.name true),
              evs ++ [.op (.patchCronJobSuspend d.name true)])
      suspendCronJobs pvc_names dry_run rest step.1 step.2
        (b ++ [⟨d.uid, "CronJob", d.name, .suspendedTrue⟩])
    else suspendCronJobs pvc_names dry_run rest c evs b

/-- Job pass: delete matching jobs outright, recording the marker "deleted". -/
def deleteJobs (pvc_names : List String) (dry_run : Bool) :
    List JobW → Cluster → List Ev → Backup → Cluster × List Ev × Backup
  | [], c, evs, b => (c, evs, b)
  | d :: rest, c, evs, b =>
    if matchClaims d.claimNames pvc_names then
      let step : Cluster × List Ev :=
        if dry_run then (c, evs)
        else (applyOp c (.deleteJob d.name), evs ++ [.op (.deleteJob d.name)])
      deleteJobs pvc_names dry_run rest step.1 step.2
        (b ++ [⟨d.uid, "Job", d.name, .deleted⟩])
    else deleteJobs pvc_names dry_run rest c evs b

/-- detect_and_scale_down: every workload list is read up front; the passes run
in source order (deployments, replicasets, statefulsets, daemonsets, cronjobs,
jobs), mutating as they match; only after all passes, when not a dry run, the
collected backup is written to workload_scale_backup.json. -/
def detect_and_scale_down (c : Cluster) (pvc_names : List String) (dry_run : Bool) :
    Cluster × List Ev × Backup :=
  let deployments := c.deployments
  let statefulsets := c.statefulsets
  let replicasets := c.replicasets
  let daemonsets := c.daemonsets
  let cronjobs := c.cronjobs
  let jobs := c.jobs
  let s1 := scaleDownDeployments pvc_names dry_run deployments c [] []
  let s2 := scaleDownReplicaSets pvc_names dry_run replicasets s1.1 s1.2.1 s1.2.2
  let s3 := scaleDownStatefulSets pvc_names dry_run statefulsets s2.1 s2.2.1 s2.2.2
  let s4 := pauseDaemonSets pvc_names dry_run daemonsets s3.1 s3.2.1 s3.2.2
  let s5 := suspendCronJobs pvc_names dry_run cronjobs s4.1 s4.2.1 s4.2.2
  let s6 := deleteJobs pvc_names dry_run jobs s5.1 s5.2.1 s5.2.2
  if dry_run then s6
  else (s6.1, s6.2.1 ++ [.writeScaleFile s6.2.2], s6.2.2)

/-- Restore loop of scale_back_up over the persisted entries, in file order.
For scalable kinds the recorded replica count is patched back; a DaemonSet
gets its pausing nodeSelector removed; a CronJob is unsuspended; a Job is only
reported, never recreated.  A ledger written by detect_and_scale_down always
stores a replica count for the scalable kinds. -/
def restoreEntries (dry_run : Bool) : Backup → Cluster → List Op → Cluster × List Op
  | [], c, tr => (c, tr)
  | e :: rest, c, tr =>
    let step : Cluster × List Op :=
      if e.kind == "Deployment" then
        match e.prior with
        | .replicas n =>
          if dry_run then (c, tr)
          else (applyOp c (.scaleDeployment e.name n), tr ++ [.scaleDeployment e.name n])
        | _ => (c, tr)
      else if e.kind == "ReplicaSet" then
        match e.prior with
        | .replicas n =>
          if dry_run then (c, tr)
          else (applyOp c (.scaleReplicaSet e.name n), tr ++ [.scaleReplicaSet e.name n])
        | _ => (c, tr)
      else if e.kind == "StatefulSet" then
        match e.prior with
        | .replicas n =>
          if dry_run then (c, tr)
          else (applyOp c (.scaleStatefulSet e.name n), tr ++ [.scaleStatefulSet e.name n])
        | _ => (c, tr)
      else if e.kind == "DaemonSet" then
        if dry_run then (c, tr)
        else (applyOp c (.patchDaemonSetSelector e.name false),
              tr ++ [.patchDaemonSetSelector e.name false])
      else if e.kind == "CronJob" then
        if dry_run then (c, tr)
        else (applyOp c (.patchCronJobSuspend e.name false),
              tr ++ [.patchCronJobSuspend e.name false])
      else (c, tr)
    restoreEntries dry_run rest step.1 step.2

/-- scale_back_up: if the scale-state file is missing, print and return;
otherwise restore every entry and, when not a dry run, remove the file. -/
def scale_back_up (c : Cluster) (tr : List Op) (file : Option Backup) (dry_run : Bool) :
    Cluster × List Op × Option Backup :=
  match file with
  | none => (c, tr, none)
  | some b =>
    let step := restoreEntries dry_run b c tr
    (step.1, step.2, if dry_run then some b else none)

/-- Record appended to the metadata list for one PVC in phase 1. -/
def mkRecord (p : PVC) : PivotRecord :=
  ⟨p.name, p.name ++ "-temp", p.size, p.accessModes⟩

/-- Phase-1 loop of main: per discovered PVC, create `<name>-temp` in the
target class, copy old to temp, and append the metadata record. -/
def phase1Loop (oracle : String → PodPhase) (target_sc : String) (dry_run : Bool) :
    List PVC → Cluster → List Op → List PivotRecord → Cluster × List Op × List PivotRecord
  | [], c, tr, md => (c, tr, md)
  | p :: rest, c, tr, md =>
    let temp_name := p.name ++ "-temp"
    let s1 := create_pvc c tr temp_name target_sc p.size p.accessModes dry_run
    let s2 := copy_data s1.1 s1.2 oracle p.name temp_name "pivot1" dry_run
    phase1Loop oracle target_sc dry_run rest s2.1 s2.2 (md ++ [mkRecord p])

/-- Phase-2 loop of main: per ledger record, delete the original PVC
(tolerating failure), recreate the original name in the target class, copy
temp to original, delete the temp PVC (tolerating failure). -/
def phase2Loop (oracle : String → PodPhase) (target_sc : String) (dry_run : Bool) :
    List PivotRecord → Cluster → List Op → Cluster × List Op
  | [], c, tr => (c, tr)
  | r :: rest, c, tr =>
    let s0 : Cluster × List Op :=
      if dry_run then (c, tr)
      else (applyOp c (.deletePVC r.old_name), tr ++ [.deletePVC r.old_name])
    let s1 := create_pvc s0.1 s0.2 r.old_name target_sc r.size r.modes dry_run
    let s2 := copy_data s1.1 s1.2 oracle r.temp_name r.old_name "pivot2" dry_run
    let s3 : Cluster × List Op :=
      if dry_run then (s2.1, s2.2)
      else (applyOp s2.1 (.deletePVC r.temp_name), s2.2 ++ [.deletePVC r.temp_name])
    phase2Loop oracle target_sc dry_run rest s3.1 s3.2

/-- Projection of the quiescence event list to the mutating cluster calls. -/
def evOps (evs : List Ev) : List Op :=
  evs.filterMap (fun e => match e with | .op o => some o | .writeScaleFile _ => none)

/-- main of double_pivot_safe.py.  Without the recreate flag it runs phase 1
(optionally quiescing workloads first) and, when not a dry run, writes the
metadata file; with the recreate flag it runs phase 2 from the metadata file,
restores workloads from the scale-state file, and removes the metadata file. -/
def main (origin_sc target_sc : String) (recreate dry_run set_replica_0 : Bool)
    (oracle : String → PodPhase) (c : Cluster) (files : Files) :
    Cluster × Files × List Op :=
  if !recreate then
    let pvcs := list_pvcs c origin_sc
    if pvcs.isEmpty then (c, files, [])
    else
      let pvc_names := pvcs.map (fun p => p.name)
      let q : Cluster × List Ev × Backup :=
        if set_replica_0 then detect_and_scale_down c pvc_names dry_run
        else (c, [], [])
      let files1 :=
        if set_replica_0 && !dry_run then { files with scaleFile := some q.2.2 } else files
      let s := phase1Loop oracle target_sc dry_run pvcs q.1 (evOps q.2.1) []
      let files2 := if !dry_run then { files1 with metadataFile := some s.2.2 } else files1
      (s.1, files2, s.2.1)
  else
    match files.metadataFile with
    | none => (c, files, [])
    | some records =>
      let s := phase2Loop oracle target_sc dry_run records c []
      let r := scale_back_up s.1 s.2 files.scaleFile dry_run
      let files1 :=
        if dry_run then { files with scaleFile := r.2.2 }
        else { metadataFile := none, scaleFile := r.2.2 }
      (r.1, files1, r.2.1)

end DoublePivotSafe

namespace DoublePivotAll

/-- list_pvcs_in_storageclass of double_pivot_all.py. -/
def list_pvcs_in_storageclass (c : Cluster) (storage_class : String) : List PVC :=
  c.pvcs.filter (fun p => p.storageClass == storage_class)

/-- create_pvc of double_pivot_all.py: unlike the safe variant there is no
try/except around the create call, so an ApiException (for instance a 409
conflict when the name already exists) propagates and aborts the run. -/
def create_pvc (c : Cluster) (tr : List Op) (name storage_class size : String)
    (access_modes : List String) (dry_run : Bool) : Out Unit :=
  if dry_run then .ok c tr ()
  else if c.pvcs.any (fun q => q.name == name) then
    .err c tr "ApiException 409: persistentvolumeclaims already exists"
  else
    let p : PVC := ⟨name, storage_class, size, access_modes, none⟩
    .ok (applyOp c (.createPVC p)) (tr ++ [.createPVC p]) ()

/-- Pod name used by copy_data_with_pod: the prefix and the first 20
characters of the source PVC name, unsanitized. -/
def podName (pfx source_pvc : String) : String :=
  pfx ++ "-" ++ source_pvc.take 20

/-- copy_data_with_pod of double_pivot_all.py: create the copy pod, poll the
pod until its status phase is Succeeded or Failed (the oracle supplies the
terminal phase), print that phase, then delete the pod.  The phase value has
no effect beyond the print. -/
def copy_data_with_pod (c : Cluster) (tr : List Op) (oracle : String → PodPhase)
    (source_pvc target_pvc pfx : String) (dry_run : Bool) : Cluster × List Op :=
  if dry_run then (c, tr)
  else
    let pod_name := podName pfx source_pvc
    let c1 := applyOp c (.createPod pod_name source_pvc target_pvc)
    let _phase := oracle pod_name
    (applyOp c1 (.deletePod pod_name),
     tr ++ [.createPod pod_name source_pvc target_pvc, .deletePod pod_name])

/-- Record appended to pivot_info for one PVC in phase 1 (the JSON keys are
old_name, temp_name, size, access_modes). -/
def mkRecord (p : PVC) : PivotRecord :=
  ⟨p.name, p.name ++ "-temp", p.size, p.accessModes⟩

/-- Loop of phase_one over the discovered PVCs: create `<old>-temp` in the
target class (aborting on an uncaught ApiException), copy old to temp, append
the pivot record. -/
def phase1Loop (oracle : String → PodPhase) (target_sc : String) (dry_run : Bool) :
    List PVC → Cluster → List Op → List PivotRecord → Out (List PivotRecord)
  | [], c, tr, md => .ok c tr md
  | p :: rest, c, tr, md =>
    match create_pvc c tr (p.name ++ "-temp") target_sc p.size p.accessModes dry_run with
    | .err c1 tr1 m => .err c1 tr1 m
    | .ok c1 tr1 _ =>
      let s := copy_data_with_pod c1 tr1 oracle p.name (p.name ++ "-temp") "pivot1" dry_run
      phase1Loop oracle target_sc dry_run rest s.1 s.2 (md ++ [mkRecord p])

/-- Result of running one of the double_pivot_all.py phases: final cluster,
state files, trace of mutating calls, and the uncaught exception if any. -/
structure AllResult where
  cluster : Cluster
  files : Files
  trace : List Op
  error : Option String
  deriving DecidableEq, Repr

/-- phase_one of double_pivot_all.py: discover PVCs of the origin class, run
the loop, and when not a dry run and at least one record was made, write the
metadata file (the write is skipped if the loop aborted). -/
def phase_one (origin_sc target_sc : String) (dry_run : Bool)
    (oracle : String → PodPhase) (c : Cluster) (files : Files) : AllResult :=
  let old_pvcs := list_pvcs_in_storageclass c origin_sc
  if old_pvcs.isEmpty then ⟨c, files, [], none⟩
  else
    match phase1Loop oracle target_sc dry_run old_pvcs c [] [] with
    | .err c1 tr1 m => ⟨c1, files, tr1, some m⟩
    | .ok c1 tr1 md =>
      let files1 :=
        if !dry_run && !md.isEmpty then { files with metadataFile := some md } else files
      ⟨c1, files1, tr1, none⟩

/-- Loop of phase_two over the pivot records: recreate the old name in the
target class (aborting on an uncaught ApiException), copy temp to old, and
unless --preserve-temp was given delete the temp PVC. -/
def phase2Loop (oracle : String → PodPhase) (target_sc : String)
    (dry_run preserve_temp : Bool) :
    List PivotRecord → Cluster → List Op → Out Unit
  | [], c, tr => .ok c tr ()
  | r :: rest, c, tr =>
    match create_pvc c tr r.old_name target_sc r.size r.modes dry_run with
    | .err c1 tr1 m => .err c1 tr1 m
    | .ok c1 tr1 _ =>
      let s := copy_data_with_pod c1 tr1 oracle r.temp_name r.old_name "pivot2" dry_run
      let s3 : Cluster × List Op :=
        if !preserve_temp then
          if dry_run then (s.1, s.2)
          else (applyOp s.1 (.deletePVC r.temp_name), s.2 ++ [.deletePVC r.temp_name])
        else (s.1, s.2)
      phase2Loop oracle target_sc dry_run preserve_temp rest s3.1 s3.2

/-- phase_two of double_pivot_all.py: if the metadata file is missing or holds
no records, print and return without touching anything; otherwise run the
loop and, when not a dry run, remove the metadata file afterwards. -/
def phase_two (target_sc : String) (dry_run preserve_temp : Bool)
    (oracle : String → PodPhase) (c : Cluster) (files : Files) : AllResult :=
  match files.metadataFile with
  | none => ⟨c, files, [], none⟩
  | some pivot_info =>
    if pivot_info.isEmpty then ⟨c, files, [], none⟩
    else
      match phase2Loop oracle target_sc dry_run preserve_temp pivot_info c [] with
      | .err c1 tr1 m => ⟨c1, files, tr1, some m⟩
      | .ok c1 tr1 _ =>
        let files1 := if !dry_run then { files with metadataFile := none } else files
        ⟨c1, files1, tr1, none⟩

/-- main of double_pivot_all.py: phase 2 when the recreate flag is set,
otherwise phase 1. -/
def main (origin_sc target_sc : String) (recreate dry_run preserve_temp : Bool)
    (oracle : String → PodPhase) (c : Cluster) (files : Files) : AllResult :=
  if recreate then phase_two target_sc dry_run preserve_temp oracle c files
  else phase_one origin_sc target_sc dry_run oracle c files

end DoublePivotAll

namespace MoveStorage

/-- CLI flags of moveStorage.py. -/
structure Args where
  origin : String
  target : String
  dry_run : Bool
  prefer_snapshot : Bool
  export_pods : Bool
  delete_pvc : Bool
  copy_only : Bool
  deriving DecidableEq, Repr

/-- get_pvcs_by_storage_class of moveStorage.py. -/
def get_pvcs_by_storage_class (c : Cluster) (storage_class : String) : List PVC :=
  c.pvcs.filter (fun p => p.storageClass == storage_class)

/-- Python substring containment (the `in` operator on strings). -/
def strContains (hay needle : String) : Bool :=
  (List.range (hay.toList.length + 1)).any (fun i =>
    needle.toList.isPrefixOf (hay.toList.drop i))

/-- get_snapshot_class_for_storage_class: list the cluster snapshot classes
and return the first whose deletionPolicy is Delete and whose driver contains
the storage-class name.  The whole probe is wrapped in try/except in the
source, so a failing list call (probeFails) yields None instead of raising. -/
def get_snapshot_class_for_storage_class (classes : List SnapClass) (probeFails : Bool)
    (storage_class_name : String) : Option String :=
  if probeFails then none
  else
    (classes.find? (fun sc =>
      sc.deletionPolicy == "Delete" && strContains sc.driver storage_class_name)).map
      (fun sc => sc.name)

/-- create_volume_snapshot: on dry run just report the would-be name; otherwise
issue the create (there is no try/except here, so a failing create —
snapCreateFails — propagates and aborts the run) and poll until the snapshot
reports readyToUse. -/
def create_volume_snapshot (c : Cluster) (tr : List Op) (pvc_name snapshot_class_name : String)
    (snapCreateFails dry_run : Bool) : Out String :=
  let snapshot_name := pvc_name ++ "-snap"
  if dry_run then .ok c tr snapshot_name
  else if snapCreateFails then .err c tr "ApiException creating VolumeSnapshot"
  else
    .ok (applyOp c (.createSnapshot snapshot_name pvc_name snapshot_class_name))
      (tr ++ [.createSnapshot snapshot_name pvc_name snapshot_class_name]) snapshot_name

/-- create_new_pvc: the new PVC is named `<old>-<clean target class>`; with a
snapshot name it carries that snapshot as dataSource.  The create call is not
guarded, so an ApiException (e.g. 409) propagates and aborts the run. -/
def create_new_pvc (c : Cluster) (tr : List Op) (old_pvc : PVC) (target_storage_class : String)
    (dry_run : Bool) (snapshot_name : Option String) : Out String :=
  let clean_sc := String.mk (target_storage_class.toList.map
    (fun ch => if Char.toLower ch == '_' then '-' else Char.toLower ch))
  let new_pvc_name := old_pvc.name ++ "-" ++ clean_sc
  if dry_run then .ok c tr new_pvc_name
  else if c.pvcs.any (fun q => q.name == new_pvc_name) then
    .err c tr "ApiException 409: persistentvolumeclaims already exists"
  else
    let p : PVC := ⟨new_pvc_name, target_storage_class, old_pvc.size,
                    old_pvc.accessModes, snapshot_name⟩
    .ok (applyOp c (.createPVC p)) (tr ++ [.createPVC p]) new_pvc_name

/-- create_pivot_pod: pod named `pivot-copy-<first 20 chars of source>`;
created, polled until Succeeded or Failed (the oracle supplies the terminal
phase, which is only printed), then deleted. -/
def create_pivot_pod (c : Cluster) (tr : List Op) (oracle : String → PodPhase)
    (source_pvc target_pvc : String) (dry_run : Bool) : Cluster × List Op :=
  if dry_run then (c, tr)
  else
    let pod_name := "pivot-copy-" ++ source_pvc.take 20
    let c1 := applyOp c (.createPod pod_name source_pvc target_pvc)
    let _phase := oracle pod_name
    (applyOp c1 (.deletePod pod_name),
     tr ++ [.createPod pod_name source_pvc target_pvc, .deletePod pod_name])

/-- Deployment pass of patch_workload_using_pvc: for every matching template
volume the source rewrites the local object and issues a patch; the net effect
of the accumulated patches is renaming every matching claim reference. -/
def patchDeployList (old_pvc_name new_pvc_name : String) (dry_run : Bool) :
    List Deployment → Cluster → List Op → Cluster × List Op
  | [], c, tr => (c, tr)
  | d :: rest, c, tr =>
    let k := d.claimNames.countP (fun cn => cn == old_pvc_name)
    let ops := List.replicate k (Op.patchDeploymentClaim d.name old_pvc_name new_pvc_name)
    let step : Cluster × List Op :=
      if dry_run then (c, tr) else (ops.foldl applyOp c, tr ++ ops)
    patchDeployList old_pvc_name new_pvc_name dry_run rest step.1 step.2

/-- StatefulSet pass of patch_workload_using_pvc: a patch per
volumeClaimTemplate whose storage class equals the old PVC storage class
(rewriting it, as the source does, to the new PVC *name*), plus a patch per
matching inline template volume. -/
def patchStsList (old_pvc_name old_sc new_pvc_name : String) (dry_run : Bool) :
    List StatefulSet → Cluster → List Op → Cluster × List Op
  | [], c, tr => (c, tr)
  | d :: rest, c, tr =>
    let k1 := d.vcts.countP (fun v => v.storageClassName == old_sc)
    let ops1 := List.replicate k1 (Op.patchStatefulSetVct d.name old_sc new_pvc_name)
    let k2 := d.claimNames.countP (fun cn => cn == old_pvc_name)
    let ops2 := List.replicate k2 (Op.patchStatefulSetClaim d.name old_pvc_name new_pvc_name)
    let step : Cluster × List Op :=
      if dry_run then (c, tr) else ((ops1 ++ ops2).foldl applyOp c, tr ++ ops1 ++ ops2)
    patchStsList old_pvc_name old_sc new_pvc_name dry_run rest step.1 step.2

/-- DaemonSet pass of patch_workload_using_pvc. -/
def patchDsList (old_pvc_name new_pvc_name : String) (dry_run : Bool) :
    List DaemonSet → Cluster → List Op → Cluster × List Op
  | [], c, tr => (c, tr)
  | d :: rest, c, tr =>
    let k := d.claimNames.countP (fun cn => cn == old_pvc_name)
    let ops := List.replicate k (Op.patchDaemonSetClaim d.name old_pvc_name new_pvc_name)
    let step : Cluster × List Op :=
      if dry_run then (c, tr) else (ops.foldl applyOp c, tr ++ ops)
    patchDsList old_pvc_name new_pvc_name dry_run rest step.1 step.2

/-- patch_workload_using_pvc: patch Deployments, StatefulSets and DaemonSets
referencing the old PVC (in that source order).  The final scan over
standalone pods issues no cluster mutation: it only prints and, with
--export-pods, writes local manifest files and the post-migrate script, which
are local file I/O outside the cluster, so they do not appear in the trace. -/
def patch_workload_using_pvc (c : Cluster) (tr : List Op) (old_pvc : PVC)
    (new_pvc_name : String) (dry_run export_pods : Bool) : Cluster × List Op :=
  let deployments := c.deployments
  let statefulsets := c.statefulsets
  let daemonsets := c.daemonsets
  let s1 := patchDeployList old_pvc.name new_pvc_name dry_run deployments c tr
  let s2 := patchStsList old_pvc.name old_pvc.storageClass new_pvc_name dry_run statefulsets s1.1 s1.2
  let s3 := patchDsList old_pvc.name new_pvc_name dry_run daemonsets s2.1 s2.2
  s3

/-- delete_old_pvc: deletes only when --delete-pvc was given and not a dry
run. -/
def delete_old_pvc (c : Cluster) (tr : List Op) (pvc_name : String)
    (dry_run delete_enabled : Bool) : Cluster × List Op :=
  if !delete_enabled then (c, tr)
  else if dry_run then (c, tr)
  else (applyOp c (.deletePVC pvc_name), tr ++ [.deletePVC pvc_name])

/-- Per-PVC loop of main: optional snapshot fast path (probing failure or no
matching class falls back to None; a failing snapshot create aborts), creation
of the new PVC, pivot copy when no snapshot was used, then unless --copy-only
the workload patch and optional deletion of the old PVC. -/
def mainLoop (args : Args) (oracle : String → PodPhase) (probeFails snapCreateFails : Bool) :
    List PVC → Cluster → List Op → Out Unit
  | [], c, tr => .ok c tr ()
  | pvc :: rest, c, tr =>
    let snapRes : Out (Option String) :=
      if args.prefer_snapshot then
        match get_snapshot_class_for_storage_class c.snapClasses probeFails args.origin with
        | some snapshot_class =>
          match create_volume_snapshot c tr pvc.name snapshot_class snapCreateFails args.dry_run with
          | .err c1 tr1 m => .err c1 tr1 m
          | .ok c1 tr1 sn => .ok c1 tr1 (some sn)
        | none => .ok c tr none
      else .ok c tr none
    match snapRes with
    | .err c1 tr1 m => .err c1 tr1 m
    | .ok c1 tr1 snapshot_name =>
      match create_new_pvc c1 tr1 pvc args.target args.dry_run snapshot_name with
      | .err c2 tr2 m => .err c2 tr2 m
      | .ok c2 tr2 new_pvc_name =>
        let s3 : Cluster × List Op :=
          if snapshot_name.isNone then
            create_pivot_pod c2 tr2 oracle pvc.name new_pvc_name args.dry_run
          else (c2, tr2)
        let s4 : Cluster × List Op :=
          if args.copy_only then s3
          else
            let sp := patch_workload_using_pvc s3.1 s3.2 pvc new_pvc_name
              args.dry_run args.export_pods
            delete_old_pvc sp.1 sp.2 pvc.name args.dry_run args.delete_pvc
        mainLoop args oracle probeFails snapCreateFails rest s4.1 s4.2

/-- main of moveStorage.py: discover the PVCs of the origin class and migrate
each in turn. -/
def main (args : Args) (oracle : String → PodPhase) (probeFails snapCreateFails : Bool)
    (c : Cluster) : Out Unit :=
  let pvcs := get_pvcs_by_storage_class c args.origin
  if pvcs.isEmpty then .ok c [] ()
  else mainLoop args oracle probeFails snapCreateFails pvcs c []

end MoveStorage

/-- Trace reached by a fallible run, whether it ended normally or aborted. -/
def Out.traceOf {α : Type} : Out α → List Op
  | .ok _ tr _ => tr
  | .err _ tr _ => tr

/-- Cluster reached by a fallible run, whether it ended normally or aborted. -/
def Out.clusterOf {α : Type} : Out α → Cluster
  | .ok c _ _ => c
  | .err c _ _ => c

/-- Whether a fallible run aborted with an uncaught exception. -/
def Out.isErr {α : Type} : Out α → Bool
  | .ok _ _ _ => false
  | .err _ _ _ => true

/-- Whether a mutating call creates a pod (i.e. invokes the copy executor). -/
def isCreatePod : Op → Bool
  | .createPod _ _ _ => true
  | _ => false

/-- The temp PVC that phase 1 creates for an original volume. -/
def tempPVC (target_sc : String) (p : PVC) : PVC :=
  ⟨p.name ++ "-temp", target_sc, p.size, p.accessModes, none⟩

/-- The final PVC that phase 2 creates for a pivot record. -/
def finalPVC (target_sc : String) (r : PivotRecord) : PVC :=
  ⟨r.old_name, target_sc, r.size, r.modes, none⟩

/-- Names of the PVCs of a cluster. -/
def pvcNames (c : Cluster) : List String :=
  c.pvcs.map PVC.name

section DryRunLemmas

open DoublePivotSafe

/-- On a dry run the deployment quiescence pass changes nothing and emits
nothing. -/
theorem scaleDownDeployments_dry (names : List String) (l : List Deployment) :
    ∀ c evs b, (scaleDownDeployments names true l c evs b).1 = c
      ∧ (scaleDownDeployments names true l c evs b).2.1 = evs := by
  induction l with
  | nil => intro c evs b; exact ⟨rfl, rfl⟩
  | cons d rest ih =>
    intro c evs b
    simp only [scaleDownDeployments]
    split
    · simpa using ih c evs _
    · exact ih c evs b

/-- On a dry run the replicaset quiescence pass changes nothing and emits
nothing. -/
theorem scaleDownReplicaSets_dry (names : List String) (l : List ReplicaSet) :
    ∀ c evs b, (scaleDownReplicaSets names true l c evs b).1 = c
      ∧ (scaleDownReplicaSets names true l c evs b).2.1 = evs := by
  induction l with
  | nil => intro c evs b; exact ⟨rfl, rfl⟩
  | cons d rest ih =>
    intro c evs b
    simp only [scaleDownReplicaSets]
    split
    · simpa using ih c evs _
    · exact ih c evs b

/-- On a dry run the statefulset quiescence pass changes nothing and emits
nothing. -/
theorem scaleDownStatefulSets_dry (names : List String) (l : List StatefulSet) :
    ∀ c evs b, (scaleDownStatefulSets names true l c evs b).1 = c
      ∧ (scaleDownStatefulSets names true l c evs b).2.1 = evs := by
  induction l with
  | nil => intro c evs b; exact ⟨rfl, rfl⟩
  | cons d rest ih =>
    intro c evs b
    simp only [scaleDownStatefulSets]
    split
    · simpa using ih c evs _
    · exact ih c evs b

/-- On a dry run the daemonset quiescence pass changes nothing and emits
nothing. -/
theorem pauseDaemonSets_dry (names : List String) (l : List DaemonSet) :
    ∀ c evs b, (pauseDaemonSets names true l c evs b).1 = c
      ∧ (pauseDaemonSets names true l c evs b).2.1 = evs := by
  induction l with
  | nil => intro c evs b; exact ⟨rfl, rfl⟩
  | cons d rest ih =>
    intro c evs b
    simp only [pauseDaemonSets]
    split
    · simpa using ih c evs _
    · exact ih c evs b

/-- On a dry run the cronjob quiescence pass changes nothing and emits
nothing. -/
theorem suspendCronJobs_dry (names : List String) (l : List CronJob) :
    ∀ c evs b, (suspendCronJobs names true l c evs b).1 = c
      ∧ (suspendCronJobs names true l c evs b).2.1 = evs := by
  induction l with
  | nil => intro c evs b; exact ⟨rfl, rfl⟩
  | cons d rest ih =>
    intro c evs b
    simp only [suspendCronJobs]
    split
    · simpa using ih c evs _
    · exact ih c evs b

/-- On a dry run the job quiescence pass changes nothing and emits nothing. -/
theorem deleteJobs_dry (names : List String) (l : List JobW) :
    ∀ c evs b, (deleteJobs names true l c evs b).1 = c
      ∧ (deleteJobs names true l c evs b).2.1 = evs := by
  induction l with
  | nil => intro c evs b; exact ⟨rfl, rfl⟩
  | cons d rest ih =>
    intro c evs b
    simp only [deleteJobs]
    split
    · simpa using ih c evs _
    · exact ih c evs b

/-- Projection form of scaleDownDeployments_dry for rewriting. -/
theorem scaleDownDeployments_dry_fst (names : List String) (l : List Deployment)
    (c : Cluster) (evs : List Ev) (b : Backup) :
    (scaleDownDeployments names true l c evs b).1 = c :=
  (scaleDownDeployments_dry names l c evs b).1

/-- Projection form of scaleDownDeployments_dry for rewriting. -/
theorem scaleDownDeployments_dry_evs (names : List String) (l : List Deployment)
    (c : Cluster) (evs : List Ev) (b : Backup) :
    (scaleDownDeployments names true l c evs b).2.1 = evs :=
  (scaleDownDeployments_dry names l c evs b).2

/-- Projection form of scaleDownReplicaSets_dry for rewriting. -/
theorem scaleDownReplicaSets_dry_fst (names : List String) (l : List ReplicaSet)
    (c : Cluster) (evs : List Ev) (b : Backup) :
    (scaleDownReplicaSets names true l c evs b).1 = c :=
  (scaleDownReplicaSets_dry names l c evs b).1

/-- Projection form of scaleDownReplicaSets_dry for rewriting. -/
theorem scaleDownReplicaSets_dry_evs (names : List String) (l : List ReplicaSet)
    (c : Cluster) (evs : List Ev) (b : Backup) :
    (scaleDownReplicaSets names true l c evs b).2.1 = evs :=
  (scaleDownReplicaSets_dry names l c evs b).2

/-- Projection form of scaleDownStatefulSets_dry for rewriting. -/
theorem scaleDownStatefulSets_dry_fst (names : List String) (l : List StatefulSet)
    (c : Cluster) (evs : List Ev) (b : Backup) :
    (scaleDownStatefulSets names true l c evs b).1 = c :=
  (scaleDownStatefulSets_dry names l c evs b).1

/-- Projection form of scaleDownStatefulSets_dry for rewriting. -/
theorem scaleDownStatefulSets_dry_evs (names : List String) (l : List StatefulSet)
    (c : Cluster) (evs : List Ev) (b : Backup) :
    (scaleDownStatefulSets names true l c evs b).2.1 = evs :=
  (scaleDownStatefulSets_dry names l c evs b).2

/-- Projection form of pauseDaemonSets_dry for rewriting. -/
theorem pauseDaemonSets_dry_fst (names : List String) (l : List DaemonSet)
    (c : Cluster) (evs : List Ev) (b : Backup) :
    (pauseDaemonSets names true l c evs b).1 = c :=
  (pauseDaemonSets_dry names l c evs b).1

/-- Projection form of pauseDaemonSets_dry for rewriting. -/
theorem pauseDaemonSets_dry_evs (names : List String) (l : List DaemonSet)
    (c : Cluster) (evs : List Ev) (b : Backup) :
    (pauseDaemonSets names true l c evs b).2.1 = evs :=
  (pauseDaemonSets_dry names l c evs b).2

/-- Projection form of suspendCronJobs_dry for rewriting. -/
theorem suspendCronJobs_dry_fst (names : List String) (l : List CronJob)
    (c : Cluster) (evs : List Ev) (b : Backup) :
    (suspendCronJobs names true l c evs b).1 = c :=
  (suspendCronJobs_dry names l c evs b).1

/-- Projection form of suspendCronJobs_dry for rewriting. -/
theorem suspendCronJobs_dry_evs (names : List String) (l : List CronJob)
    (c : Cluster) (evs : List Ev) (b : Backup) :
    (suspendCronJobs names true l c evs b).2.1 = evs :=
  (suspendCronJobs_dry names l c evs b).2

/-- Projection form of deleteJobs_dry for rewriting. -/
theorem deleteJobs_dry_fst (names : List String) (l : List JobW)
    (c : Cluster) (evs : List Ev) (b : Backup) :
    (deleteJobs names true l c evs b).1 = c :=
  (deleteJobs_dry names l c evs b).1

/-- Projection form of deleteJobs_dry for rewriting. -/
theorem deleteJobs_dry_evs (names : List String) (l : List JobW)
    (c : Cluster) (evs : List Ev) (b : Backup) :
    (deleteJobs names true l c evs b).2.1 = evs :=
  (deleteJobs_dry names l c evs b).2

/-- On a dry run detect_and_scale_down changes nothing and emits no event. -/
theorem detect_and_scale_down_dry (c : Cluster) (names : List String) :
    (detect_and_scale_down c names true).1 = c
      ∧ (detect_and_scale_down c names true).2.1 = [] := by
  constructor <;>
    simp [detect_and_scale_down,
      scaleDownDeployments_dry_fst, scaleDownDeployments_dry_evs,
      scaleDownReplicaSets_dry_fst, scaleDownReplicaSets_dry_evs,
      scaleDownStatefulSets_dry_fst, scaleDownStatefulSets_dry_evs,
      pauseDaemonSets_dry_fst, pauseDaemonSets_dry_evs,
      suspendCronJobs_dry_fst, suspendCronJobs_dry_evs,
      deleteJobs_dry_fst, deleteJobs_dry_evs]

/-- On a dry run the safe phase-1 loop changes nothing and emits nothing. -/
theorem phase1Loop_safe_dry (oracle : String → PodPhase) (t : String) (l : List PVC) :
    ∀ c tr md, (phase1Loop oracle t true l c tr md).1 = c
      ∧ (phase1Loop oracle t true l c tr md).2.1 = tr := by
  induction l with
  | nil => intro c tr md; exact ⟨rfl, rfl⟩
  | cons p rest ih =>
    intro c tr md
    simp only [phase1Loop, create_pvc, copy_data, if_true]
    exact ih c tr _

/-- On a dry run the safe phase-2 loop changes nothing and emits nothing. -/
theorem phase2Loop_safe_dry (oracle : String → PodPhase) (t : String) (l : List PivotRecord) :
    ∀ c tr, (phase2Loop oracle t true l c tr).1 = c
      ∧ (phase2Loop oracle t true l c tr).2 = tr := by
  induction l with
  | nil => intro c tr; exact ⟨rfl, rfl⟩
  | cons r rest ih =>
    intro c tr
    simp only [phase2Loop, create_pvc, copy_data, if_true]
    exact ih c tr

/-- On a dry run the restore loop changes nothing and emits nothing. -/
theorem restoreEntries_dry (b : Backup) :
    ∀ c tr, (restoreEntries true b c tr).1 = c ∧ (restoreEntries true b c tr).2 = tr := by
  induction b with
  | nil => intro c tr; exact ⟨rfl, rfl⟩
  | cons e rest ih =>
    intro c tr
    simp only [restoreEntries]
    have hstep : ∀ s : Cluster × List Op,
        (s = (c, tr)) → (restoreEntries true rest s.1 s.2).1 = c
          ∧ (restoreEntries true rest s.1 s.2).2 = tr := by
      intro s hs; subst hs; exact ih c tr
    apply hstep
    split
    · cases e.prior <;> simp
    · split
      · cases e.prior <;> simp
      · split
        · cases e.prior <;> simp
        · split
          · simp
          · split <;> simp

end DryRunLemmas

section DryRunMains

/-- Equality form: dry-run safe phase-1 loop only accumulates metadata. -/
theorem phase1Loop_safe_dry_eq (oracle : String → PodPhase) (t : String) (l : List PVC) :
    ∀ c tr md, DoublePivotSafe.phase1Loop oracle t true l c tr md
      = (c, tr, md ++ l.map DoublePivotSafe.mkRecord) := by
  induction l with
  | nil => intro c tr md; simp [DoublePivotSafe.phase1Loop]
  | cons p rest ih =>
    intro c tr md
    simp only [DoublePivotSafe.phase1Loop, DoublePivotSafe.create_pvc,
      DoublePivotSafe.copy_data, if_true, ih, List.map_cons, List.append_assoc,
      List.singleton_append]

/-- Equality form: dry-run safe phase-2 loop changes nothing. -/
theorem phase2Loop_safe_dry_eq (oracle : String → PodPhase) (t : String) (l : List PivotRecord) :
    ∀ c tr, DoublePivotSafe.phase2Loop oracle t true l c tr = (c, tr) := by
  induction l with
  | nil => intro c tr; rfl
  | cons r rest ih =>
    intro c tr
    simp only [DoublePivotSafe.phase2Loop, DoublePivotSafe.create_pvc,
      DoublePivotSafe.copy_data, if_true, ih]

/-- Equality form: dry-run restore loop changes nothing. -/
theorem restoreEntries_dry_eq (b : Backup) (c : Cluster) (tr : List Op) :
    DoublePivotSafe.restoreEntries true b c tr = (c, tr) := by
  have h := restoreEntries_dry b c tr
  calc DoublePivotSafe.restoreEntries true b c tr
      = ((DoublePivotSafe.restoreEntries true b c tr).1,
         (DoublePivotSafe.restoreEntries true b c tr).2) := rfl
    _ = (c, tr) := by rw [h.1, h.2]

/-- Equality form: dry-run scale_back_up changes nothing and keeps the file. -/
theorem scale_back_up_dry_eq (c : Cluster) (tr : List Op) (file : Option Backup) :
    DoublePivotSafe.scale_back_up c tr file true = (c, tr, file) := by
  cases file with
  | none => rfl
  | some b => simp [DoublePivotSafe.scale_back_up, restoreEntries_dry_eq]

/-- A dry-run invocation of double_pivot_safe.py returns the cluster and state
files unchanged and issues no mutating call. -/
theorem DoublePivotSafe_main_dry (origin target : String) (recreate set0 : Bool)
    (oracle : String → PodPhase) (c : Cluster) (files : Files) :
    DoublePivotSafe.main origin target recreate true set0 oracle c files = (c, files, []) := by
  obtain ⟨mf, sf⟩ := files
  cases recreate with
  | false =>
    simp only [DoublePivotSafe.main, Bool.not_false, if_true]
    by_cases hp : (DoublePivotSafe.list_pvcs c origin).isEmpty
    · simp [hp]
    · simp only [hp, Bool.false_eq_true, if_false]
      cases set0 with
      | false => simp [phase1Loop_safe_dry_eq, DoublePivotSafe.evOps]
      | true =>
        have hd := detect_and_scale_down_dry c
          ((DoublePivotSafe.list_pvcs c origin).map (fun p => p.name))
        simp [phase1Loop_safe_dry_eq, DoublePivotSafe.evOps, hd.1, hd.2]
  | true =>
    simp only [DoublePivotSafe.main, Bool.not_true, Bool.false_eq_true, if_false]
    cases mf with
    | none => rfl
    | some records => simp [phase2Loop_safe_dry_eq, scale_back_up_dry_eq]

/-- Equality form: dry-run basic phase-1 loop only accumulates records. -/
theorem phase1Loop_all_dry_eq (oracle : String → PodPhase) (t : String) (l : List PVC) :
    ∀ c tr md, DoublePivotAll.phase1Loop oracle t true l c tr md
      = .ok c tr (md ++ l.map DoublePivotAll.mkRecord) := by
  induction l with
  | nil => intro c tr md; simp [DoublePivotAll.phase1Loop]
  | cons p rest ih =>
    intro c tr md
    simp only [DoublePivotAll.phase1Loop, DoublePivotAll.create_pvc,
      DoublePivotAll.copy_data_with_pod, if_true, ih, List.map_cons,
      List.append_assoc, List.singleton_append]

/-- Equality form: dry-run basic phase-2 loop changes nothing. -/
theorem phase2Loop_all_dry_eq (oracle : String → PodPhase) (t : String) (preserve : Bool)
    (l : List PivotRecord) :
    ∀ c tr, DoublePivotAll.phase2Loop oracle t true preserve l c tr = .ok c tr () := by
  induction l with
  | nil => intro c tr; rfl
  | cons r rest ih =>
    intro c tr
    simp only [DoublePivotAll.phase2Loop, DoublePivotAll.create_pvc,
      DoublePivotAll.copy_data_with_pod, if_true]
    split <;> simp [ih]

/-- A dry-run invocation of double_pivot_all.py returns the cluster and state
files unchanged, issues no mutating call, and raises nothing. -/
theorem DoublePivotAll_main_dry (origin target : String) (recreate preserve : Bool)
    (oracle : String → PodPhase) (c : Cluster) (files : Files) :
    DoublePivotAll.main origin target recreate true preserve oracle c files
      = ⟨c, files, [], none⟩ := by
  cases recreate with
  | false =>
    simp only [DoublePivotAll.main, Bool.false_eq_true, if_false,
      DoublePivotAll.phase_one]
    by_cases hp : (DoublePivotAll.list_pvcs_in_storageclass c origin).isEmpty
    · simp [hp]
    · simp [hp, phase1Loop_all_dry_eq]
  | true =>
    simp only [DoublePivotAll.main, if_true, DoublePivotAll.phase_two]
    cases hmf : files.metadataFile with
    | none => rfl
    | some records =>
      by_cases he : records.isEmpty
      · simp [he]
      · simp [he, phase2Loop_all_dry_eq]

/-- Equality form: dry-run deployment patch pass changes nothing. -/
theorem patchDeployList_dry_eq (old new : String) (l : List Deployment) :
    ∀ c tr, MoveStorage.patchDeployList old new true l c tr = (c, tr) := by
  induction l with
  | nil => intro c tr; rfl
  | cons d rest ih =>
    intro c tr
    simp only [MoveStorage.patchDeployList, if_true, ih]

/-- Equality form: dry-run statefulset patch pass changes nothing. -/
theorem patchStsList_dry_eq (old oldSc new : String) (l : List StatefulSet) :
    ∀ c tr, MoveStorage.patchStsList old oldSc new true l c tr = (c, tr) := by
  induction l with
  | nil => intro c tr; rfl
  | cons d rest ih =>
    intro c tr
    simp only [MoveStorage.patchStsList, if_true, ih]

/-- Equality form: dry-run daemonset patch pass changes nothing. -/
theorem patchDsList_dry_eq (old new : String) (l : List DaemonSet) :
    ∀ c tr, MoveStorage.patchDsList old new true l c tr = (c, tr) := by
  induction l with
  | nil => intro c tr; rfl
  | cons d rest ih =>
    intro c tr
    simp only [MoveStorage.patchDsList, if_true, ih]

/-- Equality form: dry-run workload patching changes nothing. -/
theorem patch_workload_dry_eq (c : Cluster) (tr : List Op) (old_pvc : PVC)
    (new_pvc_name : String) (export_pods : Bool) :
    MoveStorage.patch_workload_using_pvc c tr old_pvc new_pvc_name true export_pods
      = (c, tr) := by
  simp [MoveStorage.patch_workload_using_pvc, patchDeployList_dry_eq,
    patchStsList_dry_eq, patchDsList_dry_eq]

/-- Equality form: the dry-run per-PVC loop of moveStorage.py changes
nothing. -/
theorem mainLoop_move_dry_eq (args : MoveStorage.Args) (oracle : String → PodPhase)
    (probeFails snapCreateFails : Bool) (hdry : args.dry_run = true) (l : List PVC) :
    ∀ c tr, MoveStorage.mainLoop args oracle probeFails snapCreateFails l c tr
      = .ok c tr () := by
  induction l with
  | nil => intro c tr; rfl
  | cons pvc rest ih =>
    intro c tr
    simp only [MoveStorage.mainLoop, MoveStorage.create_volume_snapshot,
      MoveStorage.create_new_pvc, MoveStorage.create_pivot_pod,
      MoveStorage.delete_old_pvc, hdry, if_true]
    cases hps : args.prefer_snapshot with
    | false =>
      simp only [Bool.false_eq_true, if_false]
      split <;> simp [patch_workload_dry_eq, ih]
    | true =>
      simp only [if_true]
      cases hcls : MoveStorage.get_snapshot_class_for_storage_class
          c.snapClasses probeFails args.origin with
      | none =>
        simp only
        split <;> simp [patch_workload_dry_eq, ih]
      | some snapshot_class =>
        simp only
        split <;> simp [patch_workload_dry_eq, ih]

/-- A dry-run invocation of moveStorage.py leaves the cluster unchanged,
issues no mutating call, and raises nothing. -/
theorem MoveStorage_main_dry (args : MoveStorage.Args) (oracle : String → PodPhase)
    (probeFails snapCreateFails : Bool) (hdry : args.dry_run = true) (c : Cluster) :
    MoveStorage.main args oracle probeFails snapCreateFails c = .ok c [] () := by
  simp only [MoveStorage.main]
  split
  · rfl
  · exact mainLoop_move_dry_eq args oracle probeFails snapCreateFails hdry _ c []

end DryRunMains

section OracleIndependence

/-- The safe copy_data ignores the terminal phase of the pod. -/
theorem copy_data_oracle_irrelevant (c : Cluster) (tr : List Op)
    (o1 o2 : String → PodPhase) (src dst pfx : String) (dry : Bool) :
    DoublePivotSafe.copy_data c tr o1 src dst pfx dry
      = DoublePivotSafe.copy_data c tr o2 src dst pfx dry := rfl

/-- The basic copy_data_with_pod ignores the terminal phase of the pod. -/
theorem copy_data_with_pod_oracle_irrelevant (c : Cluster) (tr : List Op)
    (o1 o2 : String → PodPhase) (src dst pfx : String) (dry : Bool) :
    DoublePivotAll.copy_data_with_pod c tr o1 src dst pfx dry
      = DoublePivotAll.copy_data_with_pod c tr o2 src dst pfx dry := rfl

/-- The safe phase-1 loop does not depend on copy-pod outcomes. -/
theorem phase1Loop_safe_oracle_irrelevant (o1 o2 : String → PodPhase) (t : String)
    (dry : Bool) (l : List PVC) :
    ∀ c tr md, DoublePivotSafe.phase1Loop o1 t dry l c tr md
      = DoublePivotSafe.phase1Loop o2 t dry l c tr md := by
  induction l with
  | nil => intro c tr md; rfl
  | cons p rest ih =>
    intro c tr md
    simp only [DoublePivotSafe.phase1Loop,
      copy_data_oracle_irrelevant _ _ o1 o2, ih]

/-- The safe phase-2 loop does not depend on copy-pod outcomes. -/
theorem phase2Loop_safe_oracle_irrelevant (o1 o2 : String → PodPhase) (t : String)
    (dry : Bool) (l : List PivotRecord) :
    ∀ c tr, DoublePivotSafe.phase2Loop o1 t dry l c tr
      = DoublePivotSafe.phase2Loop o2 t dry l c tr := by
  induction l with
  | nil => intro c tr; rfl
  | cons r rest ih =>
    intro c tr
    simp only [DoublePivotSafe.phase2Loop,
      copy_data_oracle_irrelevant _ _ o1 o2, ih]

/-- The basic phase-1 loop does not depend on copy-pod outcomes. -/
theorem phase1Loop_all_oracle_irrelevant (o1 o2 : String → PodPhase) (t : String)
    (dry : Bool) (l : List PVC) :
    ∀ c tr md, DoublePivotAll.phase1Loop o1 t dry l c tr md
      = DoublePivotAll.phase1Loop o2 t dry l c tr md := by
  induction l with
  | nil => intro c tr md; rfl
  | cons p rest ih =>
    intro c tr md
    simp only [DoublePivotAll.phase1Loop,
      copy_data_with_pod_oracle_irrelevant _ _ o1 o2]
    split <;> simp [ih]

/-- The basic phase-2 loop does not depend on copy-pod outcomes. -/
theorem phase2Loop_all_oracle_irrelevant (o1 o2 : String → PodPhase) (t : String)
    (dry preserve : Bool) (l : List PivotRecord) :
    ∀ c tr, DoublePivotAll.phase2Loop o1 t dry preserve l c tr
      = DoublePivotAll.phase2Loop o2 t dry preserve l c tr := by
  induction l with
  | nil => intro c tr; rfl
  | cons r rest ih =>
    intro c tr
    simp only [DoublePivotAll.phase2Loop,
      copy_data_with_pod_oracle_irrelevant _ _ o1 o2]
    split <;> simp [ih]

/-- main of double_pivot_safe.py does not depend on copy-pod outcomes. -/
theorem main_safe_oracle_irrelevant (origin target : String) (recreate dry set0 : Bool)
    (o1 o2 : String → PodPhase) (c : Cluster) (files : Files) :
    DoublePivotSafe.main origin target recreate dry set0 o1 c files
      = DoublePivotSafe.main origin target recreate dry set0 o2 c files := by
  simp only [DoublePivotSafe.main, phase1Loop_safe_oracle_irrelevant o1 o2,
    phase2Loop_safe_oracle_irrelevant o1 o2]

/-- main of double_pivot_all.py does not depend on copy-pod outcomes. -/
theorem main_all_oracle_irrelevant (origin target : String) (recreate dry preserve : Bool)
    (o1 o2 : String → PodPhase) (c : Cluster) (files : Files) :
    DoublePivotAll.main origin target recreate dry preserve o1 c files
      = DoublePivotAll.main origin target recreate dry preserve o2 c files := by
  simp only [DoublePivotAll.main, DoublePivotAll.phase_one, DoublePivotAll.phase_two,
    phase1Loop_all_oracle_irrelevant o1 o2, phase2Loop_all_oracle_irrelevant o1 o2]

/-- The moveStorage pivot pod ignores the terminal phase of the pod. -/
theorem create_pivot_pod_oracle_irrelevant (c : Cluster) (tr : List Op)
    (o1 o2 : String → PodPhase) (src dst : String) (dry : Bool) :
    MoveStorage.create_pivot_pod c tr o1 src dst dry
      = MoveStorage.create_pivot_pod c tr o2 src dst dry := rfl

/-- The per-PVC loop of moveStorage.py does not depend on copy-pod outcomes. -/
theorem mainLoop_move_oracle_irrelevant (args : MoveStorage.Args)
    (o1 o2 : String → PodPhase) (probeFails snapCreateFails : Bool) (l : List PVC) :
    ∀ c tr, MoveStorage.mainLoop args o1 probeFails snapCreateFails l c tr
      = MoveStorage.mainLoop args o2 probeFails snapCreateFails l c tr := by
  induction l with
  | nil => intro c tr; rfl
  | cons pvc rest ih =>
    intro c tr
    simp only [MoveStorage.mainLoop,
      create_pivot_pod_oracle_irrelevant _ _ o1 o2]
    split
    · rfl
    · split <;> simp [ih]

/-- main of moveStorage.py does not depend on copy-pod outcomes. -/
theorem main_move_oracle_irrelevant (args : MoveStorage.Args)
    (o1 o2 : String → PodPhase) (probeFails snapCreateFails : Bool) (c : Cluster) :
    MoveStorage.main args o1 probeFails snapCreateFails c
      = MoveStorage.main args o2 probeFails snapCreateFails c := by
  simp only [MoveStorage.main, mainLoop_move_oracle_irrelevant args o1 o2]

end OracleIndependence

section EvsStructure

/-- The deployment pass only appends mutating-call events. -/
theorem scaleDownDeployments_evs_ops (names : List String) (dry : Bool) (l : List Deployment) :
    ∀ c evs b, ∃ ops : List Op,
      (DoublePivotSafe.scaleDownDeployments names dry l c evs b).2.1 = evs ++ ops.map Ev.op := by
  induction l with
  | nil => intro c evs b; exact ⟨[], by simp [DoublePivotSafe.scaleDownDeployments]⟩
  | cons d rest ih =>
    intro c evs b
    simp only [DoublePivotSafe.scaleDownDeployments]
    split
    · set step :=
        if 0 < d.replicas then
          if dry then (c, evs)
          else (applyOp c (.scaleDeployment d.name 0), evs ++ [.op (.scaleDeployment d.name 0)])
        else (c, evs) with hstep
      have hevs : step.2 = evs ∨ step.2 = evs ++ [Ev.op (.scaleDeployment d.name 0)] := by
        rw [hstep]; split
        · split
          · exact Or.inl rfl
          · exact Or.inr rfl
        · exact Or.inl rfl
      obtain ⟨ops, hops⟩ := ih step.1 step.2 (b ++ [⟨d.uid, "Deployment", d.name, .replicas d.replicas⟩])
      rcases hevs with h | h
      · exact ⟨ops, by rw [hops, h]⟩
      · exact ⟨.scaleDeployment d.name 0 :: ops, by rw [hops, h]; simp⟩
    · exact ih c evs b

/-- The replicaset pass only appends mutating-call events. -/
theorem scaleDownReplicaSets_evs_ops (names : List String) (dry : Bool) (l : List ReplicaSet) :
    ∀ c evs b, ∃ ops : List Op,
      (DoublePivotSafe.scaleDownReplicaSets names dry l c evs b).2.1 = evs ++ ops.map Ev.op := by
  induction l with
  | nil => intro c evs b; exact ⟨[], by simp [DoublePivotSafe.scaleDownReplicaSets]⟩
  | cons d rest ih =>
    intro c evs b
    simp only [DoublePivotSafe.scaleDownReplicaSets]
    split
    · set step :=
        if 0 < d.replicas.getD 0 then
          if dry then (c, evs)
          else (applyOp c (.scaleReplicaSet d.name 0), evs ++ [.op (.scaleReplicaSet d.name 0)])
        else (c, evs) with hstep
      have hevs : step.2 = evs ∨ step.2 = evs ++ [Ev.op (.scaleReplicaSet d.name 0)] := by
        rw [hstep]; split
        · split
          · exact Or.inl rfl
          · exact Or.inr rfl
        · exact Or.inl rfl
      obtain ⟨ops, hops⟩ := ih step.1 step.2
        (b ++ [⟨d.uid, "ReplicaSet", d.name, .replicas (d.replicas.getD 0)⟩])
      rcases hevs with h | h
      · exact ⟨ops, by rw [hops, h]⟩
      · exact ⟨.scaleReplicaSet d.name 0 :: ops, by rw [hops, h]; simp⟩
    · exact ih c evs b

/-- The statefulset pass only appends mutating-call events. -/
theorem scaleDownStatefulSets_evs_ops (names : List String) (dry : Bool) (l : List StatefulSet) :
    ∀ c evs b, ∃ ops : List Op,
      (DoublePivotSafe.scaleDownStatefulSets names dry l c evs b).2.1 = evs ++ ops.map Ev.op := by
  induction l with
  | nil => intro c evs b; exact ⟨[], by simp [DoublePivotSafe.scaleDownStatefulSets]⟩
  | cons d rest ih =>
    intro c evs b
    simp only [DoublePivotSafe.scaleDownStatefulSets]
    split
    · set step :=
        if 0 < d.replicas then
          if dry then (c, evs)
          else (applyOp c (.scaleStatefulSet d.name 0), evs ++ [.op (.scaleStatefulSet d.name 0)])
        else (c, evs) with hstep
      have hevs : step.2 = evs ∨ step.2 = evs ++ [Ev.op (.scaleStatefulSet d.name 0)] := by
        rw [hstep]; split
        · split
          · exact Or.inl rfl
          · exact Or.inr rfl
        · exact Or.inl rfl
      obtain ⟨ops, hops⟩ := ih step.1 step.2
        (b ++ [⟨d.uid, "StatefulSet", d.name, .replicas d.replicas⟩])
      rcases hevs with h | h
      · exact ⟨ops, by rw [hops, h]⟩
      · exact ⟨.scaleStatefulSet d.name 0 :: ops, by rw [hops, h]; simp⟩
    · exact ih c evs b

/-- The daemonset pass only appends mutating-call events. -/
theorem pauseDaemonSets_evs_ops (names : List String) (dry : Bool) (l : List DaemonSet) :
    ∀ c evs b, ∃ ops : List Op,
      (DoublePivotSafe.pauseDaemonSets names dry l c evs b).2.1 = evs ++ ops.map Ev.op := by
  induction l with
  | nil => intro c evs b; exact ⟨[], by simp [DoublePivotSafe.pauseDaemonSets]⟩
  | cons d rest ih =>
    intro c evs b
    simp only [DoublePivotSafe.pauseDaemonSets]
    split
    · set step :=
        if dry then (c, evs)
        else (applyOp c (.patchDaemonSetSelector d.name true),
              evs ++ [.op (.patchDaemonSetSelector d.name true)]) with hstep
      have hevs : step.2 = evs ∨ step.2 = evs ++ [Ev.op (.patchDaemonSetSelector d.name true)] := by
        rw [hstep]; split
        · exact Or.inl rfl
        · exact Or.inr rfl
      obtain ⟨ops, hops⟩ := ih step.1 step.2 (b ++ [⟨d.uid, "DaemonSet", d.name, .patched⟩])
      rcases hevs with h | h
      · exact ⟨ops, by rw [hops, h]⟩
      · exact ⟨.patchDaemonSetSelector d.name true :: ops, by rw [hops, h]; simp⟩
    · exact ih c evs b

/-- The cronjob pass only appends mutating-call events. -/
theorem suspendCronJobs_evs_ops (names : List String) (dry : Bool) (l : List CronJob) :
    ∀ c evs b, ∃ ops : List Op,
      (DoublePivotSafe.suspendCronJobs names dry l c evs b).2.1 = evs ++ ops.map Ev.op := by
  induction l with
  | nil => intro c evs b; exact ⟨[], by simp [DoublePivotSafe.suspendCronJobs]⟩
  | cons d rest ih =>
    intro c evs b
    simp only [DoublePivotSafe.suspendCronJobs]
    split
    · set step :=
        if dry then (c, evs)
        else (applyOp c (.patchCronJobSuspend d.name true),
              evs ++ [.op (.patchCronJobSuspend d.name true)]) with hstep
      have hevs : step.2 = evs ∨ step.2 = evs ++ [Ev.op (.patchCronJobSuspend d.name true)] := by
        rw [hstep]; split
        · exact Or.inl rfl
        · exact Or.inr rfl
      obtain ⟨ops, hops⟩ := ih step.1 step.2 (b ++ [⟨d.uid, "CronJob", d.name, .suspendedTrue⟩])
      rcases hevs with h | h
      · exact ⟨ops, by rw [hops, h]⟩
      · exact ⟨.patchCronJobSuspend d.name true :: ops, by rw [hops, h]; simp⟩
    · exact ih c evs b

/-- The job pass only appends mutating-call events. -/
theorem deleteJobs_evs_ops (names : List String) (dry : Bool) (l : List JobW) :
    ∀ c evs b, ∃ ops : List Op,
      (DoublePivotSafe.deleteJobs names dry l c evs b).2.1 = evs ++ ops.map Ev.op := by
  induction l with
  | nil => intro c evs b; exact ⟨[], by simp [DoublePivotSafe.deleteJobs]⟩
  | cons d rest ih =>
    intro c evs b
    simp only [DoublePivotSafe.deleteJobs]
    split
    · set step :=
        if dry then (c, evs)
        else (applyOp c (.deleteJob d.name), evs ++ [.op (.deleteJob d.name)]) with hstep
      have hevs : step.2 = evs ∨ step.2 = evs ++ [Ev.op (.deleteJob d.name)] := by
        rw [hstep]; split
        · exact Or.inl rfl
        · exact Or.inr rfl
      obtain ⟨ops, hops⟩ := ih step.1 step.2 (b ++ [⟨d.uid, "Job", d.name, .deleted⟩])
      rcases hevs with h | h
      · exact ⟨ops, by rw [hops, h]⟩
      · exact ⟨.deleteJob d.name :: ops, by rw [hops, h]; simp⟩
    · exact ih c evs b

end EvsStructure

set_option maxRecDepth 8000

/-- C3, counterexample.  A batch of two records in which the copy pod of the
first volume terminates Failed: the invocation reports no failure at all
(error = none, i.e. exit 0) and produces exactly the same cluster, files and
trace as the run in which every pod succeeds; the second volume is migrated
either way.  This refutes the claim that a Failed copy pod causes that
volume's migration and the overall invocation to be reported as failed. -/
theorem claim_C3_counterexample :
    (DoublePivotAll.phase_two "new-sc" false false
        (fun n => if n == "pivot2-a-temp" then PodPhase.Failed else PodPhase.Succeeded)
        { pvcs := [⟨"a-temp", "new-sc", "1Gi", ["ReadWriteOnce"], none⟩,
                   ⟨"b-temp", "new-sc", "2Gi", ["ReadWriteOnce"], none⟩] }
        { metadataFile := some [⟨"a", "a-temp", "1Gi", ["ReadWriteOnce"]⟩,
                                ⟨"b", "b-temp", "2Gi", ["ReadWriteOnce"]⟩] }).error = none
    ∧ DoublePivotAll.phase_two "new-sc" false false
        (fun n => if n == "pivot2-a-temp" then PodPhase.Failed else PodPhase.Succeeded)
        { pvcs := [⟨"a-temp", "new-sc", "1Gi", ["ReadWriteOnce"], none⟩,
                   ⟨"b-temp", "new-sc", "2Gi", ["ReadWriteOnce"], none⟩] }
        { metadataFile := some [⟨"a", "a-temp", "1Gi", ["ReadWriteOnce"]⟩,
                                ⟨"b", "b-temp", "2Gi", ["ReadWriteOnce"]⟩] }
      = DoublePivotAll.phase_two "new-sc" false false (fun _ => PodPhase.Succeeded)
        { pvcs := [⟨"a-temp", "new-sc", "1Gi", ["ReadWriteOnce"], none⟩,
                   ⟨"b-temp", "new-sc", "2Gi", ["ReadWriteOnce"], none⟩] }
        { metadataFile := some [⟨"a", "a-temp", "1Gi", ["ReadWriteOnce"]⟩,
                                ⟨"b", "b-temp", "2Gi", ["ReadWriteOnce"]⟩] }
    ∧ (⟨"b", "new-sc", "2Gi", ["ReadWriteOnce"], none⟩ : PVC)
        ∈ (DoublePivotAll.phase_two "new-sc" false false
            (fun n => if n == "pivot2-a-temp" then PodPhase.Failed else PodPhase.Succeeded)
            { pvcs := [⟨"a-temp", "new-sc", "1Gi", ["ReadWriteOnce"], none⟩,
                       ⟨"b-temp", "new-sc", "2Gi", ["ReadWriteOnce"], none⟩] }
            { metadataFile := some [⟨"a", "a-temp", "1Gi", ["ReadWriteOnce"]⟩,
                                    ⟨"b", "b-temp", "2Gi", ["ReadWriteOnce"]⟩] }).cluster.pvcs := by
  refine ⟨by decide, by decide, by decide⟩

/-- C3, amended.  In every one of the three tools the terminal phase of the
copy pods has no effect on the run at all: the pod is torn down and the
migration continues exactly as on success; the phase is only printed, no
failure is reported to the caller and the exit status is unchanged.  Other
volumes in the batch are therefore trivially unaffected. -/
theorem claim_C3_copy_failure_ignored :
    (∀ (origin target : String) (recreate dry set0 : Bool) (o1 o2 : String → PodPhase)
        (c : Cluster) (files : Files),
      DoublePivotSafe.main origin target recreate dry set0 o1 c files
        = DoublePivotSafe.main origin target recreate dry set0 o2 c files)
    ∧ (∀ (origin target : String) (recreate dry preserve : Bool) (o1 o2 : String → PodPhase)
        (c : Cluster) (files : Files),
      DoublePivotAll.main origin target recreate dry preserve o1 c files
        = DoublePivotAll.main origin target recreate dry preserve o2 c files)
    ∧ (∀ (args : MoveStorage.Args) (o1 o2 : String → PodPhase)
        (probeFails snapCreateFails : Bool) (c : Cluster),
      MoveStorage.main args o1 probeFails snapCreateFails c
        = MoveStorage.main args o2 probeFails snapCreateFails c) :=
  ⟨fun origin target recreate dry set0 o1 o2 c files =>
      main_safe_oracle_irrelevant origin target recreate dry set0 o1 o2 c files,
   fun origin target recreate dry preserve o1 o2 c files =>
      main_all_oracle_irrelevant origin target recreate dry preserve o1 o2 c files,
   fun args o1 o2 probeFails snapCreateFails c =>
      main_move_oracle_irrelevant args o1 o2 probeFails snapCreateFails c⟩

/-- C4.  A dry-run invocation of any of the three tools, under every
combination of the remaining flags, every cluster state and every external
outcome, issues no mutating cluster call (empty trace) and returns the cluster
(and state files) exactly as it found them. -/
theorem claim_C4_dry_run_no_mutation :
    (∀ (origin target : String) (recreate set0 : Bool) (oracle : String → PodPhase)
        (c : Cluster) (files : Files),
      DoublePivotSafe.main origin target recreate true set0 oracle c files = (c, files, []))
    ∧ (∀ (origin target : String) (recreate preserve : Bool) (oracle : String → PodPhase)
        (c : Cluster) (files : Files),
      DoublePivotAll.main origin target recreate true preserve oracle c files
        = ⟨c, files, [], none⟩)
    ∧ (∀ (origin target : String) (prefer expPods delPvc copyOnly : Bool)
        (oracle : String → PodPhase) (probeFails snapCreateFails : Bool) (c : Cluster),
      MoveStorage.main ⟨origin, target, true, prefer, expPods, delPvc, copyOnly⟩
        oracle probeFails snapCreateFails c = .ok c [] ()) :=
  ⟨fun origin target recreate set0 oracle c files =>
      DoublePivotSafe_main_dry origin target recreate set0 oracle c files,
   fun origin target recreate preserve oracle c files =>
      DoublePivotAll_main_dry origin target recreate preserve oracle c files,
   fun origin target prefer expPods delPvc copyOnly oracle probeFails snapCreateFails c =>
      MoveStorage_main_dry ⟨origin, target, true, prefer, expPods, delPvc, copyOnly⟩
        oracle probeFails snapCreateFails rfl c⟩

/-- C8, counterexample.  A quiescence run over a cluster with one matching
deployment of 3 replicas: the event trace starts with the scale-down mutation
and the scale-state file is written only afterwards, as its last event.  This
refutes the claim that the scale-state file is written before any quiescence
mutation is applied. -/
theorem claim_C8_counterexample :
    (DoublePivotSafe.detect_and_scale_down
        { deployments := [⟨"u1", "web", ["data-pvc"], 3⟩] } ["data-pvc"] false).2.1
      = [Ev.op (Op.scaleDeployment "web" 0),
         Ev.writeScaleFile [⟨"u1", "Deployment", "web", Prior.replicas 3⟩]]
    ∧ (DoublePivotSafe.detect_and_scale_down
        { deployments := [⟨"u1", "web", ["data-pvc"], 3⟩] } ["data-pvc"] false).2.1.head?
      = some (Ev.op (Op.scaleDeployment "web" 0)) := by
  exact ⟨rfl, rfl⟩

/-- C8, amended.  In every non-dry quiescence run the scale-state file is
written exactly once, as the last event, after all quiescence mutations of the
scan have been applied; a crash between a mutation and the end of the scan
therefore finds no prior state persisted. -/
theorem claim_C8_scale_state_written_after_mutations (c : Cluster) (pvc_names : List String) :
    ∃ ops : List Op,
      (DoublePivotSafe.detect_and_scale_down c pvc_names false).2.1
        = ops.map Ev.op
          ++ [Ev.writeScaleFile (DoublePivotSafe.detect_and_scale_down c pvc_names false).2.2] := by
  simp only [DoublePivotSafe.detect_and_scale_down, Bool.false_eq_true, if_false]
  obtain ⟨o1, h1⟩ := scaleDownDeployments_evs_ops pvc_names false c.deployments c [] []
  obtain ⟨o2, h2⟩ := scaleDownReplicaSets_evs_ops pvc_names false c.replicasets _ _ _
  obtain ⟨o3, h3⟩ := scaleDownStatefulSets_evs_ops pvc_names false c.statefulsets _ _ _
  obtain ⟨o4, h4⟩ := pauseDaemonSets_evs_ops pvc_names false c.daemonsets _ _ _
  obtain ⟨o5, h5⟩ := suspendCronJobs_evs_ops pvc_names false c.cronjobs _ _ _
  obtain ⟨o6, h6⟩ := deleteJobs_evs_ops pvc_names false c.jobs _ _ _
  refine ⟨o1 ++ o2 ++ o3 ++ o4 ++ o5 ++ o6, ?_⟩
  rw [h6, h5, h4, h3, h2, h1]
  simp [List.map_append]

/-- C10.  The copy pod name is a function only of the phase prefix and the
sanitized (safe variant) or raw (basic variant) 20-character truncation of the
source volume name; two distinct 21-character source names agreeing on that
truncation therefore collide, so the derivation is not injective. -/
theorem claim_C10_pod_name_not_injective :
    (∀ (n1 n2 pfx : String), DoublePivotSafe.sanitizeBase n1 = DoublePivotSafe.sanitizeBase n2 →
      DoublePivotSafe.sanitize_pod_name n1 pfx = DoublePivotSafe.sanitize_pod_name n2 pfx)
    ∧ (∀ (n1 n2 pfx : String), n1.take 20 = n2.take 20 →
      DoublePivotAll.podName pfx n1 = DoublePivotAll.podName pfx n2)
    ∧ DoublePivotSafe.sanitize_pod_name "aaaaaaaaaaaaaaaaaaaax" "pivot1"
        = DoublePivotSafe.sanitize_pod_name "aaaaaaaaaaaaaaaaaaaay" "pivot1"
    ∧ DoublePivotAll.podName "pivot1" "aaaaaaaaaaaaaaaaaaaax"
        = DoublePivotAll.podName "pivot1" "aaaaaaaaaaaaaaaaaaaay"
    ∧ ("aaaaaaaaaaaaaaaaaaaax" : String) ≠ "aaaaaaaaaaaaaaaaaaaay" := by
  refine ⟨?_, ?_, by decide, by decide, by decide⟩
  · intro n1 n2 pfx h
    simp [DoublePivotSafe.sanitize_pod_name, h]
  · intro n1 n2 pfx h
    simp [DoublePivotAll.podName, h]

/-- C10, witness: the sanitized truncations of the names A and a agree, and
the theorem yields equal pod names for them. -/
theorem claim_C10_witness :
    DoublePivotSafe.sanitizeBase "A" = DoublePivotSafe.sanitizeBase "a"
    ∧ DoublePivotSafe.sanitize_pod_name "A" "pivot1"
        = DoublePivotSafe.sanitize_pod_name "a" "pivot1" :=
  ⟨by decide, claim_C10_pod_name_not_injective.1 "A" "a" "pivot1" (by decide)⟩

/-- C6, counterexample.  A safe-variant phase-2 invocation whose ledger file
exists but holds no records: instead of failing fast without mutation, the run
proceeds, issues a mutating cluster call (the workload restore un-suspends a
cronjob), deletes both state files, and reports no error.  This refutes the
claim that an empty ledger makes every phase-2 run stop without cluster
mutation and without deleting state files. -/
theorem claim_C6_counterexample :
    DoublePivotSafe.main "old-sc" "new-sc" true false false (fun _ => PodPhase.Succeeded)
        { cronjobs := [⟨"u1", "cj", ["data-pvc"], true⟩] }
        { metadataFile := some [],
          scaleFile := some [⟨"u1", "CronJob", "cj", Prior.suspendedTrue⟩] }
      = ({ cronjobs := [⟨"u1", "cj", ["data-pvc"], false⟩] },
         { metadataFile := none, scaleFile := none },
         [Op.patchCronJobSuspend "cj" false]) := by
  decide

/-- C6, amended.  With an absent ledger every phase-2 invocation prints a
message and stops with no cluster mutation and no file deletion; the basic
variant does the same for a present-but-empty ledger.  The safe variant,
however, does not check for emptiness: with an empty ledger it proceeds
straight to the workload-restore pass (mutating the cluster if a scale-state
file exists) and removes the ledger file. -/
theorem claim_C6_empty_ledger :
    (∀ (target : String) (dry preserve : Bool) (oracle : String → PodPhase)
        (c : Cluster) (sf : Option Backup),
      DoublePivotAll.phase_two target dry preserve oracle c ⟨none, sf⟩
        = ⟨c, ⟨none, sf⟩, [], none⟩)
    ∧ (∀ (target : String) (dry preserve : Bool) (oracle : String → PodPhase)
        (c : Cluster) (sf : Option Backup),
      DoublePivotAll.phase_two target dry preserve oracle c ⟨some [], sf⟩
        = ⟨c, ⟨some [], sf⟩, [], none⟩)
    ∧ (∀ (origin target : String) (dry set0 : Bool) (oracle : String → PodPhase)
        (c : Cluster) (sf : Option Backup),
      DoublePivotSafe.main origin target true dry set0 oracle c ⟨none, sf⟩
        = (c, ⟨none, sf⟩, []))
    ∧ (∀ (origin target : String) (set0 : Bool) (oracle : String → PodPhase)
        (c : Cluster) (sf : Option Backup),
      DoublePivotSafe.main origin target true false set0 oracle c ⟨some [], sf⟩
        = ((DoublePivotSafe.scale_back_up c [] sf false).1,
           ⟨none, (DoublePivotSafe.scale_back_up c [] sf false).2.2⟩,
           (DoublePivotSafe.scale_back_up c [] sf false).2.1)) := by
  refine ⟨fun _ _ _ _ _ _ => rfl, fun _ _ _ _ _ _ => rfl,
          fun _ _ _ _ _ _ _ => rfl, fun _ _ _ _ _ _ => rfl⟩

section PhaseOneLemmas

/-- Appending a distinct suffix to distinct names keeps them distinct. -/
theorem temp_name_inj {a b : String} (h : a ++ "-temp" = b ++ "-temp") : a = b := by
  have hd := congrArg String.data h
  simp only [String.data_append] at hd
  have h2 := (List.append_inj' hd rfl).1
  rcases a with ⟨x⟩
  rcases b with ⟨y⟩
  exact congrArg String.mk h2

/-- Existence test used by the create calls, negative form. -/
theorem any_name_eq_false {c : Cluster} {name : String} (h : name ∉ pvcNames c) :
    c.pvcs.any (fun q => q.name == name) = false := by
  rw [List.any_eq_false]
  intro q hq
  simp only [beq_iff_eq]
  intro hqn
  exact h (by simp only [pvcNames, List.mem_map]; exact ⟨q, hq, hqn⟩)

/-- Existence test used by the create calls, positive form. -/
theorem any_name_eq_true {c : Cluster} {name : String} (h : name ∈ pvcNames c) :
    c.pvcs.any (fun q => q.name == name) = true := by
  simp only [pvcNames, List.mem_map] at h
  obtain ⟨q, hq, hqn⟩ := h
  rw [List.any_eq_true]
  exact ⟨q, hq, by simp [hqn]⟩

/-- A safe-variant create of a fresh name appends the PVC. -/
theorem create_pvc_safe_new {c : Cluster} {name : String} (tr : List Op)
    (sc sz : String) (m : List String) (h : name ∉ pvcNames c) :
    DoublePivotSafe.create_pvc c tr name sc sz m false
      = ({ c with pvcs := c.pvcs ++ [⟨name, sc, sz, m, none⟩] },
         tr ++ [.createPVC ⟨name, sc, sz, m, none⟩]) := by
  simp [DoublePivotSafe.create_pvc, any_name_eq_false h, applyOp]

/-- A safe-variant create of an existing name is swallowed. -/
theorem create_pvc_safe_conflict {c : Cluster} {name : String} (tr : List Op)
    (sc sz : String) (m : List String) (h : name ∈ pvcNames c) :
    DoublePivotSafe.create_pvc c tr name sc sz m false = (c, tr) := by
  simp [DoublePivotSafe.create_pvc, any_name_eq_true h]

/-- A basic-variant create of a fresh name appends the PVC. -/
theorem create_pvc_all_new {c : Cluster} {name : String} (tr : List Op)
    (sc sz : String) (m : List String) (h : name ∉ pvcNames c) :
    DoublePivotAll.create_pvc c tr name sc sz m false
      = .ok ({ c with pvcs := c.pvcs ++ [⟨name, sc, sz, m, none⟩] })
          (tr ++ [.createPVC ⟨name, sc, sz, m, none⟩]) () := by
  simp [DoublePivotAll.create_pvc, any_name_eq_false h, applyOp]

/-- A basic-variant create of an existing name raises and aborts. -/
theorem create_pvc_all_conflict {c : Cluster} {name : String} (tr : List Op)
    (sc sz : String) (m : List String) (h : name ∈ pvcNames c) :
    DoublePivotAll.create_pvc c tr name sc sz m false
      = .err c tr "ApiException 409: persistentvolumeclaims already exists" := by
  simp [DoublePivotAll.create_pvc, any_name_eq_true h]

/-- With no pods in the cluster, a safe copy creates and deletes its pod and
returns the cluster unchanged. -/
theorem copy_data_no_pods {c : Cluster} (tr : List Op) (oracle : String → PodPhase)
    (src dst pfx : String) (h : c.pods = []) :
    DoublePivotSafe.copy_data c tr oracle src dst pfx false
      = (c, tr ++ [.createPod (DoublePivotSafe.sanitize_pod_name src pfx) src dst,
                   .deletePod (DoublePivotSafe.sanitize_pod_name src pfx)]) := by
  simp only [DoublePivotSafe.copy_data, Bool.false_eq_true, if_false, applyOp, h]
  have : ({ c with pods := [] } : Cluster) = c := by rw [← h]
  simp [this]

/-- With no pods in the cluster, a basic copy creates and deletes its pod and
returns the cluster unchanged. -/
theorem copy_data_with_pod_no_pods {c : Cluster} (tr : List Op) (oracle : String → PodPhase)
    (src dst pfx : String) (h : c.pods = []) :
    DoublePivotAll.copy_data_with_pod c tr oracle src dst pfx false
      = (c, tr ++ [.createPod (DoublePivotAll.podName pfx src) src dst,
                   .deletePod (DoublePivotAll.podName pfx src)]) := by
  simp only [DoublePivotAll.copy_data_with_pod, Bool.false_eq_true, if_false, applyOp, h]
  have : ({ c with pods := [] } : Cluster) = c := by rw [← h]
  simp [this]

end PhaseOneLemmas

section PhaseOneLoopCharacterization

/-- Safe phase-1 loop on fresh temp names: every temp PVC is appended and one
record per volume is accumulated. -/
theorem phase1Loop_safe_fresh (oracle : String → PodPhase) (t : String) (l : List PVC) :
    ∀ c tr md, c.pods = [] →
      (∀ p ∈ l, (p.name ++ "-temp") ∉ pvcNames c) →
      (l.map PVC.name).Nodup →
      (DoublePivotSafe.phase1Loop oracle t false l c tr md).1
          = { c with pvcs := c.pvcs ++ l.map (tempPVC t) }
        ∧ (DoublePivotSafe.phase1Loop oracle t false l c tr md).2.2
          = md ++ l.map DoublePivotSafe.mkRecord := by
  induction l with
  | nil =>
    intro c tr md _ _ _
    constructor <;> simp [DoublePivotSafe.phase1Loop]
  | cons p rest ih =>
    intro c tr md hpods hfresh hnodup
    simp only [DoublePivotSafe.phase1Loop]
    have hcr : DoublePivotSafe.create_pvc c tr (p.name ++ "-temp") t p.size p.accessModes false
        = ({ c with pvcs := c.pvcs ++ [tempPVC t p] }, tr ++ [.createPVC (tempPVC t p)]) :=
      create_pvc_safe_new tr t p.size p.accessModes (hfresh p (by simp))
    rw [hcr]
    rw [copy_data_no_pods _ oracle p.name (p.name ++ "-temp") "pivot1"
      (show ({ c with pvcs := c.pvcs ++ [tempPVC t p] } : Cluster).pods = [] from hpods)]
    have hfresh' : ∀ q ∈ rest,
        (q.name ++ "-temp") ∉ pvcNames { c with pvcs := c.pvcs ++ [tempPVC t p] } := by
      intro q hq hmem
      simp only [pvcNames, List.map_append, List.mem_append, List.map_cons,
        List.mem_singleton, List.map_nil] at hmem
      rcases hmem with h | h
      · exact hfresh q (List.mem_cons_of_mem _ hq) h
      · simp only [tempPVC, List.mem_cons, List.not_mem_nil, or_false] at h
        have : q.name = p.name := temp_name_inj h
        have hqmem : q.name ∈ rest.map PVC.name := List.mem_map_of_mem _ hq
        rw [this] at hqmem
        exact (List.nodup_cons.mp hnodup).1 hqmem
    obtain ⟨ha, hb⟩ := ih { c with pvcs := c.pvcs ++ [tempPVC t p] }
      ((tr ++ [.createPVC (tempPVC t p)])
        ++ [.createPod (DoublePivotSafe.sanitize_pod_name p.name "pivot1") p.name
              (p.name ++ "-temp"),
            .deletePod (DoublePivotSafe.sanitize_pod_name p.name "pivot1")])
      (md ++ [DoublePivotSafe.mkRecord p]) hpods hfresh' (List.nodup_cons.mp hnodup).2
    refine ⟨?_, ?_⟩
    · rw [ha]; simp
    · rw [hb]; simp

/-- Safe phase-1 loop when every temp name already exists: the conflicting
creates are swallowed, the cluster is unchanged, and the records are still
accumulated. -/
theorem phase1Loop_safe_existing (oracle : String → PodPhase) (t : String) (l : List PVC) :
    ∀ c tr md, c.pods = [] →
      (∀ p ∈ l, (p.name ++ "-temp") ∈ pvcNames c) →
      (DoublePivotSafe.phase1Loop oracle t false l c tr md).1 = c
        ∧ (DoublePivotSafe.phase1Loop oracle t false l c tr md).2.2
          = md ++ l.map DoublePivotSafe.mkRecord := by
  induction l with
  | nil =>
    intro c tr md _ _
    constructor <;> simp [DoublePivotSafe.phase1Loop]
  | cons p rest ih =>
    intro c tr md hpods hexist
    simp only [DoublePivotSafe.phase1Loop]
    rw [create_pvc_safe_conflict tr t p.size p.accessModes (hexist p (by simp))]
    rw [copy_data_no_pods _ oracle p.name (p.name ++ "-temp") "pivot1" hpods]
    obtain ⟨ha, hb⟩ := ih c
      (tr ++ [.createPod (DoublePivotSafe.sanitize_pod_name p.name "pivot1") p.name
                (p.name ++ "-temp"),
              .deletePod (DoublePivotSafe.sanitize_pod_name p.name "pivot1")])
      (md ++ [DoublePivotSafe.mkRecord p]) hpods
      (fun q hq => hexist q (List.mem_cons_of_mem _ hq))
    refine ⟨ha, ?_⟩
    rw [hb]; simp

/-- Basic phase-1 loop on fresh temp names: runs to completion, appending
every temp PVC and one record per volume. -/
theorem phase1Loop_all_fresh (oracle : String → PodPhase) (t : String) (l : List PVC) :
    ∀ c tr md, c.pods = [] →
      (∀ p ∈ l, (p.name ++ "-temp") ∉ pvcNames c) →
      (l.map PVC.name).Nodup →
      ∃ tr', DoublePivotAll.phase1Loop oracle t false l c tr md
        = .ok ({ c with pvcs := c.pvcs ++ l.map (tempPVC t) }) tr'
            (md ++ l.map DoublePivotAll.mkRecord) := by
  induction l with
  | nil =>
    intro c tr md _ _ _
    exact ⟨tr, by simp [DoublePivotAll.phase1Loop]⟩
  | cons p rest ih =>
    intro c tr md hpods hfresh hnodup
    simp only [DoublePivotAll.phase1Loop]
    have hcr : DoublePivotAll.create_pvc c tr (p.name ++ "-temp") t p.size p.accessModes false
        = .ok ({ c with pvcs := c.pvcs ++ [tempPVC t p] })
            (tr ++ [.createPVC (tempPVC t p)]) () :=
      create_pvc_all_new tr t p.size p.accessModes (hfresh p (by simp))
    rw [hcr]
    dsimp only
    rw [copy_data_with_pod_no_pods _ oracle p.name (p.name ++ "-temp") "pivot1"
      (show ({ c with pvcs := c.pvcs ++ [tempPVC t p] } : Cluster).pods = [] from hpods)]
    have hfresh' : ∀ q ∈ rest,
        (q.name ++ "-temp") ∉ pvcNames { c with pvcs := c.pvcs ++ [tempPVC t p] } := by
      intro q hq hmem
      simp only [pvcNames, List.map_append, List.mem_append, List.map_cons,
        List.mem_singleton, List.map_nil] at hmem
      rcases hmem with h | h
      · exact hfresh q (List.mem_cons_of_mem _ hq) h
      · simp only [tempPVC, List.mem_cons, List.not_mem_nil, or_false] at h
        have : q.name = p.name := temp_name_inj h
        have hqmem : q.name ∈ rest.map PVC.name := List.mem_map_of_mem _ hq
        rw [this] at hqmem
        exact (List.nodup_cons.mp hnodup).1 hqmem
    obtain ⟨tr', htr'⟩ := ih { c with pvcs := c.pvcs ++ [tempPVC t p] }
      ((tr ++ [.createPVC (tempPVC t p)])
        ++ [.createPod (DoublePivotAll.podName "pivot1" p.name) p.name (p.name ++ "-temp"),
            .deletePod (DoublePivotAll.podName "pivot1" p.name)])
      (md ++ [DoublePivotAll.mkRecord p]) hpods hfresh' (List.nodup_cons.mp hnodup).2
    refine ⟨tr', ?_⟩
    rw [htr']
    congr 1
    · simp
    · simp

/-- Adding PVCs of a different storage class does not change the discovery
result. -/
theorem list_pvcs_append_other_class (c : Cluster) (origin t : String) (l : List PVC)
    (h : (t == origin) = false) :
    DoublePivotSafe.list_pvcs { c with pvcs := c.pvcs ++ l.map (tempPVC t) } origin
      = DoublePivotSafe.list_pvcs c origin := by
  simp only [DoublePivotSafe.list_pvcs, List.filter_append]
  have hnil : (l.map (tempPVC t)).filter (fun p => p.storageClass == origin) = [] := by
    rw [List.filter_eq_nil_iff]
    intro a ha
    simp only [List.mem_map] at ha
    obtain ⟨q, _, rfl⟩ := ha
    simp [tempPVC, h]
  rw [hnil, List.append_nil]

end PhaseOneLoopCharacterization

section PhaseOneRunCharacterization

/-- Discovery in the basic variant is the same filter as in the safe one. -/
theorem list_pvcs_all_eq_safe (c : Cluster) (sc : String) :
    DoublePivotAll.list_pvcs_in_storageclass c sc = DoublePivotSafe.list_pvcs c sc := rfl

/-- Mapping preserves emptiness. -/
theorem isEmpty_map_eq {α β : Type} (f : α → β) (l : List α) :
    (l.map f).isEmpty = l.isEmpty := by
  cases l <;> rfl

/-- Names of the discovered volumes are distinct when all PVC names are. -/
theorem discovered_names_nodup {c : Cluster} (origin : String)
    (hnodup : (pvcNames c).Nodup) :
    ((DoublePivotSafe.list_pvcs c origin).map PVC.name).Nodup :=
  hnodup.sublist ((List.filter_sublist c.pvcs).map PVC.name)

/-- A non-dry safe phase-1 run on fresh temp names: appends one temp volume
per discovered volume and writes one ledger record per discovered volume. -/
theorem main_safe_phase1_run (origin target : String) (oracle : String → PodPhase)
    (c : Cluster) (files : Files)
    (hpods : c.pods = [])
    (hnodup : (pvcNames c).Nodup)
    (hfresh : ∀ p ∈ DoublePivotSafe.list_pvcs c origin, (p.name ++ "-temp") ∉ pvcNames c)
    (hne : (DoublePivotSafe.list_pvcs c origin).isEmpty = false) :
    (DoublePivotSafe.main origin target false false false oracle c files).1
        = { c with pvcs := c.pvcs
              ++ (DoublePivotSafe.list_pvcs c origin).map (tempPVC target) }
      ∧ (DoublePivotSafe.main origin target false false false oracle c files).2.1
        = { files with
            metadataFile := some ((DoublePivotSafe.list_pvcs c origin).map DoublePivotSafe.mkRecord) } := by
  obtain ⟨ha, hb⟩ := phase1Loop_safe_fresh oracle target
    (DoublePivotSafe.list_pvcs c origin) c [] [] hpods hfresh
    (discovered_names_nodup origin hnodup)
  constructor <;>
    simp [DoublePivotSafe.main, hne, DoublePivotSafe.evOps, ha, hb]

/-- A non-dry safe phase-1 run when every temp name already exists: the
cluster is unchanged and the same ledger records are rewritten. -/
theorem main_safe_phase1_rerun (origin target : String) (oracle : String → PodPhase)
    (c : Cluster) (files : Files)
    (hpods : c.pods = [])
    (hexist : ∀ p ∈ DoublePivotSafe.list_pvcs c origin, (p.name ++ "-temp") ∈ pvcNames c)
    (hne : (DoublePivotSafe.list_pvcs c origin).isEmpty = false) :
    (DoublePivotSafe.main origin target false false false oracle c files).1 = c
      ∧ (DoublePivotSafe.main origin target false false false oracle c files).2.1
        = { files with
            metadataFile := some ((DoublePivotSafe.list_pvcs c origin).map DoublePivotSafe.mkRecord) } := by
  obtain ⟨ha, hb⟩ := phase1Loop_safe_existing oracle target
    (DoublePivotSafe.list_pvcs c origin) c [] [] hpods hexist
  constructor <;>
    simp [DoublePivotSafe.main, hne, DoublePivotSafe.evOps, ha, hb]

/-- A non-dry basic phase-1 run on fresh temp names: completes without an
exception, appending the temp volumes and writing the ledger records. -/
theorem main_all_phase1_run (origin target : String) (oracle : String → PodPhase)
    (c : Cluster) (files : Files)
    (hpods : c.pods = [])
    (hnodup : (pvcNames c).Nodup)
    (hfresh : ∀ p ∈ DoublePivotSafe.list_pvcs c origin, (p.name ++ "-temp") ∉ pvcNames c)
    (hne : (DoublePivotSafe.list_pvcs c origin).isEmpty = false) :
    (DoublePivotAll.main origin target false false false oracle c files).error = none
      ∧ (DoublePivotAll.main origin target false false false oracle c files).cluster
        = { c with pvcs := c.pvcs
              ++ (DoublePivotSafe.list_pvcs c origin).map (tempPVC target) }
      ∧ (DoublePivotAll.main origin target false false false oracle c files).files
        = { files with
            metadataFile := some ((DoublePivotSafe.list_pvcs c origin).map DoublePivotAll.mkRecord) } := by
  obtain ⟨tr', htr'⟩ := phase1Loop_all_fresh oracle target
    (DoublePivotSafe.list_pvcs c origin) c [] [] hpods hfresh
    (discovered_names_nodup origin hnodup)
  have hmd : (((DoublePivotSafe.list_pvcs c origin).map DoublePivotAll.mkRecord).isEmpty)
      = false := by
    rw [isEmpty_map_eq]; exact hne
  refine ⟨?_, ?_, ?_⟩ <;>
    simp [DoublePivotAll.main, DoublePivotAll.phase_one, list_pvcs_all_eq_safe,
      hne, htr', hmd]

/-- A non-dry basic phase-1 run in which the first discovered volume's temp
name already exists: the 409 conflict raises, aborting the run before any
mutating call, with the cluster and state files unchanged. -/
theorem main_all_phase1_rerun (origin target : String) (oracle : String → PodPhase)
    (c : Cluster) (files : Files) (p0 : PVC) (rest : List PVC)
    (hL : DoublePivotSafe.list_pvcs c origin = p0 :: rest)
    (hexist : (p0.name ++ "-temp") ∈ pvcNames c) :
    DoublePivotAll.main origin target false false false oracle c files
      = ⟨c, files, [],
         some "ApiException 409: persistentvolumeclaims already exists"⟩ := by
  simp only [DoublePivotAll.main, Bool.false_eq_true, if_false, DoublePivotAll.phase_one,
    list_pvcs_all_eq_safe, hL]
  simp only [List.isEmpty_cons, Bool.false_eq_true, if_false, DoublePivotAll.phase1Loop]
  rw [create_pvc_all_conflict [] target p0.size p0.accessModes hexist]

end PhaseOneRunCharacterization

/-- C5, counterexample.  In the basic variant a second phase-1 run over the
same origin class hits the 409 conflict on the already-existing temp volume
and aborts with an uncaught ApiException instead of treating it as
already-satisfied success and continuing.  (The first run completes without
error.) -/
theorem claim_C5_counterexample :
    (DoublePivotAll.main "old-sc" "new-sc" false false false (fun _ => PodPhase.Succeeded)
        { pvcs := [⟨"data-pvc", "old-sc", "10Gi", ["ReadWriteOnce"], none⟩] } {}).error = none
    ∧ (DoublePivotAll.main "old-sc" "new-sc" false false false (fun _ => PodPhase.Succeeded)
        (DoublePivotAll.main "old-sc" "new-sc" false false false (fun _ => PodPhase.Succeeded)
          { pvcs := [⟨"data-pvc", "old-sc", "10Gi", ["ReadWriteOnce"], none⟩] } {}).cluster
        (DoublePivotAll.main "old-sc" "new-sc" false false false (fun _ => PodPhase.Succeeded)
          { pvcs := [⟨"data-pvc", "old-sc", "10Gi", ["ReadWriteOnce"], none⟩] } {}).files).error
      = some "ApiException 409: persistentvolumeclaims already exists" := by
  exact ⟨by decide, by decide⟩

/-- C5, amended.  Phase-1 idempotence holds as claimed for the safe variant:
a second phase-1 invocation leaves the cluster and the ledger exactly as the
first left them (the conflicting creates are swallowed as already-satisfied),
and the ledger holds one record per volume with distinct old names.  In the
basic variant the create has no conflict handling: the second invocation
raises the 409 and aborts — though still without creating any duplicate temp
volume or ledger entry (cluster unchanged, no mutating call issued). -/
theorem claim_C5_phase1_idempotence (origin target : String) (oracle : String → PodPhase)
    (c : Cluster) (files : Files)
    (hpods : c.pods = [])
    (hnodup : (pvcNames c).Nodup)
    (hfresh : ∀ p ∈ DoublePivotSafe.list_pvcs c origin, (p.name ++ "-temp") ∉ pvcNames c)
    (hsc : (target == origin) = false)
    (hne : (DoublePivotSafe.list_pvcs c origin).isEmpty = false) :
    ((DoublePivotSafe.main origin target false false false oracle
        (DoublePivotSafe.main origin target false false false oracle c files).1
        (DoublePivotSafe.main origin target false false false oracle c files).2.1).1
      = (DoublePivotSafe.main origin target false false false oracle c files).1
    ∧ (DoublePivotSafe.main origin target false false false oracle
        (DoublePivotSafe.main origin target false false false oracle c files).1
        (DoublePivotSafe.main origin target false false false oracle c files).2.1).2.1
      = (DoublePivotSafe.main origin target false false false oracle c files).2.1
    ∧ (DoublePivotSafe.main origin target false false false oracle c files).2.1.metadataFile
      = some ((DoublePivotSafe.list_pvcs c origin).map DoublePivotSafe.mkRecord)
    ∧ (((DoublePivotSafe.list_pvcs c origin).map DoublePivotSafe.mkRecord).map
          PivotRecord.old_name).Nodup)
    ∧ ((DoublePivotAll.main origin target false false false oracle c files).error = none
    ∧ (DoublePivotAll.main origin target false false false oracle
        (DoublePivotAll.main origin target false false false oracle c files).cluster
        (DoublePivotAll.main origin target false false false oracle c files).files).error
      = some "ApiException 409: persistentvolumeclaims already exists"
    ∧ (DoublePivotAll.main origin target false false false oracle
        (DoublePivotAll.main origin target false false false oracle c files).cluster
        (DoublePivotAll.main origin target false false false oracle c files).files).cluster
      = (DoublePivotAll.main origin target false false false oracle c files).cluster
    ∧ (DoublePivotAll.main origin target false false false oracle
        (DoublePivotAll.main origin target false false false oracle c files).cluster
        (DoublePivotAll.main origin target false false false oracle c files).files).trace
      = []) := by
  have hL1 : DoublePivotSafe.list_pvcs
      { c with pvcs := c.pvcs ++ (DoublePivotSafe.list_pvcs c origin).map (tempPVC target) }
      origin = DoublePivotSafe.list_pvcs c origin :=
    list_pvcs_append_other_class c origin target _ hsc
  have hexist1 : ∀ p ∈ DoublePivotSafe.list_pvcs
      { c with pvcs := c.pvcs ++ (DoublePivotSafe.list_pvcs c origin).map (tempPVC target) }
      origin, (p.name ++ "-temp") ∈ pvcNames
      { c with pvcs := c.pvcs ++ (DoublePivotSafe.list_pvcs c origin).map (tempPVC target) } := by
    rw [hL1]
    intro p hp
    simp only [pvcNames, List.map_append, List.mem_append]
    right
    rw [List.map_map]
    exact List.mem_map_of_mem _ hp
  have hne1 : (DoublePivotSafe.list_pvcs
      { c with pvcs := c.pvcs ++ (DoublePivotSafe.list_pvcs c origin).map (tempPVC target) }
      origin).isEmpty = false := by rw [hL1]; exact hne
  obtain ⟨h1a, h1b⟩ := main_safe_phase1_run origin target oracle c files hpods hnodup hfresh hne
  obtain ⟨h2a, h2b⟩ := main_safe_phase1_rerun origin target oracle
    { c with pvcs := c.pvcs ++ (DoublePivotSafe.list_pvcs c origin).map (tempPVC target) }
    { files with
      metadataFile := some ((DoublePivotSafe.list_pvcs c origin).map DoublePivotSafe.mkRecord) }
    hpods hexist1 hne1
  obtain ⟨h3e, h3c, h3f⟩ := main_all_phase1_run origin target oracle c files hpods hnodup hfresh hne
  have hmdnodup : (((DoublePivotSafe.list_pvcs c origin).map DoublePivotSafe.mkRecord).map
      PivotRecord.old_name).Nodup := by
    have heq : ((DoublePivotSafe.list_pvcs c origin).map DoublePivotSafe.mkRecord).map
        PivotRecord.old_name = (DoublePivotSafe.list_pvcs c origin).map PVC.name := by
      rw [List.map_map]; rfl
    rw [heq]
    exact discovered_names_nodup origin hnodup
  obtain ⟨p0, rest, hLcons⟩ :
      ∃ p0 rest, DoublePivotSafe.list_pvcs c origin = p0 :: rest := by
    cases hc : DoublePivotSafe.list_pvcs c origin with
    | nil => rw [hc] at hne; simp at hne
    | cons p0 rest => exact ⟨p0, rest, rfl⟩
  have hexisthead : (p0.name ++ "-temp") ∈ pvcNames
      { c with pvcs := c.pvcs ++ (DoublePivotSafe.list_pvcs c origin).map (tempPVC target) } := by
    simp only [pvcNames, List.map_append, List.mem_append]
    right
    rw [List.map_map]
    exact List.mem_map_of_mem _ (by rw [hLcons]; exact List.mem_cons_self _ _)
  have h4 := main_all_phase1_rerun origin target oracle
    { c with pvcs := c.pvcs ++ (DoublePivotSafe.list_pvcs c origin).map (tempPVC target) }
    { files with
      metadataFile := some ((DoublePivotSafe.list_pvcs c origin).map DoublePivotAll.mkRecord) }
    p0 rest (hL1.trans hLcons) hexisthead
  refine ⟨⟨?_, ?_, ?_, hmdnodup⟩, ⟨h3e, ?_, ?_, ?_⟩⟩
  · rw [h1a, h1b, h2a]
  · rw [h1a, h1b, h2b, hL1]
  · rw [h1b]
  · rw [h3c, h3f, h4]
  · rw [h3c, h3f, h4]
  · rw [h3c, h3f, h4]

/-- C5, witness: the idempotence hypotheses hold for a one-volume cluster, and
the theorem yields there that the second basic-variant run aborts with the
409. -/
theorem claim_C5_witness :
    (pvcNames { pvcs := [⟨"data-pvc", "old-sc", "10Gi", ["ReadWriteOnce"], none⟩] }).Nodup
    ∧ (∀ p ∈ DoublePivotSafe.list_pvcs
          { pvcs := [⟨"data-pvc", "old-sc", "10Gi", ["ReadWriteOnce"], none⟩] } "old-sc",
        (p.name ++ "-temp") ∉ pvcNames
          { pvcs := [⟨"data-pvc", "old-sc", "10Gi", ["ReadWriteOnce"], none⟩] })
    ∧ (DoublePivotAll.main "old-sc" "new-sc" false false false (fun _ => PodPhase.Succeeded)
        (DoublePivotAll.main "old-sc" "new-sc" false false false (fun _ => PodPhase.Succeeded)
          { pvcs := [⟨"data-pvc", "old-sc", "10Gi", ["ReadWriteOnce"], none⟩] } {}).cluster
        (DoublePivotAll.main "old-sc" "new-sc" false false false (fun _ => PodPhase.Succeeded)
          { pvcs := [⟨"data-pvc", "old-sc", "10Gi", ["ReadWriteOnce"], none⟩] } {}).files).error
      = some "ApiException 409: persistentvolumeclaims already exists" :=
  ⟨by decide, by decide,
   (claim_C5_phase1_idempotence "old-sc" "new-sc" (fun _ => PodPhase.Succeeded)
      { pvcs := [⟨"data-pvc", "old-sc", "10Gi", ["ReadWriteOnce"], none⟩] } {}
      (by decide) (by decide) (by decide) (by decide) (by decide)).2.2.1⟩

/-- The two variants build identical ledger records. -/
theorem mkRecord_all_eq_safe : DoublePivotAll.mkRecord = DoublePivotSafe.mkRecord := rfl

/-- With distinct volume names the ledger holds exactly one record whose
old_name is a given discovered volume's name. -/
theorem ledger_exactly_one {L : List PVC} (hnodup : (L.map PVC.name).Nodup) :
    ∀ p ∈ L, (L.map DoublePivotSafe.mkRecord).filter (fun r => r.old_name == p.name)
      = [DoublePivotSafe.mkRecord p] := by
  induction L with
  | nil => intro p hp; cases hp
  | cons q rest ih =>
    intro p hp
    rcases List.mem_cons.mp hp with rfl | hp'
    · simp only [List.map_cons, List.filter_cons]
      have hq : ((DoublePivotSafe.mkRecord p).old_name == p.name) = true := by
        simp [DoublePivotSafe.mkRecord]
      rw [hq]
      have hrest : (rest.map DoublePivotSafe.mkRecord).filter
          (fun r => r.old_name == p.name) = [] := by
        rw [List.filter_eq_nil_iff]
        intro r hr
        simp only [List.mem_map] at hr
        obtain ⟨s, hs, rfl⟩ := hr
        simp only [DoublePivotSafe.mkRecord, beq_iff_eq]
        intro hsp
        exact (List.nodup_cons.mp hnodup).1 (hsp ▸ List.mem_map_of_mem PVC.name hs)
      simp [hq, hrest]
    · simp only [List.map_cons, List.filter_cons]
      have hq : ((DoublePivotSafe.mkRecord q).old_name == p.name) = false := by
        simp only [DoublePivotSafe.mkRecord, beq_eq_false_iff_ne, ne_eq]
        intro hqp
        exact (List.nodup_cons.mp hnodup).1 (hqp ▸ List.mem_map_of_mem PVC.name hp')
      simp only [hq, Bool.false_eq_true, if_false]
      exact ih (List.nodup_cons.mp hnodup).2 p hp'

/-- C2.  After a completed non-dry phase-1 run (either variant), for every
volume discovered in the origin class the persisted ledger holds exactly one
record with that volume's name as old_name and `<name>-temp` as temp_name,
and a temp PVC of that name exists in the target class with the record's size
and access modes.  Hypotheses: distinct PVC names, no pre-existing `-temp`
names for the discovered volumes, no leftover pods, and a non-empty
discovery. -/
theorem claim_C2_phase1_postcondition (origin target : String) (oracle : String → PodPhase)
    (c : Cluster) (files : Files)
    (hpods : c.pods = [])
    (hnodup : (pvcNames c).Nodup)
    (hfresh : ∀ p ∈ DoublePivotSafe.list_pvcs c origin, (p.name ++ "-temp") ∉ pvcNames c)
    (hne : (DoublePivotSafe.list_pvcs c origin).isEmpty = false) :
    ((DoublePivotSafe.main origin target false false false oracle c files).2.1.metadataFile
        = some ((DoublePivotSafe.list_pvcs c origin).map DoublePivotSafe.mkRecord)
      ∧ ∀ p ∈ DoublePivotSafe.list_pvcs c origin,
        ((DoublePivotSafe.list_pvcs c origin).map DoublePivotSafe.mkRecord).filter
            (fun r => r.old_name == p.name) = [DoublePivotSafe.mkRecord p]
        ∧ DoublePivotSafe.mkRecord p
            = ⟨p.name, p.name ++ "-temp", p.size, p.accessModes⟩
        ∧ tempPVC target p
            ∈ (DoublePivotSafe.main origin target false false false oracle c files).1.pvcs
        ∧ tempPVC target p = ⟨p.name ++ "-temp", target, p.size, p.accessModes, none⟩)
    ∧ ((DoublePivotAll.main origin target false false false oracle c files).error = none
      ∧ (DoublePivotAll.main origin target false false false oracle c files).files.metadataFile
        = some ((DoublePivotSafe.list_pvcs c origin).map DoublePivotAll.mkRecord)
      ∧ ∀ p ∈ DoublePivotSafe.list_pvcs c origin,
        tempPVC target p
          ∈ (DoublePivotAll.main origin target false false false oracle c files).cluster.pvcs) := by
  obtain ⟨h1a, h1b⟩ := main_safe_phase1_run origin target oracle c files hpods hnodup hfresh hne
  obtain ⟨h3e, h3c, h3f⟩ := main_all_phase1_run origin target oracle c files hpods hnodup hfresh hne
  refine ⟨⟨?_, ?_⟩, ⟨h3e, ?_, ?_⟩⟩
  · rw [h1b]
  · intro p hp
    refine ⟨ledger_exactly_one (discovered_names_nodup origin hnodup) p hp, rfl, ?_, rfl⟩
    rw [h1a]
    simp only [List.mem_append]
    exact Or.inr (List.mem_map_of_mem _ hp)
  · rw [h3f]
  · intro p hp
    rw [h3c]
    simp only [List.mem_append]
    exact Or.inr (List.mem_map_of_mem _ hp)

/-- C2, witness: the postcondition hypotheses hold for a one-volume cluster,
and the theorem yields there the written ledger content. -/
theorem claim_C2_witness :
    (pvcNames { pvcs := [⟨"data-pvc", "old-sc", "10Gi", ["ReadWriteOnce"], none⟩] }).Nodup
    ∧ (DoublePivotSafe.list_pvcs
        { pvcs := [⟨"data-pvc", "old-sc", "10Gi", ["ReadWriteOnce"], none⟩] }
        "old-sc").isEmpty = false
    ∧ (DoublePivotSafe.main "old-sc" "new-sc" false false false (fun _ => PodPhase.Succeeded)
        { pvcs := [⟨"data-pvc", "old-sc", "10Gi", ["ReadWriteOnce"], none⟩] } {}).2.1.metadataFile
      = some ((DoublePivotSafe.list_pvcs
          { pvcs := [⟨"data-pvc", "old-sc", "10Gi", ["ReadWriteOnce"], none⟩] }
          "old-sc").map DoublePivotSafe.mkRecord) :=
  ⟨by decide, by decide,
   (claim_C2_phase1_postcondition "old-sc" "new-sc" (fun _ => PodPhase.Succeeded)
      { pvcs := [⟨"data-pvc", "old-sc", "10Gi", ["ReadWriteOnce"], none⟩] } {}
      (by decide) (by decide) (by decide) (by decide)).1.1⟩

section PhaseTwoInfrastructure

/-- PVC membership survives a create call. -/
theorem mem_pvcs_createPVC {c : Cluster} {q : PVC} (p : PVC) (h : q ∈ c.pvcs) :
    q ∈ (applyOp c (.createPVC p)).pvcs := by
  simp only [applyOp]
  split
  · exact h
  · exact List.mem_append_left _ h

/-- PVC membership survives deletion of a different name. -/
theorem mem_pvcs_deletePVC {c : Cluster} {q : PVC} {n : String} (h : q ∈ c.pvcs)
    (hn : q.name ≠ n) : q ∈ (applyOp c (.deletePVC n)).pvcs := by
  simp only [applyOp, List.mem_filter]
  exact ⟨h, by simp [hn]⟩

/-- A name absent before a create of a different name stays absent. -/
theorem not_mem_names_createPVC {c : Cluster} {n : String} (p : PVC)
    (h : n ∉ pvcNames c) (hn : n ≠ p.name) :
    n ∉ pvcNames (applyOp c (.createPVC p)) := by
  simp only [applyOp]
  split
  · exact h
  · simp only [pvcNames, List.map_append, List.mem_append]
    rintro (hmem | hmem)
    · exact h hmem
    · simp only [List.map_cons, List.map_nil, List.mem_singleton] at hmem
      exact hn hmem

/-- A name absent before any deletion stays absent. -/
theorem not_mem_names_deletePVC {c : Cluster} {n m : String} (h : n ∉ pvcNames c) :
    n ∉ pvcNames (applyOp c (.deletePVC m)) := by
  simp only [applyOp, pvcNames, List.mem_map]
  rintro ⟨q, hq, rfl⟩
  exact h (List.mem_map_of_mem _ (List.mem_filter.mp hq).1)

/-- Deleting a name removes every PVC of that name. -/
theorem deleted_name_absent (c : Cluster) (n : String) :
    n ∉ pvcNames (applyOp c (.deletePVC n)) := by
  simp only [applyOp, pvcNames, List.mem_map]
  rintro ⟨q, hq, rfl⟩
  have := (List.mem_filter.mp hq).2
  simp at this

/-- The safe copy does not touch the PVC list. -/
theorem copy_data_pvcs (c : Cluster) (tr : List Op) (oracle : String → PodPhase)
    (src dst pfx : String) (dry : Bool) :
    (DoublePivotSafe.copy_data c tr oracle src dst pfx dry).1.pvcs = c.pvcs := by
  simp only [DoublePivotSafe.copy_data]
  split
  · rfl
  · simp [applyOp]

/-- The basic copy does not touch the PVC list. -/
theorem copy_data_with_pod_pvcs (c : Cluster) (tr : List Op) (oracle : String → PodPhase)
    (src dst pfx : String) (dry : Bool) :
    (DoublePivotAll.copy_data_with_pod c tr oracle src dst pfx dry).1.pvcs = c.pvcs := by
  simp only [DoublePivotAll.copy_data_with_pod]
  split
  · rfl
  · simp [applyOp]

/-- The workload-restore loop does not touch the PVC list. -/
theorem restoreEntries_pvcs (dry : Bool) (b : Backup) :
    ∀ c tr, (DoublePivotSafe.restoreEntries dry b c tr).1.pvcs = c.pvcs := by
  induction b with
  | nil => intro c tr; rfl
  | cons e rest ih =>
    intro c tr
    simp only [DoublePivotSafe.restoreEntries]
    have hstep : ∀ s : Cluster × List Op, s.1.pvcs = c.pvcs →
        (DoublePivotSafe.restoreEntries dry rest s.1 s.2).1.pvcs = c.pvcs := by
      intro s hs
      rw [ih s.1 s.2, hs]
    apply hstep
    repeat' split
    all_goals simp [applyOp]

/-- scale_back_up does not touch the PVC list. -/
theorem scale_back_up_pvcs (c : Cluster) (tr : List Op) (file : Option Backup) (dry : Bool) :
    (DoublePivotSafe.scale_back_up c tr file dry).1.pvcs = c.pvcs := by
  cases file with
  | none => rfl
  | some b => simp [DoublePivotSafe.scale_back_up, restoreEntries_pvcs]

end PhaseTwoInfrastructure

section PhaseTwoLoopLemmas

/-- The safe phase-2 loop preserves PVCs whose name is neither an old name nor
a temp name of the remaining records. -/
theorem phase2Loop_safe_preserves (oracle : String → PodPhase) (t : String)
    (rs : List PivotRecord) :
    ∀ c tr (q : PVC), q ∈ c.pvcs →
      (∀ r ∈ rs, q.name ≠ r.old_name) → (∀ r ∈ rs, q.name ≠ r.temp_name) →
      q ∈ (DoublePivotSafe.phase2Loop oracle t false rs c tr).1.pvcs := by
  induction rs with
  | nil => intro c tr q hq _ _; exact hq
  | cons r rest ih =>
    intro c tr q hq hold htmp
    simp only [DoublePivotSafe.phase2Loop, Bool.false_eq_true, if_false]
    have h0 : q ∈ (applyOp c (.deletePVC r.old_name)).pvcs :=
      mem_pvcs_deletePVC hq (hold r (by simp))
    have h1 : q ∈ (DoublePivotSafe.create_pvc (applyOp c (.deletePVC r.old_name))
        (tr ++ [.deletePVC r.old_name]) r.old_name t r.size r.modes false).1.pvcs := by
      simp only [DoublePivotSafe.create_pvc, Bool.false_eq_true, if_false]
      split
      · exact h0
      · exact mem_pvcs_createPVC _ h0
    set s1 := DoublePivotSafe.create_pvc (applyOp c (.deletePVC r.old_name))
      (tr ++ [.deletePVC r.old_name]) r.old_name t r.size r.modes false with hs1
    have h2 : q ∈ (DoublePivotSafe.copy_data s1.1 s1.2 oracle r.temp_name r.old_name
        "pivot2" false).1.pvcs := by
      rw [copy_data_pvcs]; exact h1
    set s2 := DoublePivotSafe.copy_data s1.1 s1.2 oracle r.temp_name r.old_name "pivot2" false
    have h3 : q ∈ (applyOp s2.1 (.deletePVC r.temp_name)).pvcs :=
      mem_pvcs_deletePVC h2 (htmp r (by simp))
    exact ih _ _ q h3 (fun s hs => hold s (List.mem_cons_of_mem _ hs))
      (fun s hs => htmp s (List.mem_cons_of_mem _ hs))

/-- The safe phase-2 loop creates only the old names of its records, so any
other absent name stays absent. -/
theorem phase2Loop_safe_preserves_absent (oracle : String → PodPhase) (t : String)
    (rs : List PivotRecord) :
    ∀ c tr (n : String), n ∉ pvcNames c → (∀ r ∈ rs, n ≠ r.old_name) →
      n ∉ pvcNames (DoublePivotSafe.phase2Loop oracle t false rs c tr).1 := by
  induction rs with
  | nil => intro c tr n hn _; exact hn
  | cons r rest ih =>
    intro c tr n hn hold
    simp only [DoublePivotSafe.phase2Loop, Bool.false_eq_true, if_false]
    have h0 : n ∉ pvcNames (applyOp c (.deletePVC r.old_name)) :=
      not_mem_names_deletePVC hn
    have h1 : n ∉ pvcNames (DoublePivotSafe.create_pvc (applyOp c (.deletePVC r.old_name))
        (tr ++ [.deletePVC r.old_name]) r.old_name t r.size r.modes false).1 := by
      simp only [DoublePivotSafe.create_pvc, Bool.false_eq_true, if_false]
      split
      · exact h0
      · exact not_mem_names_createPVC _ h0 (hold r (by simp))
    set s1 := DoublePivotSafe.create_pvc (applyOp c (.deletePVC r.old_name))
      (tr ++ [.deletePVC r.old_name]) r.old_name t r.size r.modes false
    have h2 : n ∉ pvcNames (DoublePivotSafe.copy_data s1.1 s1.2 oracle r.temp_name r.old_name
        "pivot2" false).1 := by
      simp only [pvcNames, copy_data_pvcs]
      exact h1
    set s2 := DoublePivotSafe.copy_data s1.1 s1.2 oracle r.temp_name r.old_name "pivot2" false
    have h3 : n ∉ pvcNames (applyOp s2.1 (.deletePVC r.temp_name)) :=
      not_mem_names_deletePVC h2
    exact ih _ _ n h3 (fun s hs => hold s (List.mem_cons_of_mem _ hs))

/-- Correctness of the safe phase-2 loop: every record ends with its final PVC
present (original name, target class, recorded size and modes) and its temp
name absent. -/
theorem phase2Loop_safe_correct (oracle : String → PodPhase) (t : String)
    (rs : List PivotRecord) :
    ∀ c tr, (rs.map PivotRecord.old_name).Nodup →
      (∀ r ∈ rs, ∀ s ∈ rs, r.temp_name ≠ s.old_name) →
      ∀ r ∈ rs, finalPVC t r ∈ (DoublePivotSafe.phase2Loop oracle t false rs c tr).1.pvcs
        ∧ r.temp_name ∉ pvcNames (DoublePivotSafe.phase2Loop oracle t false rs c tr).1 := by
  induction rs with
  | nil => intro c tr _ _ r hr; cases hr
  | cons r0 rest ih =>
    intro c tr hnodup hdisj r hr
    simp only [DoublePivotSafe.phase2Loop, Bool.false_eq_true, if_false]
    have hdel : r0.old_name ∉ pvcNames (applyOp c (.deletePVC r0.old_name)) :=
      deleted_name_absent c r0.old_name
    have hcr : DoublePivotSafe.create_pvc (applyOp c (.deletePVC r0.old_name))
        (tr ++ [.deletePVC r0.old_name]) r0.old_name t r0.size r0.modes false
        = ({ applyOp c (.deletePVC r0.old_name) with
              pvcs := (applyOp c (.deletePVC r0.old_name)).pvcs ++ [finalPVC t r0] },
           (tr ++ [.deletePVC r0.old_name]) ++ [.createPVC (finalPVC t r0)]) :=
      create_pvc_safe_new _ t r0.size r0.modes hdel
    rw [hcr]
    set c1 : Cluster := { applyOp c (.deletePVC r0.old_name) with
      pvcs := (applyOp c (.deletePVC r0.old_name)).pvcs ++ [finalPVC t r0] } with hc1
    set tr1 : List Op :=
      (tr ++ [.deletePVC r0.old_name]) ++ [.createPVC (finalPVC t r0)] with htr1
    rcases List.mem_cons.mp hr with rfl | hr'
    · -- the head record itself
      have hmem1 : finalPVC t r ∈ c1.pvcs := by rw [hc1]; simp
      constructor
      · -- membership survives copy, temp deletion and the remaining records
        have h2 : finalPVC t r ∈ (DoublePivotSafe.copy_data c1 tr1 oracle r.temp_name
            r.old_name "pivot2" false).1.pvcs := by
          rw [copy_data_pvcs]; exact hmem1
        have h3 : finalPVC t r ∈ (applyOp (DoublePivotSafe.copy_data c1 tr1 oracle r.temp_name
            r.old_name "pivot2" false).1 (.deletePVC r.temp_name)).pvcs := by
          refine mem_pvcs_deletePVC h2 ?_
          have := hdisj r (by simp) r (by simp)
          simpa [finalPVC] using fun h => this h.symm
        refine phase2Loop_safe_preserves oracle t rest _ _ _ h3 ?_ ?_
        · intro s hs
          simp only [finalPVC]
          intro h
          exact (List.nodup_cons.mp hnodup).1
            (h ▸ List.mem_map_of_mem PivotRecord.old_name hs)
        · intro s hs
          simp only [finalPVC]
          intro h
          exact hdisj s (List.mem_cons_of_mem _ hs) r (by simp) (h.symm)
      · -- the temp name is gone and never recreated
        have h2 : r.temp_name ∉ pvcNames (applyOp (DoublePivotSafe.copy_data c1 tr1 oracle
            r.temp_name r.old_name "pivot2" false).1 (.deletePVC r.temp_name)) :=
          deleted_name_absent _ r.temp_name
        refine phase2Loop_safe_preserves_absent oracle t rest _ _ _ h2 ?_
        intro s hs
        exact hdisj r (by simp) s (List.mem_cons_of_mem _ hs)
    · -- a later record: apply the induction hypothesis after this iteration
      have hn := (List.nodup_cons.mp hnodup).2
      have hd : ∀ a ∈ rest, ∀ b ∈ rest, a.temp_name ≠ b.old_name := fun a ha b hb =>
        hdisj a (List.mem_cons_of_mem _ ha) b (List.mem_cons_of_mem _ hb)
      exact ih _ _ hn hd r hr'

end PhaseTwoLoopLemmas

section PhaseTwoAllLemmas

/-- The basic phase-2 loop without temp preservation: under distinct old
names, temp names disjoint from old names, and the original names already
deleted, the loop completes without an exception; it preserves PVCs whose
name is no record's temp name, never creates names other than the old names,
and ends with every final PVC present and every temp name absent. -/
theorem phase2Loop_all_nopreserve (oracle : String → PodPhase) (t : String)
    (rs : List PivotRecord) :
    ∀ c tr, (rs.map PivotRecord.old_name).Nodup →
      (∀ r ∈ rs, ∀ s ∈ rs, r.temp_name ≠ s.old_name) →
      (∀ r ∈ rs, r.old_name ∉ pvcNames c) →
      ∃ c' tr', DoublePivotAll.phase2Loop oracle t false false rs c tr = .ok c' tr' ()
        ∧ (∀ q ∈ c.pvcs, (∀ r ∈ rs, q.name ≠ r.temp_name) → q ∈ c'.pvcs)
        ∧ (∀ n, n ∉ pvcNames c → (∀ r ∈ rs, n ≠ r.old_name) → n ∉ pvcNames c')
        ∧ (∀ r ∈ rs, finalPVC t r ∈ c'.pvcs ∧ r.temp_name ∉ pvcNames c') := by
  induction rs with
  | nil =>
    intro c tr _ _ _
    exact ⟨c, tr, rfl, fun q hq _ => hq, fun n hn _ => hn, fun r hr => absurd hr (by simp)⟩
  | cons r0 rest ih =>
    intro c tr hnodup hdisj habs
    simp only [DoublePivotAll.phase2Loop]
    have hcr : DoublePivotAll.create_pvc c tr r0.old_name t r0.size r0.modes false
        = .ok ({ c with pvcs := c.pvcs ++ [finalPVC t r0] })
            (tr ++ [.createPVC (finalPVC t r0)]) () :=
      create_pvc_all_new tr t r0.size r0.modes (habs r0 (by simp))
    rw [hcr]
    dsimp only
    set c1 : Cluster := { c with pvcs := c.pvcs ++ [finalPVC t r0] } with hc1
    set s2 := DoublePivotAll.copy_data_with_pod c1 (tr ++ [.createPVC (finalPVC t r0)])
      oracle r0.temp_name r0.old_name "pivot2" false with hs2
    simp only [Bool.not_false, if_true, Bool.false_eq_true, if_false]
    set c3 : Cluster := applyOp s2.1 (.deletePVC r0.temp_name) with hc3
    have hpvcs2 : s2.1.pvcs = c.pvcs ++ [finalPVC t r0] := by
      rw [hs2, copy_data_with_pod_pvcs]
    have habs3 : ∀ s ∈ rest, s.old_name ∉ pvcNames c3 := by
      intro s hs
      have h1 : s.old_name ∉ pvcNames c := habs s (List.mem_cons_of_mem _ hs)
      have h2 : s.old_name ∉ pvcNames s2.1 := by
        simp only [pvcNames, hpvcs2, List.map_append, List.mem_append]
        rintro (h | h)
        · exact h1 h
        · simp only [finalPVC, List.map_cons, List.map_nil, List.mem_singleton] at h
          exact (List.nodup_cons.mp hnodup).1
            (h ▸ List.mem_map_of_mem PivotRecord.old_name hs)
      exact not_mem_names_deletePVC h2
    obtain ⟨c', tr', hok, hpres, habs', hcorr⟩ := ih c3
      (s2.2 ++ [.deletePVC r0.temp_name])
      (List.nodup_cons.mp hnodup).2
      (fun a ha b hb => hdisj a (List.mem_cons_of_mem _ ha) b (List.mem_cons_of_mem _ hb))
      habs3
    refine ⟨c', tr', hok, ?_, ?_, ?_⟩
    · -- preservation
      intro q hq hqt
      refine hpres q ?_ (fun s hs => hqt s (List.mem_cons_of_mem _ hs))
      rw [hc3]
      refine mem_pvcs_deletePVC ?_ (hqt r0 (by simp))
      have : q ∈ s2.1.pvcs := by
        rw [hpvcs2]
        exact List.mem_append_left _ hq
      exact this
    · -- absent names stay absent
      intro n hn hno
      refine habs' n ?_ (fun s hs => hno s (List.mem_cons_of_mem _ hs))
      rw [hc3]
      refine not_mem_names_deletePVC ?_
      simp only [pvcNames, hpvcs2, List.map_append, List.mem_append]
      rintro (h | h)
      · exact hn h
      · simp only [finalPVC, List.map_cons, List.map_nil, List.mem_singleton] at h
        exact hno r0 (by simp) h
    · -- correctness per record
      intro r hr
      rcases List.mem_cons.mp hr with rfl | hr'
      · constructor
        · refine hpres (finalPVC t r) ?_ ?_
          · rw [hc3]
            refine mem_pvcs_deletePVC ?_ ?_
            · have : finalPVC t r ∈ s2.1.pvcs := by
                rw [hpvcs2]
                exact List.mem_append_right _ (by simp)
              exact this
            · have := hdisj r (by simp) r (by simp)
              simpa [finalPVC] using fun h => this h.symm
          · intro s hs
            simp only [finalPVC]
            intro h
            exact hdisj s (List.mem_cons_of_mem _ hs) r (by simp) h.symm
        · refine habs' r.temp_name ?_ ?_
          · rw [hc3]
            exact deleted_name_absent _ _
          · intro s hs
            exact hdisj r (by simp) s (List.mem_cons_of_mem _ hs)
      · exact hcorr r hr'

end PhaseTwoAllLemmas

section PhaseTwoMains

/-- The basic phase-2 loop with temp preservation: completes, only adds PVCs,
and ends with every final PVC present (temps are untouched). -/
theorem phase2Loop_all_preserve (oracle : String → PodPhase) (t : String)
    (rs : List PivotRecord) :
    ∀ c tr, (rs.map PivotRecord.old_name).Nodup →
      (∀ r ∈ rs, r.old_name ∉ pvcNames c) →
      ∃ c' tr', DoublePivotAll.phase2Loop oracle t false true rs c tr = .ok c' tr' ()
        ∧ (∀ q ∈ c.pvcs, q ∈ c'.pvcs)
        ∧ (∀ r ∈ rs, finalPVC t r ∈ c'.pvcs) := by
  induction rs with
  | nil =>
    intro c tr _ _
    exact ⟨c, tr, rfl, fun q hq => hq, fun r hr => absurd hr (by simp)⟩
  | cons r0 rest ih =>
    intro c tr hnodup habs
    simp only [DoublePivotAll.phase2Loop]
    have hcr : DoublePivotAll.create_pvc c tr r0.old_name t r0.size r0.modes false
        = .ok ({ c with pvcs := c.pvcs ++ [finalPVC t r0] })
            (tr ++ [.createPVC (finalPVC t r0)]) () :=
      create_pvc_all_new tr t r0.size r0.modes (habs r0 (by simp))
    rw [hcr]
    dsimp only
    set c1 : Cluster := { c with pvcs := c.pvcs ++ [finalPVC t r0] } with hc1
    set s2 := DoublePivotAll.copy_data_with_pod c1 (tr ++ [.createPVC (finalPVC t r0)])
      oracle r0.temp_name r0.old_name "pivot2" false with hs2
    simp only [Bool.not_true, Bool.false_eq_true, if_false]
    have hpvcs2 : s2.1.pvcs = c.pvcs ++ [finalPVC t r0] := by
      rw [hs2, copy_data_with_pod_pvcs]
    have habs2 : ∀ s ∈ rest, s.old_name ∉ pvcNames s2.1 := by
      intro s hs
      simp only [pvcNames, hpvcs2, List.map_append, List.mem_append]
      rintro (h | h)
      · exact habs s (List.mem_cons_of_mem _ hs) h
      · simp only [finalPVC, List.map_cons, List.map_nil, List.mem_singleton] at h
        exact (List.nodup_cons.mp hnodup).1
          (h ▸ List.mem_map_of_mem PivotRecord.old_name hs)
    obtain ⟨c', tr', hok, hmono, hcorr⟩ := ih s2.1 s2.2
      (List.nodup_cons.mp hnodup).2 habs2
    refine ⟨c', tr', hok, ?_, ?_⟩
    · intro q hq
      refine hmono q ?_
      rw [hpvcs2]
      exact List.mem_append_left _ hq
    · intro r hr
      rcases List.mem_cons.mp hr with rfl | hr'
      · refine hmono (finalPVC t r) ?_
        rw [hpvcs2]
        exact List.mem_append_right _ (by simp)
      · exact hcorr r hr'

/-- PVC list of a completed safe phase-2 run: the workload restore and the
file removal do not touch PVCs, so it is the loop's PVC list. -/
theorem main_safe_phase2_pvcs (origin target : String) (oracle : String → PodPhase)
    (c : Cluster) (files : Files) (records : List PivotRecord)
    (hmd : files.metadataFile = some records) :
    (DoublePivotSafe.main origin target true false false oracle c files).1.pvcs
      = (DoublePivotSafe.phase2Loop oracle target false records c []).1.pvcs := by
  simp only [DoublePivotSafe.main, Bool.not_true, Bool.false_eq_true, if_false, hmd]
  rw [scale_back_up_pvcs]

/-- A completed basic phase-2 run without temp preservation. -/
theorem main_all_phase2_nopreserve (origin target : String) (oracle : String → PodPhase)
    (c : Cluster) (files : Files) (records : List PivotRecord)
    (hmd : files.metadataFile = some records) (hne : records.isEmpty = false)
    (hnodup : (records.map PivotRecord.old_name).Nodup)
    (hdisj : ∀ r ∈ records, ∀ s ∈ records, r.temp_name ≠ s.old_name)
    (habs : ∀ r ∈ records, r.old_name ∉ pvcNames c) :
    ∃ c' tr', DoublePivotAll.main origin target true false false oracle c files
        = ⟨c', { files with metadataFile := none }, tr', none⟩
      ∧ ∀ r ∈ records, finalPVC target r ∈ c'.pvcs ∧ r.temp_name ∉ pvcNames c' := by
  obtain ⟨c', tr', hok, _, _, hcorr⟩ :=
    phase2Loop_all_nopreserve oracle target records c [] hnodup hdisj habs
  refine ⟨c', tr', ?_, hcorr⟩
  simp [DoublePivotAll.main, DoublePivotAll.phase_two, hmd, hne, hok]

/-- A completed basic phase-2 run with temp preservation. -/
theorem main_all_phase2_preserve (origin target : String) (oracle : String → PodPhase)
    (c : Cluster) (files : Files) (records : List PivotRecord)
    (hmd : files.metadataFile = some records) (hne : records.isEmpty = false)
    (hnodup : (records.map PivotRecord.old_name).Nodup)
    (habs : ∀ r ∈ records, r.old_name ∉ pvcNames c) :
    ∃ c' tr', DoublePivotAll.main origin target true false true oracle c files
        = ⟨c', { files with metadataFile := none }, tr', none⟩
      ∧ (∀ q ∈ c.pvcs, q ∈ c'.pvcs)
      ∧ ∀ r ∈ records, finalPVC target r ∈ c'.pvcs := by
  obtain ⟨c', tr', hok, hmono, hcorr⟩ :=
    phase2Loop_all_preserve oracle target records c [] hnodup habs
  refine ⟨c', tr', ?_, hmono, hcorr⟩
  simp [DoublePivotAll.main, DoublePivotAll.phase_two, hmd, hne, hok]

end PhaseTwoMains

/-- Discovered volumes are volumes of the cluster. -/
theorem mem_list_pvcs_mem_pvcs {c : Cluster} {sc : String} {p : PVC}
    (h : p ∈ DoublePivotSafe.list_pvcs c sc) : p ∈ c.pvcs :=
  (List.mem_filter.mp h).1

/-- C1.  Round trip of the two-phase pivot.  Safe variant: phase 1 followed by
phase 2 (which deletes the originals itself) ends with a PVC under each
original name in the target class with the original size and access modes,
and without the `<name>-temp` volume.  Basic variant: phase 1 writes the
ledger; after the manual deletion of the originals that the tool instructs
(modelled by any cluster state with no leftover pods, the temps present and
the original names absent), phase 2 ends likewise — the temp volume is
removed unless --preserve-temp was given, in which case it survives.
Hypotheses: distinct PVC names, fresh `-temp` names, no leftover pods in the
discovery cluster and in the post-deletion cluster (a leftover
`pivot2-<temp[:20]>` pod would make the real phase 2 abort on the uncaught
409 from the pod create), non-empty discovery. -/
theorem claim_C1_round_trip (origin target : String) (oracle : String → PodPhase)
    (c : Cluster) (files : Files)
    (hpods : c.pods = [])
    (hnodup : (pvcNames c).Nodup)
    (hfresh : ∀ p ∈ DoublePivotSafe.list_pvcs c origin, (p.name ++ "-temp") ∉ pvcNames c)
    (hne : (DoublePivotSafe.list_pvcs c origin).isEmpty = false) :
    (∀ p ∈ DoublePivotSafe.list_pvcs c origin,
      (⟨p.name, target, p.size, p.accessModes, none⟩ : PVC)
        ∈ (DoublePivotSafe.main origin target true false false oracle
            (DoublePivotSafe.main origin target false false false oracle c files).1
            (DoublePivotSafe.main origin target false false false oracle c files).2.1).1.pvcs
      ∧ (p.name ++ "-temp") ∉ pvcNames
          (DoublePivotSafe.main origin target true false false oracle
            (DoublePivotSafe.main origin target false false false oracle c files).1
            (DoublePivotSafe.main origin target false false false oracle c files).2.1).1)
    ∧ (∀ cd : Cluster,
      cd.pods = [] →
      (∀ p ∈ DoublePivotSafe.list_pvcs c origin, tempPVC target p ∈ cd.pvcs) →
      (∀ p ∈ DoublePivotSafe.list_pvcs c origin, p.name ∉ pvcNames cd) →
      ∀ p ∈ DoublePivotSafe.list_pvcs c origin,
        ((⟨p.name, target, p.size, p.accessModes, none⟩ : PVC)
            ∈ (DoublePivotAll.main origin target true false false oracle cd
                (DoublePivotAll.main origin target false false false oracle c files).files).cluster.pvcs
          ∧ (p.name ++ "-temp") ∉ pvcNames
              (DoublePivotAll.main origin target true false false oracle cd
                (DoublePivotAll.main origin target false false false oracle c files).files).cluster)
        ∧ ((⟨p.name, target, p.size, p.accessModes, none⟩ : PVC)
            ∈ (DoublePivotAll.main origin target true false true oracle cd
                (DoublePivotAll.main origin target false false false oracle c files).files).cluster.pvcs
          ∧ tempPVC target p
            ∈ (DoublePivotAll.main origin target true false true oracle cd
                (DoublePivotAll.main origin target false false false oracle c files).files).cluster.pvcs)) := by
  have hLpvcs : ∀ q ∈ DoublePivotSafe.list_pvcs c origin, q.name ∈ pvcNames c :=
    fun q hq => List.mem_map_of_mem _ (mem_list_pvcs_mem_pvcs hq)
  have hmdnodup : (((DoublePivotSafe.list_pvcs c origin).map DoublePivotSafe.mkRecord).map
      PivotRecord.old_name).Nodup := by
    have heq : ((DoublePivotSafe.list_pvcs c origin).map DoublePivotSafe.mkRecord).map
        PivotRecord.old_name = (DoublePivotSafe.list_pvcs c origin).map PVC.name := by
      rw [List.map_map]; rfl
    rw [heq]
    exact discovered_names_nodup origin hnodup
  have hdisjmd : ∀ r ∈ (DoublePivotSafe.list_pvcs c origin).map DoublePivotSafe.mkRecord,
      ∀ s ∈ (DoublePivotSafe.list_pvcs c origin).map DoublePivotSafe.mkRecord,
      r.temp_name ≠ s.old_name := by
    intro r hr s hs
    simp only [List.mem_map] at hr hs
    obtain ⟨p, hp, rfl⟩ := hr
    obtain ⟨q, hq, rfl⟩ := hs
    simp only [DoublePivotSafe.mkRecord, ne_eq]
    intro h
    exact hfresh p hp (h ▸ hLpvcs q hq)
  constructor
  · -- safe variant
    obtain ⟨h1a, h1b⟩ := main_safe_phase1_run origin target oracle c files hpods hnodup hfresh hne
    intro p hp
    have hr : DoublePivotSafe.mkRecord p
        ∈ (DoublePivotSafe.list_pvcs c origin).map DoublePivotSafe.mkRecord :=
      List.mem_map_of_mem _ hp
    obtain ⟨hmem, habs⟩ := phase2Loop_safe_correct oracle target
      ((DoublePivotSafe.list_pvcs c origin).map DoublePivotSafe.mkRecord)
      { c with pvcs := c.pvcs ++ (DoublePivotSafe.list_pvcs c origin).map (tempPVC target) }
      [] hmdnodup hdisjmd (DoublePivotSafe.mkRecord p) hr
    have hpvcseq := main_safe_phase2_pvcs origin target oracle
      { c with pvcs := c.pvcs ++ (DoublePivotSafe.list_pvcs c origin).map (tempPVC target) }
      { files with
        metadataFile := some ((DoublePivotSafe.list_pvcs c origin).map DoublePivotSafe.mkRecord) }
      ((DoublePivotSafe.list_pvcs c origin).map DoublePivotSafe.mkRecord) rfl
    constructor
    · rw [h1a, h1b, hpvcseq]
      exact hmem
    · rw [h1a, h1b]
      simp only [pvcNames]
      rw [hpvcseq]
      exact habs
  · -- basic variant
    obtain ⟨h3e, h3c, h3f⟩ := main_all_phase1_run origin target oracle c files hpods hnodup hfresh hne
    intro cd hpodsd htemps habsd p hp
    have hmdA : ({ files with
        metadataFile := some ((DoublePivotSafe.list_pvcs c origin).map DoublePivotAll.mkRecord) }
          : Files).metadataFile
        = some ((DoublePivotSafe.list_pvcs c origin).map DoublePivotAll.mkRecord) := rfl
    have hneA : (((DoublePivotSafe.list_pvcs c origin).map DoublePivotAll.mkRecord).isEmpty)
        = false := by rw [isEmpty_map_eq]; exact hne
    have habsA : ∀ r ∈ (DoublePivotSafe.list_pvcs c origin).map DoublePivotAll.mkRecord,
        r.old_name ∉ pvcNames cd := by
      intro r hr
      simp only [List.mem_map] at hr
      obtain ⟨q, hq, rfl⟩ := hr
      exact habsd q hq
    have hrA : DoublePivotAll.mkRecord p
        ∈ (DoublePivotSafe.list_pvcs c origin).map DoublePivotAll.mkRecord :=
      List.mem_map_of_mem _ hp
    constructor
    · -- without --preserve-temp
      obtain ⟨c', tr', heq, hcorr⟩ := main_all_phase2_nopreserve origin target oracle cd
        { files with
          metadataFile := some ((DoublePivotSafe.list_pvcs c origin).map DoublePivotAll.mkRecord) }
        ((DoublePivotSafe.list_pvcs c origin).map DoublePivotAll.mkRecord)
        hmdA hneA (mkRecord_all_eq_safe ▸ hmdnodup) (mkRecord_all_eq_safe ▸ hdisjmd) habsA
      obtain ⟨hc1, hc2⟩ := hcorr (DoublePivotAll.mkRecord p) hrA
      rw [h3f, heq]
      exact ⟨hc1, hc2⟩
    · -- with --preserve-temp
      obtain ⟨c', tr', heq, hmono, hcorr⟩ := main_all_phase2_preserve origin target oracle cd
        { files with
          metadataFile := some ((DoublePivotSafe.list_pvcs c origin).map DoublePivotAll.mkRecord) }
        ((DoublePivotSafe.list_pvcs c origin).map DoublePivotAll.mkRecord)
        hmdA hneA (mkRecord_all_eq_safe ▸ hmdnodup) habsA
      rw [h3f, heq]
      exact ⟨hcorr (DoublePivotAll.mkRecord p) hrA, hmono _ (htemps p hp)⟩

/-- C1, witness: the round-trip hypotheses hold for a one-volume cluster, and
the theorem yields there that data-pvc ends in the target class and
data-pvc-temp is gone, both after the safe-variant phase 1 + phase 2 and
after the basic-variant phase 2 from a pod-free post-deletion cluster holding
only data-pvc-temp. -/
theorem claim_C1_witness :
    (pvcNames { pvcs := [⟨"data-pvc", "old-sc", "10Gi", ["ReadWriteOnce"], none⟩] }).Nodup
    ∧ (⟨"data-pvc", "new-sc", "10Gi", ["ReadWriteOnce"], none⟩ : PVC)
        ∈ (DoublePivotSafe.main "old-sc" "new-sc" true false false (fun _ => PodPhase.Succeeded)
            (DoublePivotSafe.main "old-sc" "new-sc" false false false (fun _ => PodPhase.Succeeded)
              { pvcs := [⟨"data-pvc", "old-sc", "10Gi", ["ReadWriteOnce"], none⟩] } {}).1
            (DoublePivotSafe.main "old-sc" "new-sc" false false false (fun _ => PodPhase.Succeeded)
              { pvcs := [⟨"data-pvc", "old-sc", "10Gi", ["ReadWriteOnce"], none⟩] } {}).2.1).1.pvcs
    ∧ ("data-pvc" ++ "-temp") ∉ pvcNames
        (DoublePivotSafe.main "old-sc" "new-sc" true false false (fun _ => PodPhase.Succeeded)
            (DoublePivotSafe.main "old-sc" "new-sc" false false false (fun _ => PodPhase.Succeeded)
              { pvcs := [⟨"data-pvc", "old-sc", "10Gi", ["ReadWriteOnce"], none⟩] } {}).1
            (DoublePivotSafe.main "old-sc" "new-sc" false false false (fun _ => PodPhase.Succeeded)
              { pvcs := [⟨"data-pvc", "old-sc", "10Gi", ["ReadWriteOnce"], none⟩] } {}).2.1).1
    ∧ (⟨"data-pvc", "new-sc", "10Gi", ["ReadWriteOnce"], none⟩ : PVC)
        ∈ (DoublePivotAll.main "old-sc" "new-sc" true false false (fun _ => PodPhase.Succeeded)
            { pvcs := [⟨"data-pvc-temp", "new-sc", "10Gi", ["ReadWriteOnce"], none⟩] }
            (DoublePivotAll.main "old-sc" "new-sc" false false false (fun _ => PodPhase.Succeeded)
              { pvcs := [⟨"data-pvc", "old-sc", "10Gi", ["ReadWriteOnce"], none⟩] }
              {}).files).cluster.pvcs
    ∧ ("data-pvc" ++ "-temp") ∉ pvcNames
        (DoublePivotAll.main "old-sc" "new-sc" true false false (fun _ => PodPhase.Succeeded)
            { pvcs := [⟨"data-pvc-temp", "new-sc", "10Gi", ["ReadWriteOnce"], none⟩] }
            (DoublePivotAll.main "old-sc" "new-sc" false false false (fun _ => PodPhase.Succeeded)
              { pvcs := [⟨"data-pvc", "old-sc", "10Gi", ["ReadWriteOnce"], none⟩] }
              {}).files).cluster := by
  have h := claim_C1_round_trip "old-sc" "new-sc" (fun _ => PodPhase.Succeeded)
    { pvcs := [⟨"data-pvc", "old-sc", "10Gi", ["ReadWriteOnce"], none⟩] } {}
    (by decide) (by decide) (by decide) (by decide)
  have hs := h.1 ⟨"data-pvc", "old-sc", "10Gi", ["ReadWriteOnce"], none⟩ (by decide)
  have hb := h.2 { pvcs := [⟨"data-pvc-temp", "new-sc", "10Gi", ["ReadWriteOnce"], none⟩] }
    rfl (by decide) (by decide)
    ⟨"data-pvc", "old-sc", "10Gi", ["ReadWriteOnce"], none⟩ (by decide)
  exact ⟨by decide, hs.1, hs.2, hb.1.1, hb.1.2⟩

section DetectEffect

/-- Effect of the deployment quiescence pass: matched deployments with a
positive replica count are scaled to 0, and every matched deployment is
recorded with its prior replica count. -/
theorem scaleDownDeployments_effect (names : List String) (l : List Deployment) :
    ∀ c evs b, (DoublePivotSafe.scaleDownDeployments names false l c evs b).1
        = { c with deployments := c.deployments.map (fun x =>
            if ((l.filter (fun y => DoublePivotSafe.matchClaims y.claimNames names
                  && decide (0 < y.replicas))).map Deployment.name).contains x.name
            then { x with replicas := 0 } else x) }
      ∧ (DoublePivotSafe.scaleDownDeployments names false l c evs b).2.2
        = b ++ (l.filter (fun y => DoublePivotSafe.matchClaims y.claimNames names)).map
            (fun y => ⟨y.uid, "Deployment", y.name, Prior.replicas y.replicas⟩) := by
  induction l with
  | nil =>
    intro c evs b
    refine ⟨?_, by simp [DoublePivotSafe.scaleDownDeployments]⟩
    simp [DoublePivotSafe.scaleDownDeployments]
  | cons d rest ih =>
    intro c evs b
    simp only [DoublePivotSafe.scaleDownDeployments]
    by_cases hm : DoublePivotSafe.matchClaims d.claimNames names = true
    · simp only [hm, if_true]
      by_cases hr : 0 < d.replicas
      · simp only [hr, if_pos, Bool.false_eq_true, if_false]
        obtain ⟨iha, ihb⟩ := ih (applyOp c (.scaleDeployment d.name 0))
          (evs ++ [.op (.scaleDeployment d.name 0)])
          (b ++ [⟨d.uid, "Deployment", d.name, .replicas d.replicas⟩])
        constructor
        · rw [iha]
          simp only [applyOp, List.map_map]
          have hfc : (d :: rest).filter (fun y => DoublePivotSafe.matchClaims y.claimNames names
              && decide (0 < y.replicas))
              = d :: rest.filter (fun y => DoublePivotSafe.matchClaims y.claimNames names
                  && decide (0 < y.replicas)) := by
            simp [List.filter_cons, hm, hr]
          have hfun : ∀ x ∈ c.deployments,
              ((fun x =>
                if ((rest.filter (fun y => DoublePivotSafe.matchClaims y.claimNames names
                      && decide (0 < y.replicas))).map Deployment.name).contains x.name
                then { x with replicas := 0 } else x) ∘
               (fun x => if x.name == d.name then { x with replicas := 0 } else x)) x
              = (fun x =>
                if (((d :: rest).filter (fun y => DoublePivotSafe.matchClaims y.claimNames names
                      && decide (0 < y.replicas))).map Deployment.name).contains x.name
                then { x with replicas := 0 } else x) x := by
            intro x _
            simp only [Function.comp_apply, hfc, List.map_cons, List.contains_cons]
            by_cases hx : (x.name == d.name) = true
            · simp only [hx, if_true, Bool.true_or]
              by_cases hx2 : ((rest.filter (fun y => DoublePivotSafe.matchClaims y.claimNames names
                  && decide (0 < y.replicas))).map Deployment.name).contains x.name = true
              · simp [hx2]
              · simp [hx2]
            · simp only [hx, Bool.false_eq_true, if_false, Bool.false_or]
          rw [List.map_congr_left hfun]
        · rw [ihb]
          simp [List.filter_cons, hm]
      · simp only [hr, Bool.false_eq_true, if_false]
        obtain ⟨iha, ihb⟩ := ih c evs
          (b ++ [⟨d.uid, "Deployment", d.name, .replicas d.replicas⟩])
        constructor
        · rw [iha]
          have : ((d :: rest).filter (fun y => DoublePivotSafe.matchClaims y.claimNames names
              && decide (0 < y.replicas))) = rest.filter (fun y =>
                DoublePivotSafe.matchClaims y.claimNames names && decide (0 < y.replicas)) := by
            simp [List.filter_cons, hm, hr]
          rw [this]
        · rw [ihb]
          simp [List.filter_cons, hm]
    · simp only [hm, Bool.false_eq_true, if_false]
      obtain ⟨iha, ihb⟩ := ih c evs b
      have hf1 : ((d :: rest).filter (fun y => DoublePivotSafe.matchClaims y.claimNames names
          && decide (0 < y.replicas))) = rest.filter (fun y =>
            DoublePivotSafe.matchClaims y.claimNames names && decide (0 < y.replicas)) := by
        simp [List.filter_cons, hm]
      have hf2 : ((d :: rest).filter (fun y => DoublePivotSafe.matchClaims y.claimNames names))
          = rest.filter (fun y => DoublePivotSafe.matchClaims y.claimNames names) := by
        simp [List.filter_cons, hm]
      exact ⟨by rw [iha, hf1], by rw [ihb, hf2]⟩

end DetectEffect

/-- Effect of the replicaset quiescence pass. -/
theorem scaleDownReplicaSets_effect (names : List String) (l : List ReplicaSet) :
    ∀ c evs b, (DoublePivotSafe.scaleDownReplicaSets names false l c evs b).1
        = { c with replicasets := c.replicasets.map (fun x =>
            if ((l.filter (fun y => DoublePivotSafe.matchClaims y.claimNames names
                  && decide (0 < y.replicas.getD 0))).map ReplicaSet.name).contains x.name
            then { x with replicas := some 0 } else x) }
      ∧ (DoublePivotSafe.scaleDownReplicaSets names false l c evs b).2.2
        = b ++ (l.filter (fun y => DoublePivotSafe.matchClaims y.claimNames names)).map
            (fun y => ⟨y.uid, "ReplicaSet", y.name, Prior.replicas (y.replicas.getD 0)⟩) := by
  induction l with
  | nil =>
    intro c evs b
    refine ⟨?_, by simp [DoublePivotSafe.scaleDownReplicaSets]⟩
    simp [DoublePivotSafe.scaleDownReplicaSets]
  | cons d rest ih =>
    intro c evs b
    simp only [DoublePivotSafe.scaleDownReplicaSets]
    by_cases hm : DoublePivotSafe.matchClaims d.claimNames names = true
    · simp only [hm, if_true]
      by_cases hr : 0 < d.replicas.getD 0
      · simp only [hr, if_pos, Bool.false_eq_true, if_false]
        obtain ⟨iha, ihb⟩ := ih (applyOp c (.scaleReplicaSet d.name 0))
          (evs ++ [.op (.scaleReplicaSet d.name 0)])
          (b ++ [⟨d.uid, "ReplicaSet", d.name, .replicas (d.replicas.getD 0)⟩])
        constructor
        · rw [iha]
          simp only [applyOp, List.map_map]
          have hfc : (d :: rest).filter (fun y => DoublePivotSafe.matchClaims y.claimNames names
              && decide (0 < y.replicas.getD 0))
              = d :: rest.filter (fun y => DoublePivotSafe.matchClaims y.claimNames names
                  && decide (0 < y.replicas.getD 0)) := by
            simp [List.filter_cons, hm, hr]
          have hfun : ∀ x ∈ c.replicasets,
              ((fun x =>
                if ((rest.filter (fun y => DoublePivotSafe.matchClaims y.claimNames names
                      && decide (0 < y.replicas.getD 0))).map ReplicaSet.name).contains x.name
                then { x with replicas := some 0 } else x) ∘
               (fun x => if x.name == d.name then { x with replicas := some 0 } else x)) x
              = (fun x =>
                if (((d :: rest).filter (fun y => DoublePivotSafe.matchClaims y.claimNames names
                      && decide (0 < y.replicas.getD 0))).map ReplicaSet.name).contains x.name
                then { x with replicas := some 0 } else x) x := by
            intro x _
            simp only [Function.comp_apply, hfc, List.map_cons, List.contains_cons]
            by_cases hx : (x.name == d.name) = true
            · simp only [hx, if_true, Bool.true_or]
              by_cases hx2 : ((rest.filter (fun y => DoublePivotSafe.matchClaims y.claimNames names
                  && decide (0 < y.replicas.getD 0))).map ReplicaSet.name).contains x.name = true
              · simp [hx2]
              · simp [hx2]
            · simp only [hx, Bool.false_eq_true, if_false, Bool.false_or]
          rw [List.map_congr_left hfun]
        · rw [ihb]
          simp [List.filter_cons, hm]
      · simp only [hr, Bool.false_eq_true, if_false]
        obtain ⟨iha, ihb⟩ := ih c evs
          (b ++ [⟨d.uid, "ReplicaSet", d.name, .replicas (d.replicas.getD 0)⟩])
        constructor
        · rw [iha]
          have : (d :: rest).filter (fun y => DoublePivotSafe.matchClaims y.claimNames names
              && decide (0 < y.replicas.getD 0)) = rest.filter (fun y =>
                DoublePivotSafe.matchClaims y.claimNames names
                  && decide (0 < y.replicas.getD 0)) := by
            simp [List.filter_cons, hm, hr]
          rw [this]
        · rw [ihb]
          simp [List.filter_cons, hm]
    · simp only [hm, Bool.false_eq_true, if_false]
      obtain ⟨iha, ihb⟩ := ih c evs b
      have hf1 : (d :: rest).filter (fun y => DoublePivotSafe.matchClaims y.claimNames names
          && decide (0 < y.replicas.getD 0)) = rest.filter (fun y =>
            DoublePivotSafe.matchClaims y.claimNames names
              && decide (0 < y.replicas.getD 0)) := by
        simp [List.filter_cons, hm]
      have hf2 : (d :: rest).filter (fun y => DoublePivotSafe.matchClaims y.claimNames names)
          = rest.filter (fun y => DoublePivotSafe.matchClaims y.claimNames names) := by
        simp [List.filter_cons, hm]
      exact ⟨by rw [iha, hf1], by rw [ihb, hf2]⟩

/-- Effect of the statefulset quiescence pass. -/
theorem scaleDownStatefulSets_effect (names : List String) (l : List StatefulSet) :
    ∀ c evs b, (DoublePivotSafe.scaleDownStatefulSets names false l c evs b).1
        = { c with statefulsets := c.statefulsets.map (fun x =>
            if ((l.filter (fun y => DoublePivotSafe.stsMatches y names
                  && decide (0 < y.replicas))).map StatefulSet.name).contains x.name
            then { x with replicas := 0 } else x) }
      ∧ (DoublePivotSafe.scaleDownStatefulSets names false l c evs b).2.2
        = b ++ (l.filter (fun y => DoublePivotSafe.stsMatches y names)).map
            (fun y => ⟨y.uid, "StatefulSet", y.name, Prior.replicas y.replicas⟩) := by
  induction l with
  | nil =>
    intro c evs b
    refine ⟨?_, by simp [DoublePivotSafe.scaleDownStatefulSets]⟩
    simp [DoublePivotSafe.scaleDownStatefulSets]
  | cons d rest ih =>
    intro c evs b
    simp only [DoublePivotSafe.scaleDownStatefulSets]
    by_cases hm : DoublePivotSafe.stsMatches d names = true
    · simp only [hm, if_true]
      by_cases hr : 0 < d.replicas
      · simp only [hr, if_pos, Bool.false_eq_true, if_false]
        obtain ⟨iha, ihb⟩ := ih (applyOp c (.scaleStatefulSet d.name 0))
          (evs ++ [.op (.scaleStatefulSet d.name 0)])
          (b ++ [⟨d.uid, "StatefulSet", d.name, .replicas d.replicas⟩])
        constructor
        · rw [iha]
          simp only [applyOp, List.map_map]
          have hfc : (d :: rest).filter (fun y => DoublePivotSafe.stsMatches y names
              && decide (0 < y.replicas))
              = d :: rest.filter (fun y => DoublePivotSafe.stsMatches y names
                  && decide (0 < y.replicas)) := by
            simp [List.filter_cons, hm, hr]
          have hfun : ∀ x ∈ c.statefulsets,
              ((fun x =>
                if ((rest.filter (fun y => DoublePivotSafe.stsMatches y names
                      && decide (0 < y.replicas))).map StatefulSet.name).contains x.name
                then { x with replicas := 0 } else x) ∘
               (fun x => if x.name == d.name then { x with replicas := 0 } else x)) x
              = (fun x =>
                if (((d :: rest).filter (fun y => DoublePivotSafe.stsMatches y names
                      && decide (0 < y.replicas))).map StatefulSet.name).contains x.name
                then { x with replicas := 0 } else x) x := by
            intro x _
            simp only [Function.comp_apply, hfc, List.map_cons, List.contains_cons]
            by_cases hx : (x.name == d.name) = true
            · simp only [hx, if_true, Bool.true_or]
              by_cases hx2 : ((rest.filter (fun y => DoublePivotSafe.stsMatches y names
                  && decide (0 < y.replicas))).map StatefulSet.name).contains x.name = true
              · simp [hx2]
              · simp [hx2]
            · simp only [hx, Bool.false_eq_true, if_false, Bool.false_or]
          rw [List.map_congr_left hfun]
        · rw [ihb]
          simp [List.filter_cons, hm]
      · simp only [hr, Bool.false_eq_true, if_false]
        obtain ⟨iha, ihb⟩ := ih c evs
          (b ++ [⟨d.uid, "StatefulSet", d.name, .replicas d.replicas⟩])
        constructor
        · rw [iha]
          have : (d :: rest).filter (fun y => DoublePivotSafe.stsMatches y names
              && decide (0 < y.replicas)) = rest.filter (fun y =>
                DoublePivotSafe.stsMatches y names && decide (0 < y.replicas)) := by
            simp [List.filter_cons, hm, hr]
          rw [this]
        · rw [ihb]
          simp [List.filter_cons, hm]
    · simp only [hm, Bool.false_eq_true, if_false]
      obtain ⟨iha, ihb⟩ := ih c evs b
      have hf1 : (d :: rest).filter (fun y => DoublePivotSafe.stsMatches y names
          && decide (0 < y.replicas)) = rest.filter (fun y =>
            DoublePivotSafe.stsMatches y names && decide (0 < y.replicas)) := by
        simp [List.filter_cons, hm]
      have hf2 : (d :: rest).filter (fun y => DoublePivotSafe.stsMatches y names)
          = rest.filter (fun y => DoublePivotSafe.stsMatches y names) := by
        simp [List.filter_cons, hm]
      exact ⟨by rw [iha, hf1], by rw [ihb, hf2]⟩

/-- Effect of the daemonset quiescence pass. -/
theorem pauseDaemonSets_effect (names : List String) (l : List DaemonSet) :
    ∀ c evs b, (DoublePivotSafe.pauseDaemonSets names false l c evs b).1
        = { c with daemonsets := c.daemonsets.map (fun x =>
            if ((l.filter (fun y => DoublePivotSafe.matchClaims y.claimNames names)).map
                DaemonSet.name).contains x.name
            then { x with pausedSelector := true } else x) }
      ∧ (DoublePivotSafe.pauseDaemonSets names false l c evs b).2.2
        = b ++ (l.filter (fun y => DoublePivotSafe.matchClaims y.claimNames names)).map
            (fun y => ⟨y.uid, "DaemonSet", y.name, Prior.patched⟩) := by
  induction l with
  | nil =>
    intro c evs b
    refine ⟨?_, by simp [DoublePivotSafe.pauseDaemonSets]⟩
    simp [DoublePivotSafe.pauseDaemonSets]
  | cons d rest ih =>
    intro c evs b
    simp only [DoublePivotSafe.pauseDaemonSets]
    by_cases hm : DoublePivotSafe.matchClaims d.claimNames names = true
    · simp only [hm, if_true, Bool.false_eq_true, if_false]
      obtain ⟨iha, ihb⟩ := ih (applyOp c (.patchDaemonSetSelector d.name true))
        (evs ++ [.op (.patchDaemonSetSelector d.name true)])
        (b ++ [⟨d.uid, "DaemonSet", d.name, .patched⟩])
      constructor
      · rw [iha]
        simp only [applyOp, List.map_map]
        have hfc : (d :: rest).filter (fun y => DoublePivotSafe.matchClaims y.claimNames names)
            = d :: rest.filter (fun y => DoublePivotSafe.matchClaims y.claimNames names) := by
          simp [List.filter_cons, hm]
        have hfun : ∀ x ∈ c.daemonsets,
            ((fun x =>
              if ((rest.filter (fun y => DoublePivotSafe.matchClaims y.claimNames names)).map
                  DaemonSet.name).contains x.name
              then { x with pausedSelector := true } else x) ∘
             (fun x => if x.name == d.name then { x with pausedSelector := true } else x)) x
            = (fun x =>
              if (((d :: rest).filter (fun y =>
                    DoublePivotSafe.matchClaims y.claimNames names)).map
                  DaemonSet.name).contains x.name
              then { x with pausedSelector := true } else x) x := by
          intro x _
          simp only [Function.comp_apply, hfc, List.map_cons, List.contains_cons]
          by_cases hx : (x.name == d.name) = true
          · simp only [hx, if_true, Bool.true_or]
            by_cases hx2 : ((rest.filter (fun y =>
                DoublePivotSafe.matchClaims y.claimNames names)).map
                DaemonSet.name).contains x.name = true
            · simp [hx2]
            · simp [hx2]
          · simp only [hx, Bool.false_eq_true, if_false, Bool.false_or]
        rw [List.map_congr_left hfun]
      · rw [ihb]
        simp [List.filter_cons, hm]
    · simp only [hm, Bool.false_eq_true, if_false]
      obtain ⟨iha, ihb⟩ := ih c evs b
      have hf2 : (d :: rest).filter (fun y => DoublePivotSafe.matchClaims y.claimNames names)
          = rest.filter (fun y => DoublePivotSafe.matchClaims y.claimNames names) := by
        simp [List.filter_cons, hm]
      exact ⟨by rw [iha, hf2], by rw [ihb, hf2]⟩

/-- Effect of the cronjob quiescence pass. -/
theorem suspendCronJobs_effect (names : List String) (l : List CronJob) :
    ∀ c evs b, (DoublePivotSafe.suspendCronJobs names false l c evs b).1
        = { c with cronjobs := c.cronjobs.map (fun x =>
            if ((l.filter (fun y => DoublePivotSafe.matchClaims y.claimNames names)).map
                CronJob.name).contains x.name
            then { x with suspend := true } else x) }
      ∧ (DoublePivotSafe.suspendCronJobs names false l c evs b).2.2
        = b ++ (l.filter (fun y => DoublePivotSafe.matchClaims y.claimNames names)).map
            (fun y => ⟨y.uid, "CronJob", y.name, Prior.suspendedTrue⟩) := by
  induction l with
  | nil =>
    intro c evs b
    refine ⟨?_, by simp [DoublePivotSafe.suspendCronJobs]⟩
    simp [DoublePivotSafe.suspendCronJobs]
  | cons d rest ih =>
    intro c evs b
    simp only [DoublePivotSafe.suspendCronJobs]
    by_cases hm : DoublePivotSafe.matchClaims d.claimNames names = true
    · simp only [hm, if_true, Bool.false_eq_true, if_false]
      obtain ⟨iha, ihb⟩ := ih (applyOp c (.patchCronJobSuspend d.name true))
        (evs ++ [.op (.patchCronJobSuspend d.name true)])
        (b ++ [⟨d.uid, "CronJob", d.name, .suspendedTrue⟩])
      constructor
      · rw [iha]
        simp only [applyOp, List.map_map]
        have hfc : (d :: rest).filter (fun y => DoublePivotSafe.matchClaims y.claimNames names)
            = d :: rest.filter (fun y => DoublePivotSafe.matchClaims y.claimNames names) := by
          simp [List.filter_cons, hm]
        have hfun : ∀ x ∈ c.cronjobs,
            ((fun x =>
              if ((rest.filter (fun y => DoublePivotSafe.matchClaims y.claimNames names)).map
                  CronJob.name).contains x.name
              then { x with suspend := true } else x) ∘
             (fun x => if x.name == d.name then { x with suspend := true } else x)) x
            = (fun x =>
              if (((d :: rest).filter (fun y =>
                    DoublePivotSafe.matchClaims y.claimNames names)).map
                  CronJob.name).contains x.name
              then { x with suspend := true } else x) x := by
          intro x _
          simp only [Function.comp_apply, hfc, List.map_cons, List.contains_cons]
          by_cases hx : (x.name == d.name) = true
          · simp only [hx, if_true, Bool.true_or]
            by_cases hx2 : ((rest.filter (fun y =>
                DoublePivotSafe.matchClaims y.claimNames names)).map
                CronJob.name).contains x.name = true
            · simp [hx2]
            · simp [hx2]
          · simp only [hx, Bool.false_eq_true, if_false, Bool.false_or]
        rw [List.map_congr_left hfun]
      · rw [ihb]
        simp [List.filter_cons, hm]
    · simp only [hm, Bool.false_eq_true, if_false]
      obtain ⟨iha, ihb⟩ := ih c evs b
      have hf2 : (d :: rest).filter (fun y => DoublePivotSafe.matchClaims y.claimNames names)
          = rest.filter (fun y => DoublePivotSafe.matchClaims y.claimNames names) := by
        simp [List.filter_cons, hm]
      exact ⟨by rw [iha, hf2], by rw [ihb, hf2]⟩

/-- Effect of the job quiescence pass: matching jobs are deleted outright. -/
theorem deleteJobs_effect (names : List String) (l : List JobW) :
    ∀ c evs b, (DoublePivotSafe.deleteJobs names false l c evs b).1
        = { c with jobs := c.jobs.filter (fun x =>
            !(((l.filter (fun y => DoublePivotSafe.matchClaims y.claimNames names)).map
                JobW.name).contains x.name)) }
      ∧ (DoublePivotSafe.deleteJobs names false l c evs b).2.2
        = b ++ (l.filter (fun y => DoublePivotSafe.matchClaims y.claimNames names)).map
            (fun y => ⟨y.uid, "Job", y.name, Prior.deleted⟩) := by
  induction l with
  | nil =>
    intro c evs b
    refine ⟨?_, by simp [DoublePivotSafe.deleteJobs]⟩
    simp [DoublePivotSafe.deleteJobs]
  | cons d rest ih =>
    intro c evs b
    simp only [DoublePivotSafe.deleteJobs]
    by_cases hm : DoublePivotSafe.matchClaims d.claimNames names = true
    · simp only [hm, if_true, Bool.false_eq_true, if_false]
      obtain ⟨iha, ihb⟩ := ih (applyOp c (.deleteJob d.name))
        (evs ++ [.op (.deleteJob d.name)]) (b ++ [⟨d.uid, "Job", d.name, .deleted⟩])
      constructor
      · rw [iha]
        simp only [applyOp, List.filter_filter]
        have hfc : (d :: rest).filter (fun y => DoublePivotSafe.matchClaims y.claimNames names)
            = d :: rest.filter (fun y => DoublePivotSafe.matchClaims y.claimNames names) := by
          simp [List.filter_cons, hm]
        have hfun : ∀ x ∈ c.jobs,
            (!(((rest.filter (fun y => DoublePivotSafe.matchClaims y.claimNames names)).map
                JobW.name).contains x.name) && !(x.name == d.name))
            = !((((d :: rest).filter (fun y =>
                  DoublePivotSafe.matchClaims y.claimNames names)).map
                JobW.name).contains x.name) := by
          intro x _
          simp only [hfc, List.map_cons, List.contains_cons, Bool.not_or]
          rw [Bool.and_comm]
        rw [List.filter_congr hfun]
      · rw [ihb]
        simp [List.filter_cons, hm]
    · simp only [hm, Bool.false_eq_true, if_false]
      obtain ⟨iha, ihb⟩ := ih c evs b
      have hf2 : (d :: rest).filter (fun y => DoublePivotSafe.matchClaims y.claimNames names)
          = rest.filter (fun y => DoublePivotSafe.matchClaims y.claimNames names) := by
        simp [List.filter_cons, hm]
      exact ⟨by rw [iha, hf2], by rw [ihb, hf2]⟩

/-- Rewriting form of scaleDownDeployments_effect (cluster). -/
theorem sdDep_fst (names : List String) (l : List Deployment) (c : Cluster)
    (evs : List Ev) (b : Backup) :
    (DoublePivotSafe.scaleDownDeployments names false l c evs b).1
      = { c with deployments := c.deployments.map (fun x =>
          if ((l.filter (fun y => DoublePivotSafe.matchClaims y.claimNames names
                && decide (0 < y.replicas))).map Deployment.name).contains x.name
          then { x with replicas := 0 } else x) } :=
  (scaleDownDeployments_effect names l c evs b).1

/-- Rewriting form of scaleDownDeployments_effect (backup). -/
theorem sdDep_bak (names : List String) (l : List Deployment) (c : Cluster)
    (evs : List Ev) (b : Backup) :
    (DoublePivotSafe.scaleDownDeployments names false l c evs b).2.2
      = b ++ (l.filter (fun y => DoublePivotSafe.matchClaims y.claimNames names)).map
          (fun y => ⟨y.uid, "Deployment", y.name, Prior.replicas y.replicas⟩) :=
  (scaleDownDeployments_effect names l c evs b).2

/-- Rewriting form of scaleDownReplicaSets_effect (cluster). -/
theorem sdRs_fst (names : List String) (l : List ReplicaSet) (c : Cluster)
    (evs : List Ev) (b : Backup) :
    (DoublePivotSafe.scaleDownReplicaSets names false l c evs b).1
      = { c with replicasets := c.replicasets.map (fun x =>
          if ((l.filter (fun y => DoublePivotSafe.matchClaims y.claimNames names
                && decide (0 < y.replicas.getD 0))).map ReplicaSet.name).contains x.name
          then { x with replicas := some 0 } else x) } :=
  (scaleDownReplicaSets_effect names l c evs b).1

/-- Rewriting form of scaleDownReplicaSets_effect (backup). -/
theorem sdRs_bak (names : List String) (l : List ReplicaSet) (c : Cluster)
    (evs : List Ev) (b : Backup) :
    (DoublePivotSafe.scaleDownReplicaSets names false l c evs b).2.2
      = b ++ (l.filter (fun y => DoublePivotSafe.matchClaims y.claimNames names)).map
          (fun y => ⟨y.uid, "ReplicaSet", y.name, Prior.replicas (y.replicas.getD 0)⟩) :=
  (scaleDownReplicaSets_effect names l c evs b).2

/-- Rewriting form of scaleDownStatefulSets_effect (cluster). -/
theorem sdSts_fst (names : List String) (l : List StatefulSet) (c : Cluster)
    (evs : List Ev) (b : Backup) :
    (DoublePivotSafe.scaleDownStatefulSets names false l c evs b).1
      = { c with statefulsets := c.statefulsets.map (fun x =>
          if ((l.filter (fun y => DoublePivotSafe.stsMatches y names
                && decide (0 < y.replicas))).map StatefulSet.name).contains x.name
          then { x with replicas := 0 } else x) } :=
  (scaleDownStatefulSets_effect names l c evs b).1

/-- Rewriting form of scaleDownStatefulSets_effect (backup). -/
theorem sdSts_bak (names : List String) (l : List StatefulSet) (c : Cluster)
    (evs : List Ev) (b : Backup) :
    (DoublePivotSafe.scaleDownStatefulSets names false l c evs b).2.2
      = b ++ (l.filter (fun y => DoublePivotSafe.stsMatches y names)).map
          (fun y => ⟨y.uid, "StatefulSet", y.name, Prior.replicas y.replicas⟩) :=
  (scaleDownStatefulSets_effect names l c evs b).2

/-- Rewriting form of pauseDaemonSets_effect (cluster). -/
theorem sdDs_fst (names : List String) (l : List DaemonSet) (c : Cluster)
    (evs : List Ev) (b : Backup) :
    (DoublePivotSafe.pauseDaemonSets names false l c evs b).1
      = { c with daemonsets := c.daemonsets.map (fun x =>
          if ((l.filter (fun y => DoublePivotSafe.matchClaims y.claimNames names)).map
              DaemonSet.name).contains x.name
          then { x with pausedSelector := true } else x) } :=
  (pauseDaemonSets_effect names l c evs b).1

/-- Rewriting form of pauseDaemonSets_effect (backup). -/
theorem sdDs_bak (names : List String) (l : List DaemonSet) (c : Cluster)
    (evs : List Ev) (b : Backup) :
    (DoublePivotSafe.pauseDaemonSets names false l c evs b).2.2
      = b ++ (l.filter (fun y => DoublePivotSafe.matchClaims y.claimNames names)).map
          (fun y => ⟨y.uid, "DaemonSet", y.name, Prior.patched⟩) :=
  (pauseDaemonSets_effect names l c evs b).2

/-- Rewriting form of suspendCronJobs_effect (cluster). -/
theorem sdCj_fst (names : List String) (l : List CronJob) (c : Cluster)
    (evs : List Ev) (b : Backup) :
    (DoublePivotSafe.suspendCronJobs names false l c evs b).1
      = { c with cronjobs := c.cronjobs.map (fun x =>
          if ((l.filter (fun y => DoublePivotSafe.matchClaims y.claimNames names)).map
              CronJob.name).contains x.name
          then { x with suspend := true } else x) } :=
  (suspendCronJobs_effect names l c evs b).1

/-- Rewriting form of suspendCronJobs_effect (backup). -/
theorem sdCj_bak (names : List String) (l : List CronJob) (c : Cluster)
    (evs : List Ev) (b : Backup) :
    (DoublePivotSafe.suspendCronJobs names false l c evs b).2.2
      = b ++ (l.filter (fun y => DoublePivotSafe.matchClaims y.claimNames names)).map
          (fun y => ⟨y.uid, "CronJob", y.name, Prior.suspendedTrue⟩) :=
  (suspendCronJobs_effect names l c evs b).2

/-- Rewriting form of deleteJobs_effect (cluster). -/
theorem sdJob_fst (names : List String) (l : List JobW) (c : Cluster)
    (evs : List Ev) (b : Backup) :
    (DoublePivotSafe.deleteJobs names false l c evs b).1
      = { c with jobs := c.jobs.filter (fun x =>
          !(((l.filter (fun y => DoublePivotSafe.matchClaims y.claimNames names)).map
              JobW.name).contains x.name)) } :=
  (deleteJobs_effect names l c evs b).1

/-- Rewriting form of deleteJobs_effect (backup). -/
theorem sdJob_bak (names : List String) (l : List JobW) (c : Cluster)
    (evs : List Ev) (b : Backup) :
    (DoublePivotSafe.deleteJobs names false l c evs b).2.2
      = b ++ (l.filter (fun y => DoublePivotSafe.matchClaims y.claimNames names)).map
          (fun y => ⟨y.uid, "Job", y.name, Prior.deleted⟩) :=
  (deleteJobs_effect names l c evs b).2

/-- Effect of a full non-dry quiescence scan on the cluster and the recorded
backup. -/
theorem detect_effect (c : Cluster) (names : List String) :
    (DoublePivotSafe.detect_and_scale_down c names false).1
      = { c with
          deployments := c.deployments.map (fun x =>
            if ((c.deployments.filter (fun y => DoublePivotSafe.matchClaims y.claimNames names
                  && decide (0 < y.replicas))).map Deployment.name).contains x.name
            then { x with replicas := 0 } else x),
          replicasets := c.replicasets.map (fun x =>
            if ((c.replicasets.filter (fun y => DoublePivotSafe.matchClaims y.claimNames names
                  && decide (0 < y.replicas.getD 0))).map ReplicaSet.name).contains x.name
            then { x with replicas := some 0 } else x),
          statefulsets := c.statefulsets.map (fun x =>
            if ((c.statefulsets.filter (fun y => DoublePivotSafe.stsMatches y names
                  && decide (0 < y.replicas))).map StatefulSet.name).contains x.name
            then { x with replicas := 0 } else x),
          daemonsets := c.daemonsets.map (fun x =>
            if ((c.daemonsets.filter (fun y =>
                  DoublePivotSafe.matchClaims y.claimNames names)).map
                DaemonSet.name).contains x.name
            then { x with pausedSelector := true } else x),
          cronjobs := c.cronjobs.map (fun x =>
            if ((c.cronjobs.filter (fun y =>
                  DoublePivotSafe.matchClaims y.claimNames names)).map
                CronJob.name).contains x.name
            then { x with suspend := true } else x),
          jobs := c.jobs.filter (fun x =>
            !(((c.jobs.filter (fun y => DoublePivotSafe.matchClaims y.claimNames names)).map
                JobW.name).contains x.name)) }
    ∧ (DoublePivotSafe.detect_and_scale_down c names false).2.2
      = (c.deployments.filter (fun y => DoublePivotSafe.matchClaims y.claimNames names)).map
          (fun y => ⟨y.uid, "Deployment", y.name, Prior.replicas y.replicas⟩)
        ++ (c.replicasets.filter (fun y => DoublePivotSafe.matchClaims y.claimNames names)).map
          (fun y => ⟨y.uid, "ReplicaSet", y.name, Prior.replicas (y.replicas.getD 0)⟩)
        ++ (c.statefulsets.filter (fun y => DoublePivotSafe.stsMatches y names)).map
          (fun y => ⟨y.uid, "StatefulSet", y.name, Prior.replicas y.replicas⟩)
        ++ (c.daemonsets.filter (fun y => DoublePivotSafe.matchClaims y.claimNames names)).map
          (fun y => ⟨y.uid, "DaemonSet", y.name, Prior.patched⟩)
        ++ (c.cronjobs.filter (fun y => DoublePivotSafe.matchClaims y.claimNames names)).map
          (fun y => ⟨y.uid, "CronJob", y.name, Prior.suspendedTrue⟩)
        ++ (c.jobs.filter (fun y => DoublePivotSafe.matchClaims y.claimNames names)).map
          (fun y => ⟨y.uid, "Job", y.name, Prior.deleted⟩) := by
  constructor <;>
    simp [DoublePivotSafe.detect_and_scale_down, sdDep_fst, sdDep_bak, sdRs_fst, sdRs_bak,
      sdSts_fst, sdSts_bak, sdDs_fst, sdDs_bak, sdCj_fst, sdCj_bak, sdJob_fst, sdJob_bak]

section RestoreEffect

/-- find? by name commutes with a name-preserving map over deployments. -/
theorem find_dep_map (ds : List Deployment) (f : Deployment → Deployment) (nm : String)
    (hf : ∀ x, (f x).name = x.name) :
    (ds.map f).find? (fun x => x.name == nm) = (ds.find? (fun x => x.name == nm)).map f := by
  induction ds with
  | nil => rfl
  | cons d rest ih =>
    by_cases h : (d.name == nm) = true
    · have h2 : ((f d).name == nm) = true := by rw [hf]; exact h
      rw [List.map_cons,
        show List.find? (fun x : Deployment => x.name == nm) (f d :: List.map f rest) = some (f d) from
          List.find?_cons_of_pos _ h2,
        show List.find? (fun x : Deployment => x.name == nm) (d :: rest) = some d from
          List.find?_cons_of_pos _ h]
      rfl
    · have h2 : ¬((f d).name == nm) = true := by rw [hf]; exact h
      rw [List.map_cons,
        show List.find? (fun x : Deployment => x.name == nm) (f d :: List.map f rest)
            = List.find? (fun x : Deployment => x.name == nm) (List.map f rest) from
          List.find?_cons_of_neg _ h2,
        show List.find? (fun x : Deployment => x.name == nm) (d :: rest) = List.find? (fun x : Deployment => x.name == nm) rest from
          List.find?_cons_of_neg _ h]
      exact ih

/-- find? by name commutes with a name-preserving map over replicasets. -/
theorem find_rs_map (ds : List ReplicaSet) (f : ReplicaSet → ReplicaSet) (nm : String)
    (hf : ∀ x, (f x).name = x.name) :
    (ds.map f).find? (fun x => x.name == nm) = (ds.find? (fun x => x.name == nm)).map f := by
  induction ds with
  | nil => rfl
  | cons d rest ih =>
    by_cases h : (d.name == nm) = true
    · have h2 : ((f d).name == nm) = true := by rw [hf]; exact h
      rw [List.map_cons,
        show List.find? (fun x : ReplicaSet => x.name == nm) (f d :: List.map f rest) = some (f d) from
          List.find?_cons_of_pos _ h2,
        show List.find? (fun x : ReplicaSet => x.name == nm) (d :: rest) = some d from
          List.find?_cons_of_pos _ h]
      rfl
    · have h2 : ¬((f d).name == nm) = true := by rw [hf]; exact h
      rw [List.map_cons,
        show List.find? (fun x : ReplicaSet => x.name == nm) (f d :: List.map f rest)
            = List.find? (fun x : ReplicaSet => x.name == nm) (List.map f rest) from
          List.find?_cons_of_neg _ h2,
        show List.find? (fun x : ReplicaSet => x.name == nm) (d :: rest) = List.find? (fun x : ReplicaSet => x.name == nm) rest from
          List.find?_cons_of_neg _ h]
      exact ih

/-- find? by name commutes with a name-preserving map over statefulsets. -/
theorem find_sts_map (ds : List StatefulSet) (f : StatefulSet → StatefulSet) (nm : String)
    (hf : ∀ x, (f x).name = x.name) :
    (ds.map f).find? (fun x => x.name == nm) = (ds.find? (fun x => x.name == nm)).map f := by
  induction ds with
  | nil => rfl
  | cons d rest ih =>
    by_cases h : (d.name == nm) = true
    · have h2 : ((f d).name == nm) = true := by rw [hf]; exact h
      rw [List.map_cons,
        show List.find? (fun x : StatefulSet => x.name == nm) (f d :: List.map f rest) = some (f d) from
          List.find?_cons_of_pos _ h2,
        show List.find? (fun x : StatefulSet => x.name == nm) (d :: rest) = some d from
          List.find?_cons_of_pos _ h]
      rfl
    · have h2 : ¬((f d).name == nm) = true := by rw [hf]; exact h
      rw [List.map_cons,
        show List.find? (fun x : StatefulSet => x.name == nm) (f d :: List.map f rest)
            = List.find? (fun x : StatefulSet => x.name == nm) (List.map f rest) from
          List.find?_cons_of_neg _ h2,
        show List.find? (fun x : StatefulSet => x.name == nm) (d :: rest) = List.find? (fun x : StatefulSet => x.name == nm) rest from
          List.find?_cons_of_neg _ h]
      exact ih

/-- A restore step for an entry that is not a Deployment entry of the given
name leaves the deployment of that name unchanged (as seen by find?). -/
theorem restore_dep_find_none (b : Backup) :
    ∀ c tr (nm : String),
      b.filter (fun e => e.kind == "Deployment" && e.name == nm) = [] →
      ((DoublePivotSafe.restoreEntries false b c tr).1.deployments.find?
          (fun x => x.name == nm))
        = c.deployments.find? (fun x => x.name == nm) := by
  induction b with
  | nil => intro c tr nm _; rfl
  | cons e rest ih =>
    intro c tr nm hfil
    rw [List.filter_cons] at hfil
    by_cases hpred : (e.kind == "Deployment" && e.name == nm) = true
    · simp [hpred] at hfil
    · simp only [hpred, Bool.false_eq_true, if_false] at hfil
      simp only [DoublePivotSafe.restoreEntries]
      have hname : (e.kind == "Deployment") = true → ¬(e.name = nm) := by
        intro hk hn
        apply hpred
        simp [hk, hn]
      have key : ∀ (s : Cluster × List Op),
          s.1.deployments.find? (fun x => x.name == nm)
            = c.deployments.find? (fun x => x.name == nm) →
          ((DoublePivotSafe.restoreEntries false rest s.1 s.2).1.deployments.find?
              (fun x => x.name == nm))
            = c.deployments.find? (fun x => x.name == nm) := by
        intro s hs
        rw [ih s.1 s.2 nm hfil, hs]
      apply key
      repeat' split
      all_goals try rfl
      all_goals simp only [applyOp]
      · -- a Deployment entry with another name
        have hk : (e.kind == "Deployment") = true := by assumption
        rw [find_dep_map _ _ _ (by intro x; split <;> rfl)]
        cases hfind : c.deployments.find? (fun x => x.name == nm) with
        | none => rfl
        | some y =>
          have hy : (y.name == nm) = true :=
            (List.find?_some :
              List.find? (fun x : Deployment => x.name == nm) c.deployments = some y
                → (y.name == nm) = true) hfind
          have hyeq : y.name = nm := by simpa using hy
          have hne2 : ¬(e.name = nm) := hname hk
          have hne : (y.name == e.name) = false := by
            rw [beq_eq_false_iff_ne, hyeq]
            exact fun h => hne2 h.symm
          simp only [Option.map_some', hne, Bool.false_eq_true, if_false]

/-- Restoring a backup whose only Deployment entry for a name carries replica
count n patches that deployment back to exactly n. -/
theorem restore_dep_find (b : Backup) :
    ∀ c tr (nm u : String) (n : Int),
      b.filter (fun e => e.kind == "Deployment" && e.name == nm)
        = [⟨u, "Deployment", nm, Prior.replicas n⟩] →
      ((DoublePivotSafe.restoreEntries false b c tr).1.deployments.find?
          (fun x => x.name == nm))
        = (c.deployments.find? (fun x => x.name == nm)).map
            (fun y => { y with replicas := n }) := by
  induction b with
  | nil => intro c tr nm u n h; simp at h
  | cons e rest ih =>
    intro c tr nm u n hfil
    rw [List.filter_cons] at hfil
    by_cases hpred : (e.kind == "Deployment" && e.name == nm) = true
    · rw [if_pos hpred] at hfil
      simp only [List.cons.injEq] at hfil
      obtain ⟨he, hrest⟩ := hfil
      subst he
      simp only [DoublePivotSafe.restoreEntries]
      rw [restore_dep_find_none rest _ _ nm hrest]
      simp only [beq_self_eq_true, if_true, Bool.false_eq_true, if_false, applyOp]
      rw [find_dep_map _ _ _ (by intro x; split <;> rfl)]
      cases hfind : c.deployments.find? (fun x => x.name == nm) with
      | none => rfl
      | some y =>
        have hy : (y.name == nm) = true :=
          (List.find?_some :
            List.find? (fun x : Deployment => x.name == nm) c.deployments = some y
              → (y.name == nm) = true) hfind
        have hyeq : y.name = nm := by simpa using hy
        simp [hyeq]
    · rw [if_neg hpred] at hfil
      simp only [DoublePivotSafe.restoreEntries]
      have hname : (e.kind == "Deployment") = true → ¬(e.name = nm) := by
        intro hk hn
        apply hpred
        simp [hk, hn]
      have key : ∀ (s : Cluster × List Op),
          s.1.deployments.find? (fun x => x.name == nm)
            = c.deployments.find? (fun x => x.name == nm) →
          ((DoublePivotSafe.restoreEntries false rest s.1 s.2).1.deployments.find?
              (fun x => x.name == nm))
            = (c.deployments.find? (fun x => x.name == nm)).map
                (fun y => { y with replicas := n }) := by
        intro s hs
        rw [ih s.1 s.2 nm u n hfil, hs]
      apply key
      repeat' split
      all_goals try rfl
      all_goals simp only [applyOp]
      · have hk : (e.kind == "Deployment") = true := by assumption
        rw [find_dep_map _ _ _ (by intro x; split <;> rfl)]
        cases hfind : c.deployments.find? (fun x => x.name == nm) with
        | none => rfl
        | some y =>
          have hy : (y.name == nm) = true :=
            (List.find?_some :
              List.find? (fun x : Deployment => x.name == nm) c.deployments = some y
                → (y.name == nm) = true) hfind
          have hyeq : y.name = nm := by simpa using hy
          have hne2 : ¬(e.name = nm) := hname hk
          have hne : (y.name == e.name) = false := by
            rw [beq_eq_false_iff_ne, hyeq]
            exact fun h => hne2 h.symm
          simp only [Option.map_some', hne, Bool.false_eq_true, if_false]

/-- Restoring entries with no ReplicaSet entry for a name leaves that name's
replicaset lookup unchanged. -/
theorem restore_rs_find_none (b : Backup) :
    ∀ c tr (nm : String),
      b.filter (fun e => e.kind == "ReplicaSet" && e.name == nm) = [] →
      ((DoublePivotSafe.restoreEntries false b c tr).1.replicasets.find?
          (fun x => x.name == nm))
        = c.replicasets.find? (fun x => x.name == nm) := by
  induction b with
  | nil => intro c tr nm _; rfl
  | cons e rest ih =>
    intro c tr nm hfil
    rw [List.filter_cons] at hfil
    by_cases hpred : (e.kind == "ReplicaSet" && e.name == nm) = true
    · simp [hpred] at hfil
    · simp only [hpred, Bool.false_eq_true, if_false] at hfil
      simp only [DoublePivotSafe.restoreEntries]
      have hname : (e.kind == "ReplicaSet") = true → ¬(e.name = nm) := by
        intro hk hn
        apply hpred
        simp [hk, hn]
      have key : ∀ (s : Cluster × List Op),
          s.1.replicasets.find? (fun x => x.name == nm)
            = c.replicasets.find? (fun x => x.name == nm) →
          ((DoublePivotSafe.restoreEntries false rest s.1 s.2).1.replicasets.find?
              (fun x => x.name == nm))
            = c.replicasets.find? (fun x => x.name == nm) := by
        intro s hs
        rw [ih s.1 s.2 nm hfil, hs]
      apply key
      repeat' split
      all_goals try rfl
      all_goals simp only [applyOp]
      · have hk : (e.kind == "ReplicaSet") = true := by assumption
        rw [find_rs_map _ _ _ (by intro x; split <;> rfl)]
        cases hfind : c.replicasets.find? (fun x => x.name == nm) with
        | none => rfl
        | some y =>
          have hy : (y.name == nm) = true :=
            (List.find?_some :
              List.find? (fun x : ReplicaSet => x.name == nm) c.replicasets = some y
                → (y.name == nm) = true) hfind
          have hyeq : y.name = nm := by simpa using hy
          have hne2 : ¬(e.name = nm) := hname hk
          have hne : (y.name == e.name) = false := by
            rw [beq_eq_false_iff_ne, hyeq]
            exact fun h => hne2 h.symm
          simp only [Option.map_some', hne, Bool.false_eq_true, if_false]

/-- Restoring a backup whose only ReplicaSet entry for a name carries replica
count n patches that replicaset back to exactly (some n). -/
theorem restore_rs_find (b : Backup) :
    ∀ c tr (nm u : String) (n : Int),
      b.filter (fun e => e.kind == "ReplicaSet" && e.name == nm)
        = [⟨u, "ReplicaSet", nm, Prior.replicas n⟩] →
      ((DoublePivotSafe.restoreEntries false b c tr).1.replicasets.find?
          (fun x => x.name == nm))
        = (c.replicasets.find? (fun x => x.name == nm)).map
            (fun y => { y with replicas := some n }) := by
  induction b with
  | nil => intro c tr nm u n h; simp at h
  | cons e rest ih =>
    intro c tr nm u n hfil
    rw [List.filter_cons] at hfil
    by_cases hpred : (e.kind == "ReplicaSet" && e.name == nm) = true
    · rw [if_pos hpred] at hfil
      simp only [List.cons.injEq] at hfil
      obtain ⟨he, hrest⟩ := hfil
      subst he
      simp only [DoublePivotSafe.restoreEntries]
      rw [restore_rs_find_none rest _ _ nm hrest]
      have hk0 : (("ReplicaSet" : String) == "Deployment") = false := by decide
      simp only [hk0, beq_self_eq_true, if_true, Bool.false_eq_true, if_false, applyOp]
      rw [find_rs_map _ _ _ (by intro x; split <;> rfl)]
      cases hfind : c.replicasets.find? (fun x => x.name == nm) with
      | none => rfl
      | some y =>
        have hy : (y.name == nm) = true :=
          (List.find?_some :
            List.find? (fun x : ReplicaSet => x.name == nm) c.replicasets = some y
              → (y.name == nm) = true) hfind
        have hyeq : y.name = nm := by simpa using hy
        simp [hyeq]
    · rw [if_neg hpred] at hfil
      simp only [DoublePivotSafe.restoreEntries]
      have hname : (e.kind == "ReplicaSet") = true → ¬(e.name = nm) := by
        intro hk hn
        apply hpred
        simp [hk, hn]
      have key : ∀ (s : Cluster × List Op),
          s.1.replicasets.find? (fun x => x.name == nm)
            = c.replicasets.find? (fun x => x.name == nm) →
          ((DoublePivotSafe.restoreEntries false rest s.1 s.2).1.replicasets.find?
              (fun x => x.name == nm))
            = (c.replicasets.find? (fun x => x.name == nm)).map
                (fun y => { y with replicas := some n }) := by
        intro s hs
        rw [ih s.1 s.2 nm u n hfil, hs]
      apply key
      repeat' split
      all_goals try rfl
      all_goals simp only [applyOp]
      · have hk : (e.kind == "ReplicaSet") = true := by assumption
        rw [find_rs_map _ _ _ (by intro x; split <;> rfl)]
        cases hfind : c.replicasets.find? (fun x => x.name == nm) with
        | none => rfl
        | some y =>
          have hy : (y.name == nm) = true :=
            (List.find?_some :
              List.find? (fun x : ReplicaSet => x.name == nm) c.replicasets = some y
                → (y.name == nm) = true) hfind
          have hyeq : y.name = nm := by simpa using hy
          have hne2 : ¬(e.name = nm) := hname hk
          have hne : (y.name == e.name) = false := by
            rw [beq_eq_false_iff_ne, hyeq]
            exact fun h => hne2 h.symm
          simp only [Option.map_some', hne, Bool.false_eq_true, if_false]

/-- Restoring entries with no StatefulSet entry for a name leaves that name's
statefulset lookup unchanged. -/
theorem restore_sts_find_none (b : Backup) :
    ∀ c tr (nm : String),
      b.filter (fun e => e.kind == "StatefulSet" && e.name == nm) = [] →
      ((DoublePivotSafe.restoreEntries false b c tr).1.statefulsets.find?
          (fun x => x.name == nm))
        = c.statefulsets.find? (fun x => x.name == nm) := by
  induction b with
  | nil => intro c tr nm _; rfl
  | cons e rest ih =>
    intro c tr nm hfil
    rw [List.filter_cons] at hfil
    by_cases hpred : (e.kind == "StatefulSet" && e.name == nm) = true
    · simp [hpred] at hfil
    · simp only [hpred, Bool.false_eq_true, if_false] at hfil
      simp only [DoublePivotSafe.restoreEntries]
      have hname : (e.kind == "StatefulSet") = true → ¬(e.name = nm) := by
        intro hk hn
        apply hpred
        simp [hk, hn]
      have key : ∀ (s : Cluster × List Op),
          s.1.statefulsets.find? (fun x => x.name == nm)
            = c.statefulsets.find? (fun x => x.name == nm) →
          ((DoublePivotSafe.restoreEntries false rest s.1 s.2).1.statefulsets.find?
              (fun x => x.name == nm))
            = c.statefulsets.find? (fun x => x.name == nm) := by
        intro s hs
        rw [ih s.1 s.2 nm hfil, hs]
      apply key
      repeat' split
      all_goals try rfl
      all_goals simp only [applyOp]
      · have hk : (e.kind == "StatefulSet") = true := by assumption
        rw [find_sts_map _ _ _ (by intro x; split <;> rfl)]
        cases hfind : c.statefulsets.find? (fun x => x.name == nm) with
        | none => rfl
        | some y =>
          have hy : (y.name == nm) = true :=
            (List.find?_some :
              List.find? (fun x : StatefulSet => x.name == nm) c.statefulsets = some y
                → (y.name == nm) = true) hfind
          have hyeq : y.name = nm := by simpa using hy
          have hne2 : ¬(e.name = nm) := hname hk
          have hne : (y.name == e.name) = false := by
            rw [beq_eq_false_iff_ne, hyeq]
            exact fun h => hne2 h.symm
          simp only [Option.map_some', hne, Bool.false_eq_true, if_false]

/-- Restoring a backup whose only StatefulSet entry for a name carries replica
count n patches that statefulset back to exactly n. -/
theorem restore_sts_find (b : Backup) :
    ∀ c tr (nm u : String) (n : Int),
      b.filter (fun e => e.kind == "StatefulSet" && e.name == nm)
        = [⟨u, "StatefulSet", nm, Prior.replicas n⟩] →
      ((DoublePivotSafe.restoreEntries false b c tr).1.statefulsets.find?
          (fun x => x.name == nm))
        = (c.statefulsets.find? (fun x => x.name == nm)).map
            (fun y => { y with replicas := n }) := by
  induction b with
  | nil => intro c tr nm u n h; simp at h
  | cons e rest ih =>
    intro c tr nm u n hfil
    rw [List.filter_cons] at hfil
    by_cases hpred : (e.kind == "StatefulSet" && e.name == nm) = true
    · rw [if_pos hpred] at hfil
      simp only [List.cons.injEq] at hfil
      obtain ⟨he, hrest⟩ := hfil
      subst he
      simp only [DoublePivotSafe.restoreEntries]
      rw [restore_sts_find_none rest _ _ nm hrest]
      have hk0 : (("StatefulSet" : String) == "Deployment") = false := by decide
      have hk1 : (("StatefulSet" : String) == "ReplicaSet") = false := by decide
      simp only [hk0, hk1, beq_self_eq_true, if_true, Bool.false_eq_true, if_false, applyOp]
      rw [find_sts_map _ _ _ (by intro x; split <;> rfl)]
      cases hfind : c.statefulsets.find? (fun x => x.name == nm) with
      | none => rfl
      | some y =>
        have hy : (y.name == nm) = true :=
          (List.find?_some :
            List.find? (fun x : StatefulSet => x.name == nm) c.statefulsets = some y
              → (y.name == nm) = true) hfind
        have hyeq : y.name = nm := by simpa using hy
        simp [hyeq]
    · rw [if_neg hpred] at hfil
      simp only [DoublePivotSafe.restoreEntries]
      have hname : (e.kind == "StatefulSet") = true → ¬(e.name = nm) := by
        intro hk hn
        apply hpred
        simp [hk, hn]
      have key : ∀ (s : Cluster × List Op),
          s.1.statefulsets.find? (fun x => x.name == nm)
            = c.statefulsets.find? (fun x => x.name == nm) →
          ((DoublePivotSafe.restoreEntries false rest s.1 s.2).1.statefulsets.find?
              (fun x => x.name == nm))
            = (c.statefulsets.find? (fun x => x.name == nm)).map
                (fun y => { y with replicas := n }) := by
        intro s hs
        rw [ih s.1 s.2 nm u n hfil, hs]
      apply key
      repeat' split
      all_goals try rfl
      all_goals simp only [applyOp]
      · have hk : (e.kind == "StatefulSet") = true := by assumption
        rw [find_sts_map _ _ _ (by intro x; split <;> rfl)]
        cases hfind : c.statefulsets.find? (fun x => x.name == nm) with
        | none => rfl
        | some y =>
          have hy : (y.name == nm) = true :=
            (List.find?_some :
              List.find? (fun x : StatefulSet => x.name == nm) c.statefulsets = some y
                → (y.name == nm) = true) hfind
          have hyeq : y.name = nm := by simpa using hy
          have hne2 : ¬(e.name = nm) := hname hk
          have hne : (y.name == e.name) = false := by
            rw [beq_eq_false_iff_ne, hyeq]
            exact fun h => hne2 h.symm
          simp only [Option.map_some', hne, Bool.false_eq_true, if_false]

/-- The restore loop never touches Jobs: they are only reported. -/
theorem restoreEntries_jobs (b : Backup) :
    ∀ (dry : Bool) c tr, (DoublePivotSafe.restoreEntries dry b c tr).1.jobs = c.jobs := by
  induction b with
  | nil => intro dry c tr; rfl
  | cons e rest ih =>
    intro dry c tr
    simp only [DoublePivotSafe.restoreEntries]
    have key : ∀ (s : Cluster × List Op), s.1.jobs = c.jobs →
        (DoublePivotSafe.restoreEntries dry rest s.1 s.2).1.jobs = c.jobs := by
      intro s hs
      rw [ih dry s.1 s.2, hs]
    apply key
    repeat' split
    all_goals rfl

end RestoreEffect

section QuiesceRestoreHelpers

/-- Filtering a mapped list filters by the composed predicate. -/
theorem filter_map_eq {α β : Type} (f : α → β) (p : β → Bool) :
    ∀ l : List α, (l.map f).filter p = (l.filter (fun x => p (f x))).map f := by
  intro l
  induction l with
  | nil => rfl
  | cons a rest ih =>
    simp only [List.map_cons, List.filter_cons]
    by_cases h : p (f a) = true
    · rw [if_pos h, if_pos h, List.map_cons, ih]
    · rw [if_neg h, if_neg h, ih]

/-- Two filters over the same list commute. -/
theorem filter_swap {α : Type} (p q : α → Bool) :
    ∀ l : List α, (l.filter p).filter q = (l.filter q).filter p := by
  intro l
  induction l with
  | nil => rfl
  | cons a rest ih =>
    by_cases hp : p a = true <;> by_cases hq : q a = true <;>
      simp [List.filter_cons, hp, hq, ih]

/-- Filtering by the always-false predicate yields the empty list. -/
theorem filter_false_eq_nil {α : Type} (l : List α) :
    l.filter (fun _ => false) = [] := by
  induction l with
  | nil => rfl
  | cons a rest ih => simp [List.filter_cons, ih]

/-- In a list whose keys are distinct, filtering for a member's key yields
exactly that member. -/
theorem filter_singleton_of_nodup {α : Type} (f : α → String) :
    ∀ (l : List α) (d : α), (l.map f).Nodup → d ∈ l →
      l.filter (fun x => f x == f d) = [d] := by
  intro l
  induction l with
  | nil => intro d _ hd; cases hd
  | cons a rest ih =>
    intro d hnd hd
    have hna : f a ∉ rest.map f := (List.nodup_cons.mp hnd).1
    rcases List.mem_cons.mp hd with he | hm
    · subst he
      rw [List.filter_cons, if_pos (by simp)]
      have hnil : rest.filter (fun x => f x == f d) = [] := by
        apply List.filter_eq_nil_iff.mpr
        intro x hx hpx
        have hfx : f x = f d := by simpa using hpx
        exact hna (hfx ▸ List.mem_map_of_mem f hx)
      rw [hnil]
    · have hfd : f d ∈ rest.map f := List.mem_map_of_mem f hm
      have hne : (f a == f d) = false := by
        rw [beq_eq_false_iff_ne]
        intro h
        rw [h] at hna
        exact hna hfd
      rw [List.filter_cons, if_neg (by simp [hne]),
        ih d (List.nodup_cons.mp hnd).2 hm]

/-- In a list whose keys are distinct, looking up a member's key finds
exactly that member. -/
theorem find_of_mem_nodup {α : Type} (f : α → String) :
    ∀ (l : List α) (d : α), (l.map f).Nodup → d ∈ l →
      l.find? (fun x => f x == f d) = some d := by
  intro l
  induction l with
  | nil => intro d _ hd; cases hd
  | cons a rest ih =>
    intro d hnd hd
    have hna : f a ∉ rest.map f := (List.nodup_cons.mp hnd).1
    rcases List.mem_cons.mp hd with he | hm
    · subst he
      exact List.find?_cons_of_pos _ (by simp)
    · have hfd : f d ∈ rest.map f := List.mem_map_of_mem f hm
      have hne : (f a == f d) = false := by
        rw [beq_eq_false_iff_ne]
        intro h
        rw [h] at hna
        exact hna hfd
      rw [List.find?_cons_of_neg _ (by simp [hne]),
        ih d (List.nodup_cons.mp hnd).2 hm]

/-- A list of strings does not contain an element that is not a member. -/
theorem contains_eq_false_of_not_mem (xs : List String) (a : String) (h : a ∉ xs) :
    xs.contains a = false := by
  cases hc : xs.contains a
  · rfl
  · exact absurd (List.mem_of_elem_eq_true hc) h

end QuiesceRestoreHelpers

section QuiesceRestoreFacts

/-- The scale-state ledger written by a quiescence scan holds exactly one
Deployment entry per matched deployment with a distinct name, recording its
prior replica count. -/
theorem backup_filter_dep (c : Cluster) (names : List String) (d : Deployment)
    (hdup : (c.deployments.map Deployment.name).Nodup)
    (hd : d ∈ c.deployments)
    (hdm : DoublePivotSafe.matchClaims d.claimNames names = true) :
    (DoublePivotSafe.detect_and_scale_down c names false).2.2.filter
        (fun e => e.kind == "Deployment" && e.name == d.name)
      = [⟨d.uid, "Deployment", d.name, Prior.replicas d.replicas⟩] := by
  rw [(detect_effect c names).2]
  have h2 : (("ReplicaSet" : String) == "Deployment") = false := by decide
  have h3 : (("StatefulSet" : String) == "Deployment") = false := by decide
  have h4 : (("DaemonSet" : String) == "Deployment") = false := by decide
  have h5 : (("CronJob" : String) == "Deployment") = false := by decide
  have h6 : (("Job" : String) == "Deployment") = false := by decide
  simp only [List.filter_append, filter_map_eq, beq_self_eq_true, Bool.true_and,
    h2, h3, h4, h5, h6, Bool.false_and, filter_false_eq_nil, List.map_nil,
    List.append_nil, List.nil_append]
  rw [filter_swap,
    filter_singleton_of_nodup Deployment.name c.deployments d hdup hd]
  simp [List.filter_cons, hdm]

/-- The scale-state ledger holds exactly one ReplicaSet entry per matched
replicaset with a distinct name, recording its prior replica count. -/
theorem backup_filter_rs (c : Cluster) (names : List String) (r : ReplicaSet) (m : Int)
    (hdup : (c.replicasets.map ReplicaSet.name).Nodup)
    (hr : r ∈ c.replicasets)
    (hrm : DoublePivotSafe.matchClaims r.claimNames names = true)
    (hrr : r.replicas = some m) :
    (DoublePivotSafe.detect_and_scale_down c names false).2.2.filter
        (fun e => e.kind == "ReplicaSet" && e.name == r.name)
      = [⟨r.uid, "ReplicaSet", r.name, Prior.replicas m⟩] := by
  rw [(detect_effect c names).2]
  have h1 : (("Deployment" : String) == "ReplicaSet") = false := by decide
  have h3 : (("StatefulSet" : String) == "ReplicaSet") = false := by decide
  have h4 : (("DaemonSet" : String) == "ReplicaSet") = false := by decide
  have h5 : (("CronJob" : String) == "ReplicaSet") = false := by decide
  have h6 : (("Job" : String) == "ReplicaSet") = false := by decide
  simp only [List.filter_append, filter_map_eq, beq_self_eq_true, Bool.true_and,
    h1, h3, h4, h5, h6, Bool.false_and, filter_false_eq_nil, List.map_nil,
    List.append_nil, List.nil_append]
  rw [filter_swap,
    filter_singleton_of_nodup ReplicaSet.name c.replicasets r hdup hr]
  simp [List.filter_cons, hrm, hrr]

/-- The scale-state ledger holds exactly one StatefulSet entry per matched
statefulset with a distinct name, recording its prior replica count. -/
theorem backup_filter_sts (c : Cluster) (names : List String) (s : StatefulSet)
    (hdup : (c.statefulsets.map StatefulSet.name).Nodup)
    (hs : s ∈ c.statefulsets)
    (hsm : DoublePivotSafe.stsMatches s names = true) :
    (DoublePivotSafe.detect_and_scale_down c names false).2.2.filter
        (fun e => e.kind == "StatefulSet" && e.name == s.name)
      = [⟨s.uid, "StatefulSet", s.name, Prior.replicas s.replicas⟩] := by
  rw [(detect_effect c names).2]
  have h1 : (("Deployment" : String) == "StatefulSet") = false := by decide
  have h2 : (("ReplicaSet" : String) == "StatefulSet") = false := by decide
  have h4 : (("DaemonSet" : String) == "StatefulSet") = false := by decide
  have h5 : (("CronJob" : String) == "StatefulSet") = false := by decide
  have h6 : (("Job" : String) == "StatefulSet") = false := by decide
  simp only [List.filter_append, filter_map_eq, beq_self_eq_true, Bool.true_and,
    h1, h2, h4, h5, h6, Bool.false_and, filter_false_eq_nil, List.map_nil,
    List.append_nil, List.nil_append]
  rw [filter_swap,
    filter_singleton_of_nodup StatefulSet.name c.statefulsets s hdup hs]
  simp [List.filter_cons, hsm]

/-- The quiescence scan scales a matched deployment with positive replicas
down to zero. -/
theorem down_find_dep (c : Cluster) (names : List String) (d : Deployment)
    (hdup : (c.deployments.map Deployment.name).Nodup)
    (hd : d ∈ c.deployments)
    (hdm : DoublePivotSafe.matchClaims d.claimNames names = true)
    (hdr : 0 < d.replicas) :
    (DoublePivotSafe.detect_and_scale_down c names false).1.deployments.find?
        (fun x => x.name == d.name) = some { d with replicas := 0 } := by
  rw [(detect_effect c names).1]
  have hfind : c.deployments.find? (fun x => x.name == d.name) = some d :=
    find_of_mem_nodup Deployment.name c.deployments d hdup hd
  have hmem : d ∈ c.deployments.filter
      (fun y => DoublePivotSafe.matchClaims y.claimNames names
        && decide (0 < y.replicas)) :=
    List.mem_filter.mpr ⟨hd, by simp [hdm, hdr]⟩
  have hcd : ((c.deployments.filter
      (fun y => DoublePivotSafe.matchClaims y.claimNames names
        && decide (0 < y.replicas))).map Deployment.name).contains d.name = true :=
    List.elem_eq_true_of_mem (List.mem_map_of_mem Deployment.name hmem)
  rw [find_dep_map _ _ _ (by intro x; split <;> rfl), hfind]
  simp only [Option.map_some', hcd]
  rfl

/-- The quiescence scan scales a matched replicaset with positive replicas
down to zero. -/
theorem down_find_rs (c : Cluster) (names : List String) (r : ReplicaSet) (m : Int)
    (hdup : (c.replicasets.map ReplicaSet.name).Nodup)
    (hr : r ∈ c.replicasets)
    (hrm : DoublePivotSafe.matchClaims r.claimNames names = true)
    (hrr : r.replicas = some m) (hm : 0 < m) :
    (DoublePivotSafe.detect_and_scale_down c names false).1.replicasets.find?
        (fun x => x.name == r.name) = some { r with replicas := some 0 } := by
  rw [(detect_effect c names).1]
  have hfind : c.replicasets.find? (fun x => x.name == r.name) = some r :=
    find_of_mem_nodup ReplicaSet.name c.replicasets r hdup hr
  have hmem : r ∈ c.replicasets.filter
      (fun y => DoublePivotSafe.matchClaims y.claimNames names
        && decide (0 < y.replicas.getD 0)) :=
    List.mem_filter.mpr ⟨hr, by simp [hrm, hrr, hm]⟩
  have hcd : ((c.replicasets.filter
      (fun y => DoublePivotSafe.matchClaims y.claimNames names
        && decide (0 < y.replicas.getD 0))).map ReplicaSet.name).contains r.name
        = true :=
    List.elem_eq_true_of_mem (List.mem_map_of_mem ReplicaSet.name hmem)
  rw [find_rs_map _ _ _ (by intro x; split <;> rfl), hfind]
  simp only [Option.map_some', hcd]
  rfl

/-- The quiescence scan scales a matched statefulset with positive replicas
down to zero. -/
theorem down_find_sts (c : Cluster) (names : List String) (s : StatefulSet)
    (hdup : (c.statefulsets.map StatefulSet.name).Nodup)
    (hs : s ∈ c.statefulsets)
    (hsm : DoublePivotSafe.stsMatches s names = true)
    (hsr : 0 < s.replicas) :
    (DoublePivotSafe.detect_and_scale_down c names false).1.statefulsets.find?
        (fun x => x.name == s.name) = some { s with replicas := 0 } := by
  rw [(detect_effect c names).1]
  have hfind : c.statefulsets.find? (fun x => x.name == s.name) = some s :=
    find_of_mem_nodup StatefulSet.name c.statefulsets s hdup hs
  have hmem : s ∈ c.statefulsets.filter
      (fun y => DoublePivotSafe.stsMatches y names && decide (0 < y.replicas)) :=
    List.mem_filter.mpr ⟨hs, by simp [hsm, hsr]⟩
  have hcd : ((c.statefulsets.filter
      (fun y => DoublePivotSafe.stsMatches y names
        && decide (0 < y.replicas))).map StatefulSet.name).contains s.name = true :=
    List.elem_eq_true_of_mem (List.mem_map_of_mem StatefulSet.name hmem)
  rw [find_sts_map _ _ _ (by intro x; split <;> rfl), hfind]
  simp only [Option.map_some', hcd]
  rfl

/-- The quiescence scan deletes every matched job: no job under its name
survives the scan. -/
theorem down_jobs_gone (c : Cluster) (names : List String) (j : JobW)
    (hj : j ∈ c.jobs)
    (hjm : DoublePivotSafe.matchClaims j.claimNames names = true) :
    (((DoublePivotSafe.detect_and_scale_down c names false).1.jobs.map
        JobW.name).contains j.name) = false := by
  rw [(detect_effect c names).1]
  have hjn : ((c.jobs.filter
      (fun y => DoublePivotSafe.matchClaims y.claimNames names)).map
        JobW.name).contains j.name = true :=
    List.elem_eq_true_of_mem
      (List.mem_map_of_mem JobW.name (List.mem_filter.mpr ⟨hj, hjm⟩))
  apply contains_eq_false_of_not_mem
  intro hmem
  obtain ⟨x, hx, hxe⟩ := List.mem_map.mp hmem
  have hxf := (List.mem_filter.mp hx).2
  rw [hxe, hjn] at hxf
  simp at hxf

end QuiesceRestoreFacts

/-- C7: quiescence/restore symmetry in double_pivot_safe. In a cluster whose
workload names are distinct (per kind), take a Deployment d, ReplicaSet r and
StatefulSet s that reference an affected volume and have replica count > 0,
and a Job j that references an affected volume. A non-dry quiescence scan
(detect_and_scale_down) scales d, r and s down to 0 and deletes every job
named j.name; the restore pass (scale_back_up on the written scale-state
ledger) then sets the replica counts back to exactly their prior values, so
d, r and s reappear unchanged, while no job named j.name is recreated. -/
theorem claim_C7 (c : Cluster) (names : List String) (tr : List Op)
    (d : Deployment) (r : ReplicaSet) (s : StatefulSet) (j : JobW) (m : Int)
    (down : Cluster × List Ev × Backup) (up : Cluster × List Op × Option Backup)
    (hdown : down = DoublePivotSafe.detect_and_scale_down c names false)
    (hup : up = DoublePivotSafe.scale_back_up down.1 tr (some down.2.2) false)
    (hdupD : (c.deployments.map Deployment.name).Nodup)
    (hdupR : (c.replicasets.map ReplicaSet.name).Nodup)
    (hdupS : (c.statefulsets.map StatefulSet.name).Nodup)
    (hd : d ∈ c.deployments)
    (hdm : DoublePivotSafe.matchClaims d.claimNames names = true)
    (hdr : 0 < d.replicas)
    (hr : r ∈ c.replicasets)
    (hrm : DoublePivotSafe.matchClaims r.claimNames names = true)
    (hrr : r.replicas = some m)
    (hm : 0 < m)
    (hs : s ∈ c.statefulsets)
    (hsm : DoublePivotSafe.stsMatches s names = true)
    (hsr : 0 < s.replicas)
    (hj : j ∈ c.jobs)
    (hjm : DoublePivotSafe.matchClaims j.claimNames names = true) :
    down.1.deployments.find? (fun x => x.name == d.name)
        = some { d with replicas := 0 }
    ∧ down.1.replicasets.find? (fun x => x.name == r.name)
        = some { r with replicas := some 0 }
    ∧ down.1.statefulsets.find? (fun x => x.name == s.name)
        = some { s with replicas := 0 }
    ∧ ((down.1.jobs.map JobW.name).contains j.name) = false
    ∧ up.1.deployments.find? (fun x => x.name == d.name) = some d
    ∧ up.1.replicasets.find? (fun x => x.name == r.name) = some r
    ∧ up.1.statefulsets.find? (fun x => x.name == s.name) = some s
    ∧ ((up.1.jobs.map JobW.name).contains j.name) = false := by
  subst hdown
  subst hup
  refine ⟨down_find_dep c names d hdupD hd hdm hdr,
    down_find_rs c names r m hdupR hr hrm hrr hm,
    down_find_sts c names s hdupS hs hsm hsr,
    down_jobs_gone c names j hj hjm, ?_, ?_, ?_, ?_⟩
  · simp only [DoublePivotSafe.scale_back_up]
    rw [restore_dep_find _ _ _ d.name d.uid d.replicas
      (backup_filter_dep c names d hdupD hd hdm)]
    rw [down_find_dep c names d hdupD hd hdm hdr]
    rfl
  · simp only [DoublePivotSafe.scale_back_up]
    rw [restore_rs_find _ _ _ r.name r.uid m
      (backup_filter_rs c names r m hdupR hr hrm hrr)]
    rw [down_find_rs c names r m hdupR hr hrm hrr hm]
    simp only [Option.map_some']
    rw [← hrr]
  · simp only [DoublePivotSafe.scale_back_up]
    rw [restore_sts_find _ _ _ s.name s.uid s.replicas
      (backup_filter_sts c names s hdupS hs hsm)]
    rw [down_find_sts c names s hdupS hs hsm hsr]
    rfl
  · simp only [DoublePivotSafe.scale_back_up]
    rw [restoreEntries_jobs]
    exact down_jobs_gone c names j hj hjm

/-- Witness for C7 at a concrete cluster: a deployment with 3 replicas and a
job, both mounting data-pvc; after scale-down plus restore the deployment is
back at 3 replicas and the job is gone. -/
theorem claim_C7_witness :
    (DoublePivotSafe.scale_back_up
        (DoublePivotSafe.detect_and_scale_down
          { deployments := [⟨"u1", "web", ["data-pvc"], 3⟩],
            replicasets := [⟨"u2", "rs1", ["data-pvc"], some 2⟩],
            statefulsets := [⟨"u3", "db", ["data-pvc"], [], 2⟩],
            jobs := [⟨"u4", "load", ["data-pvc"]⟩] } ["data-pvc"] false).1 []
        (some (DoublePivotSafe.detect_and_scale_down
          { deployments := [⟨"u1", "web", ["data-pvc"], 3⟩],
            replicasets := [⟨"u2", "rs1", ["data-pvc"], some 2⟩],
            statefulsets := [⟨"u3", "db", ["data-pvc"], [], 2⟩],
            jobs := [⟨"u4", "load", ["data-pvc"]⟩] } ["data-pvc"] false).2.2)
        false).1.deployments.find? (fun x => x.name == "web")
      = some ⟨"u1", "web", ["data-pvc"], 3⟩
    ∧ ((DoublePivotSafe.scale_back_up
        (DoublePivotSafe.detect_and_scale_down
          { deployments := [⟨"u1", "web", ["data-pvc"], 3⟩],
            replicasets := [⟨"u2", "rs1", ["data-pvc"], some 2⟩],
            statefulsets := [⟨"u3", "db", ["data-pvc"], [], 2⟩],
            jobs := [⟨"u4", "load", ["data-pvc"]⟩] } ["data-pvc"] false).1 []
        (some (DoublePivotSafe.detect_and_scale_down
          { deployments := [⟨"u1", "web", ["data-pvc"], 3⟩],
            replicasets := [⟨"u2", "rs1", ["data-pvc"], some 2⟩],
            statefulsets := [⟨"u3", "db", ["data-pvc"], [], 2⟩],
            jobs := [⟨"u4", "load", ["data-pvc"]⟩] } ["data-pvc"] false).2.2)
        false).1.jobs.map JobW.name).contains "load" = false := by
  have h := claim_C7
    { deployments := [⟨"u1", "web", ["data-pvc"], 3⟩],
      replicasets := [⟨"u2", "rs1", ["data-pvc"], some 2⟩],
      statefulsets := [⟨"u3", "db", ["data-pvc"], [], 2⟩],
      jobs := [⟨"u4", "load", ["data-pvc"]⟩] } ["data-pvc"] []
    ⟨"u1", "web", ["data-pvc"], 3⟩ ⟨"u2", "rs1", ["data-pvc"], some 2⟩
    ⟨"u3", "db", ["data-pvc"], [], 2⟩ ⟨"u4", "load", ["data-pvc"]⟩ 2 _ _
    rfl rfl (by decide) (by decide) (by decide) (by decide) (by decide)
    (by decide) (by decide) (by decide) (by decide) (by decide) (by decide)
    (by decide) (by decide) (by decide) (by decide)
  exact ⟨h.2.2.2.2.1, h.2.2.2.2.2.2.2⟩

section SnapshotPathLemmas

/-- No mutating cluster call changes the set of installed snapshot classes. -/
theorem applyOp_snapClasses (c : Cluster) (op : Op) :
    (applyOp c op).snapClasses = c.snapClasses := by
  cases op
  all_goals simp only [applyOp]
  all_goals (repeat' split)
  all_goals rfl

/-- Folding mutating calls preserves the snapshot classes. -/
theorem foldl_applyOp_snapClasses :
    ∀ (ops : List Op) (c : Cluster), (ops.foldl applyOp c).snapClasses = c.snapClasses := by
  intro ops
  induction ops with
  | nil => intro c; rfl
  | cons o rest ih =>
    intro c
    rw [List.foldl_cons, ih, applyOp_snapClasses]

/-- create_volume_snapshot preserves the snapshot classes. -/
theorem create_volume_snapshot_snapClasses (c : Cluster) (tr : List Op)
    (p sc : String) (sf d : Bool) :
    (MoveStorage.create_volume_snapshot c tr p sc sf d).clusterOf.snapClasses
      = c.snapClasses := by
  simp only [MoveStorage.create_volume_snapshot]
  repeat' split
  all_goals simp [Out.clusterOf, applyOp_snapClasses]

/-- create_volume_snapshot never creates a pod. -/
theorem create_volume_snapshot_trace (c : Cluster) (tr : List Op)
    (p sc : String) (sf d : Bool)
    (h : tr.all (fun o => !(isCreatePod o)) = true) :
    (MoveStorage.create_volume_snapshot c tr p sc sf d).traceOf.all
      (fun o => !(isCreatePod o)) = true := by
  simp only [MoveStorage.create_volume_snapshot]
  repeat' split
  all_goals simp only [Out.traceOf, List.all_append, h, Bool.true_and]
  all_goals rfl

/-- create_new_pvc preserves the snapshot classes. -/
theorem create_new_pvc_snapClasses (c : Cluster) (tr : List Op) (old : PVC)
    (t : String) (d : Bool) (sn : Option String) :
    (MoveStorage.create_new_pvc c tr old t d sn).clusterOf.snapClasses
      = c.snapClasses := by
  simp only [MoveStorage.create_new_pvc]
  repeat' split
  all_goals simp [Out.clusterOf, applyOp_snapClasses]

/-- create_new_pvc never creates a pod. -/
theorem create_new_pvc_trace (c : Cluster) (tr : List Op) (old : PVC)
    (t : String) (d : Bool) (sn : Option String)
    (h : tr.all (fun o => !(isCreatePod o)) = true) :
    (MoveStorage.create_new_pvc c tr old t d sn).traceOf.all
      (fun o => !(isCreatePod o)) = true := by
  simp only [MoveStorage.create_new_pvc]
  repeat' split
  all_goals simp only [Out.traceOf, List.all_append, h, Bool.true_and]
  all_goals rfl

/-- create_pivot_pod preserves the snapshot classes. -/
theorem create_pivot_pod_snapClasses (c : Cluster) (tr : List Op)
    (oracle : String → PodPhase) (src tgt : String) (d : Bool) :
    (MoveStorage.create_pivot_pod c tr oracle src tgt d).1.snapClasses
      = c.snapClasses := by
  simp only [MoveStorage.create_pivot_pod]
  split
  · rfl
  · simp [applyOp_snapClasses]

/-- The Deployment patch pass preserves the snapshot classes. -/
theorem patchDeployList_snapClasses (o n : String) (dry : Bool) :
    ∀ (l : List Deployment) (c : Cluster) (tr : List Op),
      (MoveStorage.patchDeployList o n dry l c tr).1.snapClasses = c.snapClasses := by
  intro l
  induction l with
  | nil => intro c tr; rfl
  | cons d rest ih =>
    intro c tr
    simp only [MoveStorage.patchDeployList]
    have key : ∀ (s : Cluster × List Op), s.1.snapClasses = c.snapClasses →
        (MoveStorage.patchDeployList o n dry rest s.1 s.2).1.snapClasses
          = c.snapClasses := by
      intro s hs
      rw [ih s.1 s.2, hs]
    apply key
    split
    · rfl
    · simp [foldl_applyOp_snapClasses]

/-- The Deployment patch pass never creates a pod. -/
theorem patchDeployList_trace (o n : String) (dry : Bool) :
    ∀ (l : List Deployment) (c : Cluster) (tr : List Op),
      tr.all (fun op => !(isCreatePod op)) = true →
      (MoveStorage.patchDeployList o n dry l c tr).2.all
        (fun op => !(isCreatePod op)) = true := by
  intro l
  induction l with
  | nil => intro c tr h; exact h
  | cons d rest ih =>
    intro c tr h
    simp only [MoveStorage.patchDeployList]
    have key : ∀ (s : Cluster × List Op), s.2.all (fun op => !(isCreatePod op)) = true →
        (MoveStorage.patchDeployList o n dry rest s.1 s.2).2.all
          (fun op => !(isCreatePod op)) = true := by
      intro s hs
      exact ih s.1 s.2 hs
    apply key
    split
    · exact h
    · simp only [List.all_append, h, Bool.true_and]
      apply List.all_eq_true.mpr
      intro x hx
      rw [List.eq_of_mem_replicate hx]
      rfl

/-- The StatefulSet patch pass preserves the snapshot classes. -/
theorem patchStsList_snapClasses (o osc n : String) (dry : Bool) :
    ∀ (l : List StatefulSet) (c : Cluster) (tr : List Op),
      (MoveStorage.patchStsList o osc n dry l c tr).1.snapClasses = c.snapClasses := by
  intro l
  induction l with
  | nil => intro c tr; rfl
  | cons d rest ih =>
    intro c tr
    simp only [MoveStorage.patchStsList]
    have key : ∀ (s : Cluster × List Op), s.1.snapClasses = c.snapClasses →
        (MoveStorage.patchStsList o osc n dry rest s.1 s.2).1.snapClasses
          = c.snapClasses := by
      intro s hs
      rw [ih s.1 s.2, hs]
    apply key
    split
    · rfl
    · simp [foldl_applyOp_snapClasses]

/-- The StatefulSet patch pass never creates a pod. -/
theorem patchStsList_trace (o osc n : String) (dry : Bool) :
    ∀ (l : List StatefulSet) (c : Cluster) (tr : List Op),
      tr.all (fun op => !(isCreatePod op)) = true →
      (MoveStorage.patchStsList o osc n dry l c tr).2.all
        (fun op => !(isCreatePod op)) = true := by
  intro l
  induction l with
  | nil => intro c tr h; exact h
  | cons d rest ih =>
    intro c tr h
    simp only [MoveStorage.patchStsList]
    have key : ∀ (s : Cluster × List Op), s.2.all (fun op => !(isCreatePod op)) = true →
        (MoveStorage.patchStsList o osc n dry rest s.1 s.2).2.all
          (fun op => !(isCreatePod op)) = true := by
      intro s hs
      exact ih s.1 s.2 hs
    apply key
    split
    · exact h
    · simp only [List.all_append, h, Bool.true_and]
      rw [Bool.and_eq_true]
      constructor
      · apply List.all_eq_true.mpr
        intro x hx
        rw [List.eq_of_mem_replicate hx]
        rfl
      · apply List.all_eq_true.mpr
        intro x hx
        rw [List.eq_of_mem_replicate hx]
        rfl

/-- The DaemonSet patch pass preserves the snapshot classes. -/
theorem patchDsList_snapClasses (o n : String) (dry : Bool) :
    ∀ (l : List DaemonSet) (c : Cluster) (tr : List Op),
      (MoveStorage.patchDsList o n dry l c tr).1.snapClasses = c.snapClasses := by
  intro l
  induction l with
  | nil => intro c tr; rfl
  | cons d rest ih =>
    intro c tr
    simp only [MoveStorage.patchDsList]
    have key : ∀ (s : Cluster × List Op), s.1.snapClasses = c.snapClasses →
        (MoveStorage.patchDsList o n dry rest s.1 s.2).1.snapClasses
          = c.snapClasses := by
      intro s hs
      rw [ih s.1 s.2, hs]
    apply key
    split
    · rfl
    · simp [foldl_applyOp_snapClasses]

/-- The DaemonSet patch pass never creates a pod. -/
theorem patchDsList_trace (o n : String) (dry : Bool) :
    ∀ (l : List DaemonSet) (c : Cluster) (tr : List Op),
      tr.all (fun op => !(isCreatePod op)) = true →
      (MoveStorage.patchDsList o n dry l c tr).2.all
        (fun op => !(isCreatePod op)) = true := by
  intro l
  induction l with
  | nil => intro c tr h; exact h
  | cons d rest ih =>
    intro c tr h
    simp only [MoveStorage.patchDsList]
    have key : ∀ (s : Cluster × List Op), s.2.all (fun op => !(isCreatePod op)) = true →
        (MoveStorage.patchDsList o n dry rest s.1 s.2).2.all
          (fun op => !(isCreatePod op)) = true := by
      intro s hs
      exact ih s.1 s.2 hs
    apply key
    split
    · exact h
    · simp only [List.all_append, h, Bool.true_and]
      apply List.all_eq_true.mpr
      intro x hx
      rw [List.eq_of_mem_replicate hx]
      rfl

/-- The workload patch step preserves the snapshot classes. -/
theorem patch_workload_snapClasses (c : Cluster) (tr : List Op) (old : PVC)
    (nm : String) (dry ex : Bool) :
    (MoveStorage.patch_workload_using_pvc c tr old nm dry ex).1.snapClasses
      = c.snapClasses := by
  simp only [MoveStorage.patch_workload_using_pvc]
  rw [patchDsList_snapClasses, patchStsList_snapClasses, patchDeployList_snapClasses]

/-- The workload patch step never creates a pod. -/
theorem patch_workload_trace (c : Cluster) (tr : List Op) (old : PVC)
    (nm : String) (dry ex : Bool)
    (h : tr.all (fun op => !(isCreatePod op)) = true) :
    (MoveStorage.patch_workload_using_pvc c tr old nm dry ex).2.all
      (fun op => !(isCreatePod op)) = true := by
  simp only [MoveStorage.patch_workload_using_pvc]
  apply patchDsList_trace
  apply patchStsList_trace
  apply patchDeployList_trace
  exact h

/-- delete_old_pvc preserves the snapshot classes. -/
theorem delete_old_pvc_snapClasses (c : Cluster) (tr : List Op) (nm : String)
    (dry del : Bool) :
    (MoveStorage.delete_old_pvc c tr nm dry del).1.snapClasses = c.snapClasses := by
  simp only [MoveStorage.delete_old_pvc]
  repeat' split
  all_goals simp [applyOp_snapClasses]

/-- delete_old_pvc never creates a pod. -/
theorem delete_old_pvc_trace (c : Cluster) (tr : List Op) (nm : String)
    (dry del : Bool)
    (h : tr.all (fun op => !(isCreatePod op)) = true) :
    (MoveStorage.delete_old_pvc c tr nm dry del).2.all
      (fun op => !(isCreatePod op)) = true := by
  simp only [MoveStorage.delete_old_pvc]
  repeat' split
  all_goals simp only [List.all_append, h, Bool.true_and]
  all_goals rfl

end SnapshotPathLemmas

section SnapshotLoopLemmas

/-- When snapshot-class lookup yields nothing (probing failed or no class
matches), the per-PVC loop behaves exactly as if --prefer-snapshot had not
been given. -/
theorem mainLoop_lookup_none (args : MoveStorage.Args) (oracle : String → PodPhase)
    (pb sf : Bool) :
    ∀ (pvcs : List PVC) (c : Cluster) (tr : List Op),
      MoveStorage.get_snapshot_class_for_storage_class c.snapClasses pb args.origin
        = none →
      MoveStorage.mainLoop args oracle pb sf pvcs c tr
        = MoveStorage.mainLoop { args with prefer_snapshot := false } oracle pb sf
            pvcs c tr := by
  intro pvcs
  induction pvcs with
  | nil => intro c tr _; rfl
  | cons p rest ih =>
    intro c tr hnone
    by_cases hp : args.prefer_snapshot = true
    · simp only [MoveStorage.mainLoop, hp, hnone, if_true, Bool.false_eq_true, if_false]
      cases hcn : MoveStorage.create_new_pvc c tr p args.target args.dry_run none with
      | err c2 tr2 m => rfl
      | ok c2 tr2 nm =>
        have hc2 : c2.snapClasses = c.snapClasses := by
          have h := create_new_pvc_snapClasses c tr p args.target args.dry_run none
          rw [hcn] at h
          exact h
        simp only [Option.isNone_none, if_true]
        apply ih
        split
        · rw [create_pivot_pod_snapClasses, hc2]
          exact hnone
        · rw [delete_old_pvc_snapClasses, patch_workload_snapClasses,
            create_pivot_pod_snapClasses, hc2]
          exact hnone
    · have hps : args.prefer_snapshot = false := by
        cases hq : args.prefer_snapshot
        · rfl
        · exact absurd hq hp
      simp only [MoveStorage.mainLoop, hps, Bool.false_eq_true, if_false]
      cases hcn : MoveStorage.create_new_pvc c tr p args.target args.dry_run none with
      | err c2 tr2 m => rfl
      | ok c2 tr2 nm =>
        have hc2 : c2.snapClasses = c.snapClasses := by
          have h := create_new_pvc_snapClasses c tr p args.target args.dry_run none
          rw [hcn] at h
          exact h
        simp only [Option.isNone_none, if_true]
        apply ih
        split
        · rw [create_pivot_pod_snapClasses, hc2]
          exact hnone
        · rw [delete_old_pvc_snapClasses, patch_workload_snapClasses,
            create_pivot_pod_snapClasses, hc2]
          exact hnone

end SnapshotLoopLemmas

section SnapshotNoPodLemmas

/-- When --prefer-snapshot is given and a snapshot class is found for the
origin class (and neither probing nor snapshot creation fails), the per-PVC
loop never invokes the copy executor: no pod-creating call enters the trace. -/
theorem mainLoop_no_pod (args : MoveStorage.Args) (oracle : String → PodPhase)
    (hp : args.prefer_snapshot = true) :
    ∀ (pvcs : List PVC) (c : Cluster) (tr : List Op),
      (MoveStorage.get_snapshot_class_for_storage_class c.snapClasses false
        args.origin).isSome = true →
      tr.all (fun o => !(isCreatePod o)) = true →
      ((MoveStorage.mainLoop args oracle false false pvcs c tr).traceOf.all
        (fun o => !(isCreatePod o))) = true := by
  intro pvcs
  induction pvcs with
  | nil => intro c tr _ htr; exact htr
  | cons p rest ih =>
    intro c tr hsome htr
    obtain ⟨cls, hcls⟩ := Option.isSome_iff_exists.mp hsome
    simp only [MoveStorage.mainLoop, hp, if_true, hcls]
    cases hcv : MoveStorage.create_volume_snapshot c tr p.name cls false args.dry_run with
    | err c1 tr1 m =>
      have h := create_volume_snapshot_trace c tr p.name cls false args.dry_run htr
      rw [hcv] at h
      exact h
    | ok c1 tr1 sn =>
      dsimp only
      have htr1 : tr1.all (fun o => !(isCreatePod o)) = true := by
        have h := create_volume_snapshot_trace c tr p.name cls false args.dry_run htr
        rw [hcv] at h
        exact h
      have hc1 : c1.snapClasses = c.snapClasses := by
        have h := create_volume_snapshot_snapClasses c tr p.name cls false args.dry_run
        rw [hcv] at h
        exact h
      cases hcn : MoveStorage.create_new_pvc c1 tr1 p args.target args.dry_run (some sn) with
      | err c2 tr2 m =>
        have h := create_new_pvc_trace c1 tr1 p args.target args.dry_run (some sn) htr1
        rw [hcn] at h
        exact h
      | ok c2 tr2 nm =>
        have htr2 : tr2.all (fun o => !(isCreatePod o)) = true := by
          have h := create_new_pvc_trace c1 tr1 p args.target args.dry_run (some sn) htr1
          rw [hcn] at h
          exact h
        have hc2 : c2.snapClasses = c1.snapClasses := by
          have h := create_new_pvc_snapClasses c1 tr1 p args.target args.dry_run (some sn)
          rw [hcn] at h
          exact h
        simp only [Option.isNone_some, Bool.false_eq_true, if_false]
        apply ih
        · split
          · rw [hc2, hc1, hcls]
            rfl
          · rw [delete_old_pvc_snapClasses, patch_workload_snapClasses, hc2, hc1, hcls]
            rfl
        · split
          · exact htr2
          · apply delete_old_pvc_trace
            apply patch_workload_trace
            exact htr2

end SnapshotNoPodLemmas

/-- C9 (amended): snapshot fast-path behaviour of moveStorage.py. A failure
while probing for a snapshot class (probeFails, caught by the try/except in
get_snapshot_class_for_storage_class), or a probe that finds no matching
class, silently falls back to the pivot-copy path: the run is identical to one
without --prefer-snapshot. When the snapshot path is taken for every volume
(class found, creation succeeds) the copy executor is never invoked: no
pod-creating call enters the trace. But a failure during snapshot creation
does NOT fall back: create_volume_snapshot is unguarded, so the ApiException
propagates and the whole run aborts. -/
theorem claim_C9 (args : MoveStorage.Args) (oracle : String → PodPhase)
    (pb sf : Bool) (c : Cluster) (cls : String) :
    (MoveStorage.main args oracle true sf c
        = MoveStorage.main { args with prefer_snapshot := false } oracle true sf c)
    ∧ (MoveStorage.get_snapshot_class_for_storage_class c.snapClasses pb args.origin
          = none →
        MoveStorage.main args oracle pb sf c
          = MoveStorage.main { args with prefer_snapshot := false } oracle pb sf c)
    ∧ (args.prefer_snapshot = true →
        MoveStorage.get_snapshot_class_for_storage_class c.snapClasses false args.origin
          = some cls →
        ((MoveStorage.main args oracle false false c).traceOf.all
          (fun o => !(isCreatePod o))) = true)
    ∧ (args.prefer_snapshot = true → args.dry_run = false →
        MoveStorage.get_snapshot_class_for_storage_class c.snapClasses false args.origin
          = some cls →
        (MoveStorage.get_pvcs_by_storage_class c args.origin).isEmpty = false →
        (MoveStorage.main args oracle false true c).isErr = true) := by
  refine ⟨?_, ?_, ?_, ?_⟩
  · simp only [MoveStorage.main]
    split
    · rfl
    · exact mainLoop_lookup_none args oracle true sf _ c [] rfl
  · intro hnone
    simp only [MoveStorage.main]
    split
    · rfl
    · exact mainLoop_lookup_none args oracle pb sf _ c [] hnone
  · intro hp hcls
    simp only [MoveStorage.main]
    split
    · rfl
    · exact mainLoop_no_pod args oracle hp _ c [] (by rw [hcls]; rfl) rfl
  · intro hp hdry hcls hne
    simp only [MoveStorage.main]
    cases hpv : MoveStorage.get_pvcs_by_storage_class c args.origin with
    | nil =>
      rw [hpv] at hne
      simp at hne
    | cons p rest =>
      simp only [List.isEmpty_cons, Bool.false_eq_true, if_false]
      simp only [MoveStorage.mainLoop, hp, if_true, hcls]
      rw [hdry]
      simp only [MoveStorage.create_volume_snapshot, Bool.false_eq_true, if_false,
        if_true]
      rfl

/-- Counterexample to C9 as stated: a run with --prefer-snapshot in a cluster
with one matching volume and an installed matching snapshot class, where the
VolumeSnapshot create call raises, does not fall back to the copy path - it
aborts immediately with the uncaught ApiException, no pod is created and no
destination volume is produced. -/
theorem claim_C9_counterexample :
    MoveStorage.main ⟨"old-sc", "new-sc", false, true, false, false, false⟩
        (fun _ => PodPhase.Succeeded) false true
        { pvcs := [⟨"data-pvc", "old-sc", "10Gi", ["ReadWriteOnce"], none⟩],
          snapClasses := [⟨"snapclass", "Delete", "old-sc-driver"⟩] }
      = Out.err
          { pvcs := [⟨"data-pvc", "old-sc", "10Gi", ["ReadWriteOnce"], none⟩],
            snapClasses := [⟨"snapclass", "Delete", "old-sc-driver"⟩] }
          [] "ApiException creating VolumeSnapshot" := by
  decide

/-- Witness for C9 at concrete inputs: with an empty cluster the snapshot
preference is observationally removed by a probing failure or an absent class;
with a matching volume and snapshot class the successful snapshot path
creates no pod, while a failing snapshot create aborts the run. -/
theorem claim_C9_witness :
    (MoveStorage.main ⟨"old-sc", "new-sc", false, true, false, false, false⟩
        (fun _ => PodPhase.Succeeded) true false {}
      = MoveStorage.main ⟨"old-sc", "new-sc", false, false, false, false, false⟩
        (fun _ => PodPhase.Succeeded) true false {})
    ∧ (MoveStorage.main ⟨"old-sc", "new-sc", false, true, false, false, false⟩
        (fun _ => PodPhase.Succeeded) false false {}
      = MoveStorage.main ⟨"old-sc", "new-sc", false, false, false, false, false⟩
        (fun _ => PodPhase.Succeeded) false false {})
    ∧ ((MoveStorage.main ⟨"old-sc", "new-sc", false, true, false, false, false⟩
        (fun _ => PodPhase.Succeeded) false false
        { pvcs := [⟨"data-pvc", "old-sc", "10Gi", ["ReadWriteOnce"], none⟩],
          snapClasses := [⟨"snapclass", "Delete", "old-sc-driver"⟩] }).traceOf.all
        (fun o => !(isCreatePod o))) = true
    ∧ (MoveStorage.main ⟨"old-sc", "new-sc", false, true, false, false, false⟩
        (fun _ => PodPhase.Succeeded) false true
        { pvcs := [⟨"data-pvc", "old-sc", "10Gi", ["ReadWriteOnce"], none⟩],
          snapClasses := [⟨"snapclass", "Delete", "old-sc-driver"⟩] }).isErr = true := by
  have h1 := claim_C9 ⟨"old-sc", "new-sc", false, true, false, false, false⟩
    (fun _ => PodPhase.Succeeded) false false {} "x"
  have h2 := claim_C9 ⟨"old-sc", "new-sc", false, true, false, false, false⟩
    (fun _ => PodPhase.Succeeded) false true
    { pvcs := [⟨"data-pvc", "old-sc", "10Gi", ["ReadWriteOnce"], none⟩],
      snapClasses := [⟨"snapclass", "Delete", "old-sc-driver"⟩] } "snapclass"
  exact ⟨h1.1, h1.2.1 (by decide),
    h2.2.2.1 (by decide) (by decide),
    h2.2.2.2 (by decide) (by decide) (by decide) (by decide)⟩
